import Mathlib

/-!
# The YATE SDP session, ISUP mangler and SIP transaction states

A shallow embedding of `SDPSession` (`libs/ysdp/session.cpp`: the offer `createSDP`
builds, the `chan.rtp` dispatch, the updates of the media list), of the ISUP interceptor
(`modules/server/isupmangler.cpp`) and of the state tests of `libs/ysip/yatesip.h`,
followed by theorems about them.

Conventions of the embedding:

* a YATE `String` is a Lean `String`; the null string and the empty string coincide
  (`String::null()` holds for both), so a test such as `if (frm)` reads `frm ≠ ""`;
* a nullable `const char*` argument is an `Option String`, a nullable `ObjList*` is an
  `Option (List _)`; the list holds the objects `skipNull()`/`skipNext()` walk through;
* a `MimeSdpBody` built by `createSDP` is the sequence of its lines in the order of the
  `addLine` calls;
* `int` values are `Int`; they are written into strings in decimal (`String << int`).
-/

namespace Yate

/-! ## Strings -/

/-- Pieces of a character sequence between occurrences of the separator `sep`. -/
def splitChars (sep : Char) : List Char → List (List Char)
  | [] => [[]]
  | c :: cs =>
    if c = sep then [] :: splitChars sep cs
    else
      match splitChars sep cs with
      | [] => [[c]]
      | w :: ws => (c :: w) :: ws

/-- Modelled from the spec: `String::split(separator, emptyOK)` of the YATE class library
(declared in yateclass.h): the format list and the mapping table are
"comma-separated" token lists; with `emptyOK` false the empty pieces are dropped. -/
def split (s : String) (sep : Char) (emptyOK : Bool) : List String :=
  ((splitChars sep s.data).filter (fun w => emptyOK || !w.isEmpty)).map String.mk

/-- Modelled from the spec: `String::startsWith(what)` with the default flags: `what` is a
non-empty prefix of the string. -/
def startsWith (s what : String) : Bool :=
  !what.data.isEmpty && what.data.isPrefixOf s.data

/-- Characters that follow the first occurrence of `c` (everything when `c` is absent). -/
def skipPastChar (c : Char) : List Char → List Char → List Char
  | all, [] => all
  | all, d :: ds => if d = c then ds else skipPastChar c all ds

/-- Modelled from the spec: `String::operator>>(const char* skip)` for a one character
`skip`: the string loses everything up to and including the first occurrence of `skip`,
and is left alone when `skip` does not occur. -/
def skipPast (s : String) (c : Char) : String :=
  String.mk (skipPastChar c s.data s.data)

/-- The in-place loop of `createSDP` that overwrites every comma of `frm` with a space. -/
def commasToSpaces (s : String) : String :=
  String.mk (s.data.map (fun c => if c = ',' then ' ' else c))

/-! ## Data model -/

/-- A name/value pair (`NamedString`): an SDP line `name=value` or a parameter. -/
structure NamedString where
  name : String
  value : String
deriving DecidableEq, Repr

/-- Modelled from the spec: the media descriptor `SDPMedia` (declared in yatesdp.h,
outside session.cpp). The fields are the values of the accessors that
`session.cpp` calls: the media type (the descriptor's own string), `isAudio()`,
`isModified()`, `transport()`, `fmtList()` (a null pointer is the empty string),
`mappings()`, `rfc2833()`, `localPort()`, `remotePort()`, `format()`, `localCrypto()`,
`remoteCrypto()`, `localChanged()`, `securable()` and the attribute bag (the descriptor
is a `NamedList`). -/
structure SDPMedia where
  name : String
  audio : Bool
  modified : Bool
  transport : String
  fmtList : String
  mappings : String
  rfc2833 : String
  localPort : String
  remotePort : String
  format : String
  localCrypto : String
  remoteCrypto : String
  localChanged : Bool
  securable : Bool
  params : List NamedString
deriving DecidableEq, Repr

/-- Media status of a session (`MediaMissing`, `MediaStarted`, `MediaMuted`). -/
inductive MediaStatus where
  | MediaMissing
  | MediaStarted
  | MediaMuted
deriving DecidableEq, Repr

/-- The members of `SDPSession` that `session.cpp` reads and writes. -/
structure SDPSession where
  mediaStatus : MediaStatus
  rtpForward : Bool
  sdpForward : Bool
  externalAddr : String
  rtpAddr : String
  rtpLocalAddr : String
  rtpMedia : Option (List SDPMedia)
  sdpSession : Int
  sdpVersion : Int
  host : String
  secure : Bool
  rfc2833 : Bool
deriving DecidableEq, Repr

/-- What `createSDP` takes from code outside `session.cpp`: the parser's session name, the
static tables `SDPParser::s_payloads` and `SDPParser::s_rtpmap`, the parser's codec
switches `m_codecs`, the data translator, the integer readers of the string class (which
rest on the C library) and the accessor `getRtpAddr()`. Every theorem below holds for all
of them. -/
structure Env where
  /-- The member `m_parser->m_sessionName`. -/
  sessionName : String
  /-- The call `s->toInteger(SDPParser::s_payloads,-1)`: static payload type, -1 if none. -/
  payloads : String → Int
  /-- The call `lookup(defcode,SDPParser::s_rtpmap)`: encoding text, or a null pointer. -/
  rtpmap : Int → Option String
  /-- The call `m_parser->m_codecs.getBoolValue(name,defvalue)`. -/
  codecs : String → Bool → Bool
  /-- The call `DataTranslator::canConvert(name)`. -/
  canConvert : String → Bool
  /-- The extraction `String >> int`: the leading integer, `none` when there is none. -/
  readInt : String → Option Int
  /-- The call `String::toInteger(defvalue)`. -/
  toInteger : String → Int → Int
  /-- The accessor `SDPSession::getRtpAddr()`, a nullable `const char*`. -/
  getRtpAddr : SDPSession → Option String

/-! ## `SDPSession::createSDP(const char* addr, ObjList* mediaList)` -/

/-- The locals `frm`, `rtpmap` and `ptime` of the loop over the media's formats. -/
structure FmtAcc where
  frm : String
  rtpmap : List String
  ptime : Int
deriving DecidableEq, Repr

/-- Lines 323-339: the static payload of the token, replaced by the number read from the
first mapping that starts with `token=` (-1 when no number can be read there). -/
def mappedPayload (E : Env) (map : List String) (s : String) : Int :=
  match map.find? (fun mapping => startsWith mapping (s ++ "=")) with
  | some mapping => (E.readInt (skipPast mapping '=')).getD (-1)
  | none => E.payloads s

/-- Line 344: the codec switch `m_codecs.getBoolValue(*s,defcodecs && canConvert(*s))`. -/
def codecEnabled (E : Env) (s : String) : Bool :=
  E.codecs s (E.codecs "default" true && E.canConvert s)

/-- Lines 323-371: payload lookup, mapping override and the lines of one format. -/
def codecEmit (E : Env) (l map : List String) (acc : FmtAcc) (mode : Int) (s : String) :
    FmtAcc :=
  let payload := mappedPayload E map s
  if 0 ≤ payload then
    let defcode := if E.payloads s < 0 then payload else E.payloads s
    match E.rtpmap defcode with
    | none => acc
    | some enc =>
      if codecEnabled E s then
        { frm := acc.frm ++ " " ++ toString payload
          rtpmap := acc.rtpmap ++ ["rtpmap:" ++ toString payload ++ " " ++ enc]
            ++ (if mode ≠ 0 then ["fmtp:" ++ toString payload ++ " mode=" ++ toString mode]
                else [])
            ++ (if s = "g729" then
                  ["fmtp:" ++ toString payload ++ " annexb="
                    ++ (if "g729b" ∈ l then "yes" else "no")]
                else if s = "amr" then ["fmtp:" ++ toString payload ++ " octet-align=0"]
                else if s = "amr-o" then ["fmtp:" ++ toString payload ++ " octet-align=1"]
                else [])
          ptime := acc.ptime }
      else acc
  else acc

/-- Lines 314-372: one turn of the loop over the format list `l`. -/
def codecStep (E : Env) (l map : List String) (acc : FmtAcc) (s : String) : FmtAcc :=
  if s = "ilbc20" then codecEmit E l map { acc with ptime := 20 } 20 s
  else if s = "ilbc30" then codecEmit E l map { acc with ptime := 30 } 30 s
  else if s = "g729b" then acc
  else codecEmit E l map acc 0 s

/-- Lines 304-373: the loop over the formats of one media. -/
def codecLoop (E : Env) (m : SDPMedia) : FmtAcc :=
  let l := split m.fmtList ',' false
  let map := split m.mappings ',' false
  l.foldl (codecStep E l map) { frm := "", rtpmap := [], ptime := 0 }

/-- Lines 378-380: the telephone-event payload, 101 unless the media has its own. -/
def rfc2833Payload (E : Env) (m : SDPMedia) : Int :=
  if E.toInteger m.rfc2833 (-1) < 0 then 101 else E.toInteger m.rfc2833 (-1)

/-- Lines 377-386: advertise telephone events. -/
def addTelephoneEvent (E : Env) (s : SDPSession) (m : SDPMedia) (acc : FmtAcc) : FmtAcc :=
  if s.rfc2833 = true ∧ acc.frm ≠ "" ∧ m.audio = true then
    { acc with
      frm := acc.frm ++ " " ++ toString (rfc2833Payload E m)
      rtpmap := acc.rtpmap
        ++ ["rtpmap:" ++ toString (rfc2833Payload E m) ++ " telephone-event/8000"] }
  else acc

/-- Lines 306-307: the start of the `m=` line. -/
def mlineHead (m : SDPMedia) : String :=
  m.name ++ " " ++ (if m.localPort ≠ "" then m.localPort else "0") ++ " " ++ m.transport

/-- Lines 412-424: the copies of the attribute bag, made for a modified media only. -/
def bagLines (m : SDPMedia) : List NamedString :=
  if m.modified = true then
    m.params.map (fun param =>
      { name := "a"
        value := if param.value ≠ "" then param.name ++ ":" ++ param.value
                 else param.name })
  else []

/-- Lines 411-424: the flag `enc`, set when a copied attribute is named `encryption`. -/
def bagEnc (m : SDPMedia) : Bool :=
  m.modified && m.params.any (fun param => param.name = "encryption")

/-- Lines 404-408: the packet time line joins the generated attributes. -/
def withPtime (acc : FmtAcc) : List String :=
  if acc.ptime ≠ 0 then acc.rtpmap ++ ["ptime:" ++ toString acc.ptime] else acc.rtpmap

/-- Lines 430-434: the crypto lines. -/
def cryptoLines (addr : Option String) (m : SDPMedia) : List NamedString :=
  if addr.isSome = true ∧ m.localCrypto ≠ "" then
    { name := "a", value := "crypto:" ++ m.localCrypto }
      :: (if bagEnc m = true then [] else [{ name := "a", value := "encryption:optional" }])
  else []

/-- Lines 303-434: the lines one media adds to the body (none when it is excluded). -/
def mediaBlock (E : Env) (s : SDPSession) (addr : Option String) (m : SDPMedia) :
    List NamedString :=
  let acc := addTelephoneEvent E s m (codecLoop E m)
  if acc.frm = "" ∧ (m.audio = true ∨ m.fmtList = "") then []
  else
    let frm := if acc.frm = "" then commasToSpaces (" " ++ m.fmtList) else acc.frm
    [{ name := "m", value := mlineHead m ++ frm }]
      ++ bagLines m
      ++ (withPtime acc).map (fun a => { name := "a", value := a })
      ++ cryptoLines addr m

/-- Lines 281-284: session id and version of the offer about to be built; `now` is the
value of `Time::secNow()`. -/
def bumpVersion (now : Int) (s : SDPSession) : SDPSession :=
  if s.sdpSession ≠ 0 then { s with sdpVersion := s.sdpVersion + 1 }
  else { s with sdpSession := now, sdpVersion := now }

/-- Lines 287-289: the value of the `o=` line. -/
def originLine (s : SDPSession) (addr : Option String) : String :=
  "yate " ++ toString s.sdpSession ++ " " ++ toString s.sdpVersion
    ++ " IN IP4 " ++ (match addr with | some a => a | none => s.host)

/-- Lines 290-291: the value of the `c=` line. -/
def connLine (addr : Option String) : String :=
  "IN IP4 " ++ (match addr with | some a => a | none => "0.0.0.0")

/-- Lines 276-277: the session's own list is used when the given media list is null. -/
def pickList (s : SDPSession) (mediaList : Option (List SDPMedia)) : Option (List SDPMedia) :=
  match mediaList with
  | some ml => some ml
  | none => s.rtpMedia

/-- The function `SDPSession::createSDP(const char* addr, ObjList* mediaList)`: the session
afterwards and the body, `none` for a null pointer. -/
def createSDP (E : Env) (now : Int) (s : SDPSession) (addr : Option String)
    (mediaList : Option (List SDPMedia)) : SDPSession × Option (List NamedString) :=
  match pickList s mediaList with
  | none => (s, none)
  | some ml =>
    let s1 := bumpVersion now s
    (s1, some ([{ name := "v", value := "0" },
                { name := "o", value := originLine s1 addr },
                { name := "s", value := E.sessionName },
                { name := "c", value := connLine addr },
                { name := "t", value := "0 0" }]
               ++ (ml.map (mediaBlock E s1 addr)).flatten))

/-- Value of a run of decimal digits read after the value `acc`. -/
def readDigits : Nat → List Char → Nat
  | acc, [] => acc
  | acc, c :: cs => if c.isDigit then readDigits (acc * 10 + (c.toNat - 48)) cs else acc

/-- Leading decimal integer of a string, `none` when it does not start with a digit. -/
def readIntDec (s : String) : Option Int :=
  match s.data with
  | [] => none
  | c :: cs => if c.isDigit then some (readDigits 0 (c :: cs) : Nat) else none

/-- Decimal value of a string made of digits only, `d` for any other string. -/
def toIntegerDec (s : String) (d : Int) : Int :=
  if s.data ≠ [] ∧ s.data.all Char.isDigit then (readDigits 0 s.data : Nat) else d

/-- An environment to run the model on: the static payload types of a few common codecs
with their encodings, every codec enabled, decimal integer readers, and the RTP address
of the session (external address first). -/
def sampleEnv : Env where
  sessionName := "SIP Call"
  payloads := fun s =>
    if s = "mulaw" then 0 else if s = "alaw" then 8 else if s = "gsm" then 3
    else if s = "g729" then 18 else if s = "ilbc20" then 98 else if s = "ilbc30" then 98
    else if s = "amr" then 96 else if s = "amr-o" then 96 else -1
  rtpmap := fun p =>
    if p = 0 then some "PCMU/8000" else if p = 8 then some "PCMA/8000"
    else if p = 3 then some "GSM/8000" else if p = 18 then some "G729/8000"
    else if p = 98 then some "iLBC/8000" else if p = 96 then some "AMR/8000" else none
  codecs := fun _ d => d
  canConvert := fun _ => true
  readInt := readIntDec
  toInteger := toIntegerDec
  getRtpAddr := fun s =>
    if s.externalAddr ≠ "" then some s.externalAddr
    else if s.rtpLocalAddr ≠ "" then some s.rtpLocalAddr else none

/-- A fresh session (the constructor's values) in a given media status. -/
def sampleSession (secure rfc2833 : Bool) : SDPSession where
  mediaStatus := MediaStatus.MediaMissing
  rtpForward := false
  sdpForward := false
  externalAddr := ""
  rtpAddr := ""
  rtpLocalAddr := ""
  rtpMedia := none
  sdpSession := 0
  sdpVersion := 0
  host := "192.0.2.1"
  secure := secure
  rfc2833 := rfc2833

/-- A media descriptor with the given type, formats and mappings and nothing else set. -/
def sampleMedia (name fmts mappings : String) : SDPMedia where
  name := name
  audio := decide (name = "audio")
  modified := false
  transport := "RTP/AVP"
  fmtList := fmts
  mappings := mappings
  rfc2833 := ""
  localPort := ""
  remotePort := ""
  format := ""
  localCrypto := ""
  remoteCrypto := ""
  localChanged := false
  securable := true
  params := []


/-- A fax descriptor: media type `image` over `udptl` with the single format `t38`. -/
def faxMedia : SDPMedia :=
  { sampleMedia "image" "t38" "" with transport := "udptl" }

/-- An audio descriptor offering `ilbc20` whose attribute bag holds `ptime=30`. -/
def ptimeMedia : SDPMedia :=
  { sampleMedia "audio" "ilbc20" "" with
    modified := true
    params := [{ name := "ptime", value := "30" }] }

/-- A media block is empty or an `m=` line followed by `a=` lines only. -/
def IsMediaBlock (b : List NamedString) : Prop :=
  b = [] ∨ ∃ v attrs, b = { name := "m", value := v } :: attrs ∧ ∀ a ∈ attrs, a.name = "a"

/-- Lines 324 and 341-343: the key of the encoding lookup, the static payload type of the
token or, when it has none, its mapped number. -/
def defcode (E : Env) (map : List String) (s : String) : Int :=
  if E.payloads s < 0 then mappedPayload E map s else E.payloads s

/-- A token of the format list is retained when the loop appends its payload number to
`frm`: it is not `g729b` (line 321), its payload number is not negative (line 340), an
encoding is known for it and the codec is enabled (line 344). -/
def Retained (E : Env) (map : List String) (s : String) : Prop :=
  s ≠ "g729b" ∧ 0 ≤ mappedPayload E map s ∧ (E.rtpmap (defcode E map s)).isSome = true
    ∧ codecEnabled E s = true

instance (E : Env) (map : List String) (s : String) : Decidable (Retained E map s) := by
  unfold Retained
  infer_instance

/-- The format parameters the specification lists, for a token with payload number `pt`
in the format list `l`: `mode=20|30` for the iLBC variants, `annexb=yes|no` for G.729 (yes
iff `g729b` also appears in the list), `octet-align=0|1` for the AMR variants, none for
any other token. -/
def specFmtp (l : List String) (s : String) (pt : Int) : List String :=
  if s = "ilbc20" then ["fmtp:" ++ toString pt ++ " mode=20"]
  else if s = "ilbc30" then ["fmtp:" ++ toString pt ++ " mode=30"]
  else if s = "amr" then ["fmtp:" ++ toString pt ++ " octet-align=0"]
  else if s = "amr-o" then ["fmtp:" ++ toString pt ++ " octet-align=1"]
  else if s = "g729" then
    ["fmtp:" ++ toString pt ++ " annexb=" ++ (if "g729b" ∈ l then "yes" else "no")]
  else []

/-- The attribute lines the specification gives for one token of the format list: for a
retained token one `rtpmap:<pt> <encoding>` line followed by its format parameters, for
any other token nothing. -/
def specTokenLines (E : Env) (l map : List String) (s : String) : List String :=
  if Retained E map s then
    ("rtpmap:" ++ toString (mappedPayload E map s) ++ " "
        ++ (E.rtpmap (defcode E map s)).getD "")
      :: specFmtp l s (mappedPayload E map s)
  else []

/-- The text one token of the format list adds to the payload list of the `m=` line. -/
def specTokenPayload (E : Env) (map : List String) (s : String) : String :=
  if Retained E map s then " " ++ toString (mappedPayload E map s) else ""

/-- Concatenation of a list of strings. -/
def concatAll : List String → String
  | [] => ""
  | x :: xs => x ++ concatAll xs

/-- The packet time a token dictates: 20 for `ilbc20`, 30 for `ilbc30`, else the one so far. -/
def ptimeStep (p : Int) (s : String) : Int :=
  if s = "ilbc20" then 20 else if s = "ilbc30" then 30 else p

/-- The telephone-event line of lines 383-385, present under the condition of line 377. -/
def teleLines (E : Env) (s : SDPSession) (m : SDPMedia) (acc : FmtAcc) : List String :=
  if s.rfc2833 = true ∧ acc.frm ≠ "" ∧ m.audio = true then
    ["rtpmap:" ++ toString (rfc2833Payload E m) ++ " telephone-event/8000"]
  else []

/-- The telephone-event number of line 382, appended under the condition of line 377. -/
def telePayload (E : Env) (s : SDPSession) (m : SDPMedia) (acc : FmtAcc) : String :=
  if s.rfc2833 = true ∧ acc.frm ≠ "" ∧ m.audio = true then
    " " ++ toString (rfc2833Payload E m)
  else ""

/-- The packet time line of lines 404-408. -/
def ptimeLines (ptime : Int) : List String :=
  if ptime ≠ 0 then ["ptime:" ++ toString ptime] else []

/-- A packet time line of the body: `a=ptime:...`. -/
def isPtimeLine (x : NamedString) : Bool :=
  decide (x.name = "a") && startsWith x.value "ptime:"

/-- An attribute line of the body. -/
def attrLine (a : String) : NamedString := { name := "a", value := a }

/-! ## Parameter lists (`NamedList`) -/

/-- Modelled from the spec: `NamedList::getParam(name)`: the value of the first parameter
of that name, `none` (a null pointer) when there is none. -/
def getParam (l : List NamedString) (name : String) : Option String :=
  (l.find? (fun p => p.name = name)).map (fun p => p.value)

/-- Modelled from the spec: `NamedList::getValue(name,defvalue)`: the value of the first
parameter of that name, `defvalue` when there is none. -/
def getValue (l : List NamedString) (name : String) (defvalue : String) : String :=
  (getParam l name).getD defvalue

/-- Modelled from the spec: `NamedList::addParam(name,value)`: one more parameter at the
end of the list. -/
def addParam (l : List NamedString) (name value : String) : List NamedString :=
  l ++ [{ name := name, value := value }]

/-- Modelled from the spec: `NamedList::setParam(name,value)`: the first parameter of that
name gets the value; without such a parameter one is added at the end. -/
def setParam : List NamedString → String → String → List NamedString
  | [], name, value => [{ name := name, value := value }]
  | p :: ps, name, value =>
    if p.name = name then { name := name, value := value } :: ps
    else p :: setParam ps name value

/-- Modelled from the spec: `NamedList::clearParam(name)`: every parameter of that name is
removed. -/
def clearParam (l : List NamedString) (name : String) : List NamedString :=
  l.filter (fun p => p.name ≠ name)

/-- Modelled from the spec: `String::startSkip(what,false)`: when the string starts with
`what` the rest of it, otherwise `none` (the call returns false and leaves the string). -/
def startSkip (s what : String) : Option String :=
  if startsWith s what = true then some (String.mk (s.data.drop what.data.length)) else none

/-! ## ISUP interception (`modules/server/isupmangler.cpp`) -/

/-- The results of `receivedMSU` that the interceptor gives (`HandledMSU`). -/
inductive HandledMSU where
  | Rejected
  | Accepted
deriving DecidableEq, Repr

/-- Modelled from the spec: the routing label `SS7Label` (declared in yatesig.h): the
values of `type()`, `dpc()`, `opc()`, `sls()` and `length()`, the number of bytes the
label takes in the MSU. Point codes are numbers. -/
structure SS7Label where
  type : Nat
  dpc : Nat
  opc : Nat
  sls : Nat
  length : Nat
deriving DecidableEq, Repr

/-- Modelled from the spec: the signal unit `SS7MSU` (declared in yatesig.h): the service
indicator `getSIF()` and the bytes of the unit. -/
structure SS7MSU where
  sif : Int
  data : List (Fin 256)
deriving DecidableEq, Repr

/-- Modelled from the spec: `SS7MSU::getData(offs,len)`: the bytes from offset `offs` on
when `len` bytes are there, a null pointer otherwise. -/
def SS7MSU.getData (msu : SS7MSU) (offs len : Nat) : Option (List (Fin 256)) :=
  if offs + len ≤ msu.data.length then some (msu.data.drop offs) else none

/-- Subtraction of `unsigned int` values, modulo 2^32. -/
def usub32 (a b : Nat) : Nat :=
  (a % 4294967296 + 4294967296 - b % 4294967296) % 4294967296

/-- The members of `IsupIntercept` the module reads and writes, with the name
(`toString()`), the service indicator `sif()` and the subservice field `ssf()` of the
`SS7ISUP` it derives from. -/
structure IsupIntercept where
  name : String
  sif : Int
  ssf : Nat
  used : Bool
  symmetric : Bool
deriving DecidableEq, Repr

/-- The `IsupMessage` of lines 53-72: a message with its name and parameters, the
interceptor, type and CIC of the intercepted `SS7MsgISUP`, the label, the SLS and the
`accepted` flag. -/
structure IsupMessage where
  name : String
  params : List NamedString
  isup : IsupIntercept
  type : Nat
  cic : Nat
  label : SS7Label
  sls : Int
  accepted : Bool
deriving DecidableEq, Repr

/-- What the interceptor takes from code outside `isupmangler.cpp`: the point code tests
of `SS7ISUP`, the value of `SS7MsgISUP::IAM`, the shared ISUP decoder and the engine's
message queue. Every theorem holds for all of them. -/
structure IsupEnv where
  /-- The call `hasPointCode(pc)`: the point code is one of the unit's own. -/
  hasPointCode : IsupIntercept → Nat → Bool
  /-- The call `handlesRemotePC(pc)`: the point code is in the unit's remote set. -/
  handlesRemotePC : IsupIntercept → Nat → Bool
  /-- The enumeration value `SS7MsgISUP::IAM`. -/
  iam : Nat
  /-- The call `decodeMessage(params,type,pcType,paramPtr,paramLen)`: the decoded
  parameters, `none` when decoding fails. -/
  decodeMessage : Nat → Nat → List (Fin 256) → Nat → Option (List NamedString)
  /-- The call `Engine::enqueue(m)`. -/
  enqueue : IsupMessage → Bool

/-- Modelled from the spec: `NamedList::copyParams(original)` (declared in yateclass.h):
the message gets "all ISUP parameters as named values", each with its name and value,
after the parameters it has. -/
def copyParams (l original : List NamedString) : List NamedString :=
  l ++ original

/-- The function `IsupIntercept::processMSU` (lines 135-167): the result and the message
handed to `Engine::enqueue`. The name given to the parameter list of an unknown type
(lines 143-147) and the debug output do not reach the message. -/
def processMSU (X : IsupEnv) (u : IsupIntercept) (type cic : Nat)
    (paramPtr : List (Fin 256)) (paramLen : Nat) (label : SS7Label) (sls : Int) :
    Bool × Option IsupMessage :=
  match X.decodeMessage type label.type paramPtr paramLen with
  | none => (false, none)
  | some decoded =>
    let m : IsupMessage :=
      { name := "isup.mangle"
        params := copyParams
          (addParam (addParam [] "address" (u.name ++ "/" ++ toString cic))
            "sls" (toString sls)) decoded
        isup := u
        type := type
        cic := cic
        label := label
        sls := sls
        accepted := false }
    (X.enqueue m, some m)

/-- Lines 108-132 of `receivedMSU`: CIC and message type are read and an IAM is
processed. -/
def interceptMSU (X : IsupEnv) (u : IsupIntercept) (msu : SS7MSU) (label : SS7Label)
    (sls : Int) : HandledMSU × Option IsupMessage :=
  match msu.getData (label.length + 1) 3 with
  | some (s0 :: s1 :: s2 :: rest) =>
    let len := usub32 (usub32 msu.data.length label.length) 1
    let cic := s0.val ||| (s1.val <<< 8)
    let type := s2.val
    if type = X.iam then
      let r := processMSU X u type cic rest (usub32 len 3) label sls
      (if r.1 = true then HandledMSU.Accepted else HandledMSU.Rejected, r.2)
    else (HandledMSU.Rejected, none)
  | _ => (HandledMSU.Rejected, none)

/-- The function `IsupIntercept::receivedMSU` (lines 100-133): the result and the message
enqueued, if any. -/
def receivedMSU (X : IsupEnv) (u : IsupIntercept) (msu : SS7MSU) (label : SS7Label)
    (sls : Int) : HandledMSU × Option IsupMessage :=
  if msu.sif ≠ u.sif then (HandledMSU.Rejected, none)
  else if (!X.hasPointCode u label.dpc || !X.handlesRemotePC u label.opc)
      && (!u.symmetric || !X.hasPointCode u label.opc || !X.handlesRemotePC u label.dpc) then
    (HandledMSU.Rejected, none)
  else interceptMSU X u msu label sls

/-- An interceptor, a decoder and a queue to run the model on: own point code 10, remote
point code 20, IAM is message type 1, every parameter byte is decoded to a parameter
`Param_<n>` and every message is taken by the queue. -/
def sampleIsupEnv : IsupEnv where
  hasPointCode := fun _ pc => pc = 10
  handlesRemotePC := fun _ pc => pc = 20
  iam := 1
  decodeMessage := fun _ _ ptr len =>
    some ((ptr.take len).map (fun b =>
      { name := "Param_" ++ toString b.val, value := toString b.val }))
  enqueue := fun _ => true

/-- An interceptor named `mangler` for ISUP (service indicator 5). -/
def sampleIntercept (symmetric : Bool) : IsupIntercept where
  name := "mangler"
  sif := 5
  ssf := 0
  used := true
  symmetric := symmetric

/-- A label of four bytes from point code `opc` to point code `dpc`. -/
def sampleLabel (dpc opc : Nat) : SS7Label where
  type := 1
  dpc := dpc
  opc := opc
  sls := 3
  length := 4

/-! ## RTP setup and updates of the media list (`libs/ysdp/session.cpp`) -/

/-- A message of the engine: its name and its parameters. -/
structure Message where
  name : String
  params : List NamedString
deriving DecidableEq, Repr

/-- A body as `session.cpp` makes it: built line by line with `addLine` (`createSDP`), or
constructed from a buffer, `MimeSdpBody(type,buf,len)`, of which the type and the `len`
bytes of the buffer are kept. -/
inductive MimeSdpBody where
  | lines (ls : List NamedString)
  | raw (type : String) (buf : String)
deriving DecidableEq, Repr

/-- What the RTP setup and the updates of the media list take from code outside
`session.cpp`. Every theorem holds for all of them. -/
structure SdpOps where
  /-- The pure virtual `buildChanRtp(context)`: the channel's message, or a null pointer. -/
  buildChanRtp : Option Message
  /-- The call `Engine::dispatch(m)`: `none` when the dispatch is declined, otherwise the
  message as its handlers left it. -/
  dispatch : Message → Option Message
  /-- The call `media->update(msg,pickFormat)`. -/
  updateFromMsg : SDPMedia → Message → Bool → SDPMedia
  /-- The call `media->update(formats,rport,lport)`. -/
  updateFormats : SDPMedia → String → Int → Int → SDPMedia
  /-- The constructor `SDPMedia(media,transport,formats,rport,lport)`. -/
  newMedia : String → String → String → Int → Int → SDPMedia
  /-- The accessor `media->suffix()`. -/
  suffix : SDPMedia → String
  /-- The call `m->sameAs(other,ignorePort)`, `other` possibly null. -/
  sameAs : SDPMedia → Option SDPMedia → Bool → Bool
  /-- The call `String::toBoolean(defvalue)`. -/
  toBoolean : String → Bool → Bool
  /-- The formats `m_parser->getAudioFormats` gives. -/
  defFormats : String
  /-- The flag `m_parser->sdpForward()`. -/
  sdpForward : Bool
  /-- The flag `m_parser->ignorePort()`. -/
  ignorePort : Bool

/-- Modelled from the spec: `NamedList::getBoolValue(name,defvalue)`. -/
def getBoolValue (O : SdpOps) (l : List NamedString) (name : String) (defvalue : Bool) :
    Bool :=
  match getParam l name with
  | some v => O.toBoolean v defvalue
  | none => defvalue

/-- Modelled from the spec: `NamedList::getIntValue(name,defvalue)`. -/
def getIntValue (E : Env) (l : List NamedString) (name : String) (defvalue : Int) : Int :=
  match getParam l name with
  | some v => E.toInteger v defvalue
  | none => defvalue

/-- Modelled from the spec: `SDPMedia::crypto(desc,remote)` (declared in yatesdp.h): the
descriptor records `desc` as its remote crypto line when `remote` is set and as its local
crypto line otherwise. -/
def SDPMedia.crypto (m : SDPMedia) (desc : String) (remote : Bool) : SDPMedia :=
  if remote = true then { m with remoteCrypto := desc } else { m with localCrypto := desc }

/-- Modelled from the spec: `SDPMedia::parameter(name,value,append)` (declared in
yatesdp.h): the attribute is copied into the descriptor's attribute bag, added when
`append` is set and replacing the attribute of that name otherwise, and the descriptor is
flagged as modified; a null name does nothing. -/
def SDPMedia.parameter (m : SDPMedia) (name value : String) (append : Bool) : SDPMedia :=
  if name = "" then m
  else
    { m with
      modified := true
      params := if append = true then addParam m.params name value
                else setParam m.params name value }

/-- Modelled from the spec: `SDPMedia::mappings(newMap)` (declared in yatesdp.h): the
payload-type mapping table is replaced by a non-null `newMap`. -/
def SDPMedia.setMappings (m : SDPMedia) (newMap : String) : SDPMedia :=
  if newMap ≠ "" then { m with mappings := newMap } else m

/-- Modelled from the spec: `SDPMedia::rfc2833(payload)` (declared in yatesdp.h): the RFC
2833 payload type of the descriptor is the number, `false` for a negative one. -/
def SDPMedia.setRfc2833 (m : SDPMedia) (payload : Int) : SDPMedia :=
  { m with rfc2833 := if 0 ≤ payload then toString payload else "false" }

/-- Modelled from the spec: the SDES grammar `<tag> <suite> <key>[ <params>]`, as the
expression of line 613, `^\([0-9]\+\) \+\([^ ]\+\) \+\([^ ]\+\) *\(.*\)$`, matches it:
a run of digits, spaces, a run without space, spaces, a run without space, then what is
left after further spaces. The four groups, `none` when the line does not match. -/
def parseSdes (sdes : String) : Option (String × String × String × String) :=
  let tag := sdes.data.takeWhile Char.isDigit
  let r1 := sdes.data.dropWhile Char.isDigit
  let r2 := r1.dropWhile (fun c => c = ' ')
  let suite := r2.takeWhile (fun c => c ≠ ' ')
  let r3 := r2.dropWhile (fun c => c ≠ ' ')
  let r4 := r3.dropWhile (fun c => c = ' ')
  let key := r4.takeWhile (fun c => c ≠ ' ')
  let r5 := r4.dropWhile (fun c => c ≠ ' ')
  let params := r5.dropWhile (fun c => c = ' ')
  if tag = [] ∨ r1.head? ≠ some ' ' ∨ suite = [] ∨ r3.head? ≠ some ' ' ∨ key = [] then none
  else some (String.mk tag, String.mk suite, String.mk key, String.mk params)

/-- Lines 590-609 of `buildChanRtp`: the parameters of a starting media. -/
def chanRtpStart (media : SDPMedia) (p : List NamedString) : List NamedString :=
  let p1 := addParam p "remoteport" media.remotePort
  let p2 := addParam p1 "format" media.format
  let p3 :=
    match (split media.mappings ',' false).find?
        (fun mapping => startsWith mapping (media.format ++ "=")) with
    | some mapping => addParam p2 "payload" (skipPast mapping '=')
    | none => p2
  addParam p3 "evpayload" media.rfc2833

/-- Lines 610-629 of `buildChanRtp`: the crypto parameters of a secure session; a session
that is not secure clears the remote crypto line of the media. -/
def chanRtpCrypto (s : SDPSession) (media : SDPMedia) (p : List NamedString) :
    List NamedString × SDPMedia :=
  if s.secure = true then
    if media.remoteCrypto ≠ "" then
      match parseSdes media.remoteCrypto with
      | some (tag, suite, key, params) =>
        let p1 := addParam p "secure" "true"
        let p2 := addParam p1 "crypto_tag" tag
        let p3 := addParam p2 "crypto_suite" suite
        let p4 := addParam p3 "crypto_key" key
        (if params ≠ "" then addParam p4 "crypto_params" params else p4, media)
      | none => (p, media)
    else if media.securable = true then (addParam p "secure" "true", media)
    else (p, media)
  else (p, media.crypto "" true)

/-- The function `SDPSession::buildChanRtp(media,addr,start,context)` (lines 576-638): the
message, `none` for a null pointer, and the media afterwards. -/
def buildChanRtp (O : SdpOps) (s : SDPSession) (media : Option SDPMedia)
    (addr : Option String) (start : Bool) : Option Message × Option SDPMedia :=
  match media, addr with
  | some md, some a =>
    match O.buildChanRtp with
    | none => (none, some md)
    | some m =>
      let p1 := addParam m.params "media" md.name
      let p2 := addParam p1 "transport" md.transport
      let p3 := addParam p2 "direction" "bidir"
      let p4 := if s.rtpLocalAddr ≠ "" then addParam p3 "localip" s.rtpLocalAddr else p3
      let p5 := addParam p4 "remoteip" a
      let p6 := if start = true then chanRtpStart md p5 else p5
      let r := chanRtpCrypto s md p6
      let p7 := r.1 ++ r.2.params.map
        (fun param => { name := "sdp_" ++ param.name, value := param.value })
      (some { m with params := p7 }, some r.2)
  | _, _ => (none, media)

/-- Lines 108-119 of `dispatchRtp`: the attributes `<prefix>_<name>` of the reply are
copied into the media under the name `<name>`. -/
def copyReplyAttrs (sdpPrefix : String) (reply : List NamedString) (media : SDPMedia) :
    SDPMedia :=
  reply.foldl (fun md param =>
    match startSkip param.name sdpPrefix with
    | none => md
    | some t1 =>
      match startSkip t1 "_" with
      | none => md
      | some t2 => if t2 ≠ "" then md.parameter t2 param.value false else md) media

/-- Lines 120-133 of `dispatchRtp`: the local crypto line taken from the reply. -/
def replyCrypto (E : Env) (s : SDPSession) (reply : List NamedString) (media : SDPMedia) :
    SDPMedia :=
  if s.secure = true then
    let tag := getIntValue E reply "ocrypto_tag" (getIntValue E reply "crypto_tag" 1)
    match getParam reply "ocrypto_suite", getParam reply "ocrypto_key" with
    | some suite, some key =>
      if 0 < tag then
        let sdes := toString tag ++ " " ++ suite ++ " " ++ key
        media.crypto
          (match getParam reply "ocrypto_params" with
           | some params => sdes ++ " " ++ params
           | none => sdes) false
      else media
    | _, _ => media
  else media

/-- The function `SDPSession::dispatchRtp(media,addr,start,pick,context)` (lines 89-136):
the result, the session afterwards and the media afterwards. -/
def dispatchRtp (E : Env) (O : SdpOps) (s : SDPSession) (media : Option SDPMedia)
    (addr : Option String) (start pick : Bool) : Bool × SDPSession × Option SDPMedia :=
  match buildChanRtp O s media addr start with
  | (some m, some md) =>
    match O.dispatch m with
    | none => (false, s, some md)
    | some reply =>
      let md1 := O.updateFromMsg md reply start
      if pick = false then (true, s, some md1)
      else
        let s1 : SDPSession :=
          { s with
            rtpForward := false
            rtpLocalAddr := getValue reply.params "localip" s.rtpLocalAddr
            mediaStatus := MediaStatus.MediaStarted }
        let sdpPrefix := getValue reply.params "osdp-prefix" "osdp"
        let md2 := if sdpPrefix ≠ "" then copyReplyAttrs sdpPrefix reply.params md1 else md1
        (true, s1, some (replyCrypto E s1 reply.params md2))
  | (_, md) => (false, s, md)

/-- The calls `list->find(name)` and `om->remove(false)`: the first descriptor of that name
and the list without it, `none` when the list has no descriptor of that name. -/
def removeFirst (name : String) : List SDPMedia → Option (SDPMedia × List SDPMedia)
  | [] => none
  | m :: ms =>
    if m.name = name then some (m, ms)
    else
      match removeFirst name ms with
      | some (d, rest) => some (d, m :: rest)
      | none => none

/-- The lookup `(*media)[name]`: the first descriptor of that name, or a null pointer. -/
def findMedia (media : Option (List SDPMedia)) (name : String) : Option SDPMedia :=
  match media with
  | some l => l.find? (fun m => m.name = name)
  | none => none

/-- The function `SDPSession::setMedia` (lines 55-76): the session afterwards and the
result. The pointer test of line 58 holds when both lists are null: a list handed over is
a list of its own, never the one the session holds. -/
def setMedia (O : SdpOps) (s : SDPSession) (media : Option (List SDPMedia)) :
    SDPSession × Bool :=
  if media = none ∧ s.rtpMedia = none then (s, false)
  else
    match s.rtpMedia with
    | none => ({ s with rtpMedia := media }, media.isSome)
    | some tmp =>
      ({ s with rtpMedia := media },
        tmp.any (fun m => !(media.isSome && O.sameAs m (findMedia media m.name) O.ignorePort)))

/-- The loop of lines 234-243 and 712-721: the parameters `<prefix><suffix>_<attr>` whose
`<attr>` has no underscore are copied into the descriptor's attribute bag. -/
def copyOsdpParams (O : SdpOps) (sdpPrefix : String) (params : List NamedString)
    (rtp : SDPMedia) (append : Bool) : SDPMedia :=
  params.foldl (fun md param =>
    match startSkip param.name (sdpPrefix ++ O.suffix md ++ "_") with
    | some tmp => if '_' ∈ tmp.data then md else md.parameter tmp param.value append
    | none => md) rtp

/-- The locals `oldList` (the list descriptors are taken from) and `lst` (the list being
built) of the two update loops. -/
structure MediaLists where
  old : Option (List SDPMedia)
  lst : Option (List SDPMedia)
deriving DecidableEq, Repr

/-- Lines 219-232 and 698-711: the descriptor of that name is taken out of the old list,
if there is one, and updated; otherwise a new one is allocated. The descriptor, the old
list afterwards and the flag `append`. -/
def takeOrNew (O : SdpOps) (old : Option (List SDPMedia)) (name trans fmts : String)
    (rport lport : Int) : SDPMedia × Option (List SDPMedia) × Bool :=
  match old with
  | some l =>
    match removeFirst name l with
    | some (d, rest) => (O.updateFormats d fmts rport lport, some rest, false)
    | none => (O.newMedia name trans fmts rport lport, some l, true)
  | none => (O.newMedia name trans fmts rport lport, none, true)

/-- Lines 244-246 and 726-728: the descriptor is appended to the list being built. -/
def appendMedia (lst : Option (List SDPMedia)) (rtp : SDPMedia) : Option (List SDPMedia) :=
  match lst with
  | some l => some (l ++ [rtp])
  | none => some [rtp]

/-- Lines 219-246 of `updateSDP`: one media declared by the parameters joins the list. -/
def placeSDP (O : SdpOps) (params : List NamedString) (sdpPrefix : String) (st : MediaLists)
    (name trans fmts crypto : String) : MediaLists :=
  let r := takeOrNew O st.old name trans fmts (-1) (-1)
  let rtp1 := r.1.crypto crypto false
  let rtp2 := if sdpPrefix ≠ "" then copyOsdpParams O sdpPrefix params rtp1 r.2.2 else rtp1
  { old := r.2.1, lst := appendMedia st.lst rtp2 }

/-- The locals of the loop of `updateSDP`: the flag `defaults` and the two lists. -/
structure UpdateState where
  defaults : Bool
  lists : MediaLists
deriving DecidableEq, Repr

/-- Lines 190-247 of `updateSDP`: one turn of the loop over the parameters. -/
def updateSDPStep (O : SdpOps) (s : SDPSession) (params : List NamedString)
    (sdpPrefix : String) (st : UpdateState) (p : NamedString) : UpdateState :=
  match startSkip p.name "media" with
  | none => st
  | some tmp =>
    if tmp ≠ "" ∧ tmp.data.head? ≠ some '_' then st
    else if O.toBoolean p.value (decide (tmp = "")) = false then { st with defaults := false }
    else
      let fmts0 := getValue params ("formats" ++ tmp) ""
      let fmts := if tmp = "" ∧ fmts0 = "" then O.defFormats else fmts0
      if fmts = "" then { st with defaults := false }
      else
        let trans := getValue params ("transport" ++ tmp) "RTP/AVP"
        let crypto := if s.secure = true then getValue params ("crypto" ++ tmp) "" else ""
        let name := if tmp = "" then "audio" else skipPast tmp '_'
        { defaults := false
          lists := placeSDP O params sdpPrefix st.lists name trans fmts crypto }

/-- The function `SDPSession::updateSDP` (lines 179-253): the session afterwards and the
result. -/
def updateSDP (O : SdpOps) (s : SDPSession) (params : List NamedString) :
    SDPSession × Bool :=
  let sdpPrefix := getValue params "osdp-prefix" "osdp"
  let st := params.foldl (updateSDPStep O s params sdpPrefix)
    { defaults := true, lists := { old := s.rtpMedia, lst := none } }
  let lst :=
    if st.defaults = true ∧ st.lists.lst = none then
      some [O.newMedia "audio" "RTP/AVP" (getValue params "formats" O.defFormats) (-1) (-1)]
    else st.lists.lst
  setMedia O { s with rtpMedia := st.lists.old } lst

/-- Lines 698-728 of `updateRtpSDP`: one media declared by the parameters joins the
list. -/
def placeRtpSDP (E : Env) (O : SdpOps) (params : List NamedString) (sdpPrefix : String)
    (st : MediaLists) (audio : Bool) (name trans fmts : String) (port : Int) : MediaLists :=
  let r := takeOrNew O st.old name trans fmts (-1) port
  let rtp1 := if sdpPrefix ≠ "" then copyOsdpParams O sdpPrefix params r.1 r.2.2 else r.1
  let rtp2 := rtp1.setMappings (getValue params ("rtp_mapping" ++ O.suffix rtp1) "")
  let rtp3 := if audio = true then rtp2.setRfc2833 (getIntValue E params "rtp_rfc2833" (-1))
              else rtp2
  let rtp4 := rtp3.crypto (getValue params ("crypto" ++ O.suffix rtp3) "") false
  { old := r.2.1, lst := appendMedia st.lst rtp4 }

/-- Lines 673-729 of `updateRtpSDP`: one turn of the loop over the parameters. -/
def updateRtpSDPStep (E : Env) (O : SdpOps) (params : List NamedString) (sdpPrefix : String)
    (st : MediaLists) (p : NamedString) : MediaLists :=
  match startSkip p.name "rtp_port" with
  | none => st
  | some tmp =>
    if tmp ≠ "" ∧ tmp.data.head? ≠ some '_' then st
    else if getBoolValue O params ("media" ++ tmp) (decide (tmp = "")) = false then st
    else if E.toInteger p.value 0 = 0 then st
    else if getValue params ("formats" ++ tmp) "" = "" then st
    else
      placeRtpSDP E O params sdpPrefix st (decide (tmp = ""))
        (if tmp = "" then "audio" else skipPast tmp '_')
        (getValue params ("transport" ++ tmp) "RTP/AVP")
        (getValue params ("formats" ++ tmp) "") (E.toInteger p.value 0)

/-- The function `SDPSession::updateRtpSDP(params,rtpAddr,oldList)` (lines 662-731): the
list built, null when there is none, the address `rtpAddr` and the old list afterwards. -/
def updateRtpSDPList (E : Env) (O : SdpOps) (params : List NamedString)
    (oldList : Option (List SDPMedia)) :
    Option (List SDPMedia) × String × Option (List SDPMedia) :=
  if getValue params "rtp_addr" "" = "" then (none, "", oldList)
  else
    let st := params.foldl
      (updateRtpSDPStep E O params (getValue params "osdp-prefix" "osdp"))
      { old := oldList, lst := none }
    (st.lst, getValue params "rtp_addr" "", st.old)

/-- The function `SDPSession::updateRtpSDP(params)` (lines 256-269): the session afterwards
and the result. -/
def updateRtpSDP (E : Env) (O : SdpOps) (s : SDPSession) (params : List NamedString) :
    SDPSession × Bool :=
  let r := updateRtpSDPList E O params s.rtpMedia
  match r.1 with
  | some tmp =>
    let chg := decide (s.rtpLocalAddr ≠ r.2.1)
    let sm := setMedia O { s with rtpMedia := r.2.2, rtpLocalAddr := r.2.1 } (some tmp)
    (sm.1, sm.2 || chg)
  | none => ({ s with rtpMedia := r.2.2 }, false)

/-- The function `SDPSession::createPasstroughSDP` (lines 453-482): the session and the
message afterwards and the body, `none` for a null pointer. -/
def createPasstroughSDP (E : Env) (O : SdpOps) (now : Int) (s : SDPSession)
    (msg : List NamedString) (update : Bool) :
    SDPSession × List NamedString × Option MimeSdpBody :=
  let tmp := getValue msg "rtp_forward" ""
  let msg1 := clearParam msg "rtp_forward"
  if (s.rtpForward && O.toBoolean tmp false) = false then (s, msg1, none)
  else
    let s1 : SDPSession :=
      match getParam msg1 "sdp_raw" with
      | some _ => { s with sdpForward := s.sdpForward || O.sdpForward }
      | none => s
    match getParam msg1 "sdp_raw" with
    | some raw =>
      if s1.sdpForward = true then
        (s1, setParam msg1 "rtp_forward" "accepted",
          some (MimeSdpBody.raw "application/sdp" raw))
      else createPasstroughRtp E O now s1 msg1 update
    | none => createPasstroughRtp E O now s1 msg1 update
where
  /-- Lines 468-481: the body is generated from the RTP data of the message. -/
  createPasstroughRtp (E : Env) (O : SdpOps) (now : Int) (s1 : SDPSession)
      (msg1 : List NamedString) (update : Bool) :
      SDPSession × List NamedString × Option MimeSdpBody :=
    let r := updateRtpSDPList E O msg1 (if update = true then s1.rtpMedia else none)
    let s2 : SDPSession := if update = true then { s1 with rtpMedia := r.2.2 } else s1
    match r.1 with
    | none => (s2, msg1, none)
    | some lst =>
      let c := createSDP E now s2 (some r.2.1) (some lst)
      let s4 : SDPSession :=
        if update = true then (setMedia O { c.1 with rtpLocalAddr := r.2.1 } (some lst)).1
        else c.1
      (s4, if c.2.isSome = true then setParam msg1 "rtp_forward" "accepted" else msg1,
        c.2.map MimeSdpBody.lines)

/-- Collaborators to run the model on: an empty `chan.rtp` message, a dispatch that
answers with the local address 192.0.2.7 and an SDES offer, descriptors that keep what
they have on an update and take formats and ports as given, the suffix `_<name>` of a
media that is not audio, and the boolean words `yes`, `true`, `no`, `false`. -/
def sampleOps (accept : Bool) : SdpOps where
  buildChanRtp := some { name := "chan.rtp", params := [] }
  dispatch := fun m =>
    if accept = true then
      some { m with params := m.params ++
        [⟨"localip", "192.0.2.7"⟩, ⟨"ocrypto_suite", "AES_CM_128_HMAC_SHA1_80"⟩,
         ⟨"ocrypto_key", "inline:LOCAL"⟩] }
    else none
  updateFromMsg := fun m _ _ => m
  updateFormats := fun m fmts rport lport =>
    { m with
      fmtList := if fmts ≠ "" then fmts else m.fmtList
      remotePort := if 0 ≤ rport then toString rport else m.remotePort
      localPort := if 0 ≤ lport then toString lport else m.localPort }
  newMedia := fun name trans fmts rport lport =>
    { sampleMedia name fmts "" with
      transport := trans
      rfc2833 := "false"
      remotePort := if 0 ≤ rport then toString rport else ""
      localPort := if 0 ≤ lport then toString lport else "" }
  suffix := fun m => if m.audio = true then "" else "_" ++ m.name
  sameAs := fun m other _ =>
    match other with
    | some o => decide (m.fmtList = o.fmtList ∧ m.transport = o.transport
        ∧ m.remotePort = o.remotePort)
    | none => false
  toBoolean := fun v d =>
    if v = "yes" ∨ v = "true" then true else if v = "no" ∨ v = "false" then false else d
  defFormats := "alaw,mulaw"
  sdpForward := false
  ignorePort := false

/-- The `payload` parameter of a starting media: the text after the `=` of the first
mapping that starts with `<format>=`, no parameter when there is no such mapping. -/
def specPayloadParam (media : SDPMedia) : List NamedString :=
  match (split media.mappings ',' false).find?
      (fun mapping => startsWith mapping (media.format ++ "=")) with
  | some mapping => [{ name := "payload", value := skipPast mapping '=' }]
  | none => []

/-- The crypto parameters of the `chan.rtp` message: in a secure session `secure=true`
with the tag, suite, key and, when not empty, parameters of a remote crypto line that
matches the SDES grammar, nothing for a line that does not match, and `secure=true` alone
for a securable media without remote crypto line; nothing in a session that is not
secure. -/
def specCryptoParams (s : SDPSession) (media : SDPMedia) : List NamedString :=
  if s.secure = true then
    if media.remoteCrypto ≠ "" then
      match parseSdes media.remoteCrypto with
      | some (tag, suite, key, params) =>
        [{ name := "secure", value := "true" }, { name := "crypto_tag", value := tag },
         { name := "crypto_suite", value := suite }, { name := "crypto_key", value := key }]
          ++ (if params ≠ "" then [{ name := "crypto_params", value := params }] else [])
      | none => []
    else if media.securable = true then [{ name := "secure", value := "true" }]
    else []
  else []

/-- The media after `buildChanRtp` built its message: in a session that is not secure the
remote crypto line is cleared (line 629). -/
def mediaAfterBuild (s : SDPSession) (media : SDPMedia) : SDPMedia :=
  if s.secure = true then media else media.crypto "" true

/-- The parameters `buildChanRtp` adds to the channel's message, in their order. -/
def specChanRtpParams (s : SDPSession) (media : SDPMedia) (addr : String) (start : Bool) :
    List NamedString :=
  [{ name := "media", value := media.name }, { name := "transport", value := media.transport },
   { name := "direction", value := "bidir" }]
    ++ (if s.rtpLocalAddr ≠ "" then [{ name := "localip", value := s.rtpLocalAddr }] else [])
    ++ [{ name := "remoteip", value := addr }]
    ++ (if start = true then
          [{ name := "remoteport", value := media.remotePort },
           { name := "format", value := media.format }]
            ++ specPayloadParam media
            ++ [{ name := "evpayload", value := media.rfc2833 }]
        else [])
    ++ specCryptoParams s media
    ++ media.params.map (fun param => { name := "sdp_" ++ param.name, value := param.value })

/-- An SDES line made of a tag, a suite, a key and, after one more space, parameters if
there are any. -/
def sdesLine (tag suite key params : String) : String :=
  tag ++ " " ++ suite ++ " " ++ key ++ (if params = "" then "" else " " ++ params)

/-- An audio descriptor with the current format `alaw`, the remote port 4000 and the given
mapping table and remote crypto line. -/
def startedMedia (mappings remoteCrypto : String) : SDPMedia :=
  { sampleMedia "audio" "alaw" mappings with
    format := "alaw"
    remotePort := "4000"
    rfc2833 := "101"
    remoteCrypto := remoteCrypto }

/-- What a descriptor keeps through the calls `crypto(desc,false)`, `parameter`,
`mappings` and `rfc2833` of the update functions: every member but the local crypto line,
the attribute bag with its `modified` flag, the mapping table and the RFC 2833 payload;
of the `local-changed` flag, that it stays set when it is set. -/
def KeepsFrom (a b : SDPMedia) : Prop :=
  b.name = a.name ∧ b.audio = a.audio ∧ b.transport = a.transport ∧ b.fmtList = a.fmtList ∧
    b.localPort = a.localPort ∧ b.remotePort = a.remotePort ∧ b.format = a.format ∧
    b.remoteCrypto = a.remoteCrypto ∧ b.securable = a.securable ∧
    (a.localChanged = true → b.localChanged = true)

/-- A secure session holding one audio descriptor that has a local and a remote crypto
line and the `local-changed` flag set. -/
def securedSession : SDPSession :=
  { sampleSession true false with
    rtpMedia := some [{ sampleMedia "audio" "alaw" "" with
      localCrypto := "1 AES_CM_128_HMAC_SHA1_80 inline:LOCAL"
      remoteCrypto := "1 AES_CM_128_HMAC_SHA1_80 inline:REMOTE"
      localChanged := true }] }

/-- The descriptor an update step starts from and the old list it leaves: either the first
descriptor named `name` of the old list, as `SDPMedia::update` leaves it, the old list
losing that entry, or, when the old list is null or holds no descriptor of that name, a
newly made descriptor, the old list staying as it is. -/
def BuiltFrom (O : SdpOps) (old : Option (List SDPMedia)) (name trans fmts : String)
    (rport lport : Int) (base : SDPMedia) (left : Option (List SDPMedia)) : Prop :=
  (∃ (d : SDPMedia) (pre post : List SDPMedia),
      old = some (pre ++ d :: post) ∧ d.name = name ∧ (∀ x ∈ pre, x.name ≠ name) ∧
      base = O.updateFormats d fmts rport lport ∧ left = some (pre ++ post)) ∨
  ((∀ l, old = some l → ∀ d ∈ l, d.name ≠ name) ∧
      base = O.newMedia name trans fmts rport lport ∧ left = old)

/-! ## SIP transactions (`libs/ysip/yatesip.h`) -/

/-- The enumeration `SIPTransaction::State` (lines 585-606). -/
inductive SIPTransaction.State where
  | Invalid
  | Initial
  | Trying
  | Process
  | Retrans
  | Finish
  | Cleared
deriving DecidableEq, Repr

/-- The value of an enumerator of `SIPTransaction::State`: they count from zero in the
order of their declaration. -/
def SIPTransaction.State.toInt : SIPTransaction.State → Int
  | .Invalid => 0
  | .Initial => 1
  | .Trying => 2
  | .Process => 3
  | .Retrans => 4
  | .Finish => 5
  | .Cleared => 6

/-- The member `m_state` of `SIPTransaction` (line 930), the one `getState` and `isActive`
read. -/
structure SIPTransaction where
  state : Int
deriving DecidableEq, Repr

/-- The accessor `SIPTransaction::getState` (lines 652-653). -/
def SIPTransaction.getState (t : SIPTransaction) : Int := t.state

/-- The function `SIPTransaction::isActive` (lines 659-660). -/
def SIPTransaction.isActive (t : SIPTransaction) : Bool :=
  decide (SIPTransaction.State.Invalid.toInt < t.state) &&
    decide (t.state < SIPTransaction.State.Finish.toInt)

/-- The member `m_state` of `SIPEvent` (line 1025), the state of the transaction when the
event was generated. -/
structure SIPEvent where
  state : Int
deriving DecidableEq, Repr

/-- The constructor `SIPEvent()` (lines 954-956). -/
def SIPEvent.empty : SIPEvent := { state := SIPTransaction.State.Invalid.toInt }

/-- Modelled from the spec: the constructor `SIPEvent(message,transaction)` (declared at
line 958, defined outside yatesip.h): "an event bundles (message, transaction,
state-at-creation)", the state of the transaction it is created for. -/
def SIPEvent.ofTransaction (t : SIPTransaction) : SIPEvent := { state := t.getState }

/-- The function `SIPEvent::isActive` (lines 1019-1020). -/
def SIPEvent.isActive (e : SIPEvent) : Bool :=
  decide (SIPTransaction.State.Invalid.toInt < e.state) &&
    decide (e.state < SIPTransaction.State.Finish.toInt)

/-! ## Forwarding of the mangled message (`IsupIntercept::dispatched`) -/

/-- Modelled from the spec: `SS7MSU::getSSF()` (declared in yatesig.h): the subservice
field of the unit, the upper four bits of its first byte, the service information
octet. -/
def SS7MSU.getSSF (msu : SS7MSU) : Nat :=
  match msu.data with
  | b :: _ => b.val &&& 240
  | [] => 0

/-- What `dispatched` takes from `SS7ISUP`, outside `isupmangler.cpp`: the encoder
`createMSU(type,ssf,label,cic,params)`, a null pointer when the message cannot be encoded,
and `transmitMSU(msu,label,sls)`, negative when the unit cannot be sent. Every theorem
holds for all of them. -/
structure IsupTx where
  /-- The call `createMSU(type,ssf,label,cic,params)`. -/
  createMSU : Nat → Nat → SS7Label → Nat → Message → Option SS7MSU
  /-- The call `transmitMSU(msu,label,sls)`. -/
  transmitMSU : SS7MSU → SS7Label → Int → Int

/-- What `dispatched` does: the MSU `createMSU` built, the call of `transmitMSU` made (the
unit, the label and the SLS handed over), if any, and whether the failure was logged. -/
structure Forwarded where
  msu : Option SS7MSU
  sent : Option (SS7MSU × SS7Label × Int)
  warned : Bool
deriving DecidableEq, Repr

/-- The function `IsupIntercept::dispatched` (lines 169-176); `type` and `cic` are those of
the `SS7MsgISUP` handed over; the function does not read `accepted`. -/
def IsupIntercept.dispatched (T : IsupTx) (u : IsupIntercept) (type cic : Nat)
    (msg : Message) (label : SS7Label) (sls : Int) (accepted : Bool) : Forwarded :=
  let _ := accepted
  match T.createMSU type u.ssf label cic msg with
  | none => { msu := none, sent := none, warned := true }
  | some msu =>
    { msu := some msu
      sent := some (msu, label, sls)
      warned := decide (T.transmitMSU msu label sls < 0) }

/-- The override `IsupMessage::dispatched(accepted)` (lines 64-65). -/
def IsupMessage.dispatched (m : IsupMessage) (accepted : Bool) : IsupMessage :=
  { m with accepted := accepted }

/-- The destructor `~IsupMessage` (lines 61-62): the message, complete, is forwarded by
the interceptor that made it. Interceptor and `SS7MsgISUP` are never null in a message
`processMSU` made. -/
def IsupMessage.destruct (T : IsupTx) (m : IsupMessage) : Forwarded :=
  m.isup.dispatched T m.type m.cic { name := m.name, params := m.params } m.label m.sls
    m.accepted

/-- An encoder and a sender to run the model on: the MSU is the service information octet
(service indicator 5 with the subservice field), four bytes of label, the CIC, the
message type and the number of parameters; every unit is sent. -/
def sampleTx : IsupTx where
  createMSU := fun type ssf _ cic msg =>
    some { sif := 5
           data := [Fin.ofNat (ssf ||| 5), 0, 0, 0, 0, Fin.ofNat (cic % 256),
                    Fin.ofNat (cic / 256), Fin.ofNat type, Fin.ofNat msg.params.length] }
  transmitMSU := fun _ _ _ => 0

/-! ## Dispatch for every media of the session -/

/-- The loop of `SDPSession::dispatchRtp(addr,start,context)` (lines 147-161): `todo` holds
the media from the cursor `o` on, `kept` those of the list before the cursor. A media whose
dispatch succeeds stays, updated, and the cursor moves on; a media whose dispatch fails is
removed from the list. The result is the flag `ok`, the session and the list that is
left. -/
def dispatchRtpLoop (E : Env) (O : SdpOps) (addr : Option String) (start : Bool) :
    List SDPMedia → SDPSession → List SDPMedia → Bool → Bool × SDPSession × List SDPMedia
  | [], s, kept, ok => (ok, s, kept)
  | m :: todo, s, kept, ok =>
    if (dispatchRtp E O s (some m) addr start true).1 = true then
      dispatchRtpLoop E O addr start todo (dispatchRtp E O s (some m) addr start true).2.1
        (kept ++ [((dispatchRtp E O s (some m) addr start true).2.2).getD m]) true
    else
      dispatchRtpLoop E O addr start todo (dispatchRtp E O s (some m) addr start true).2.1
        kept ok

/-- The function `SDPSession::dispatchRtp(addr,start,context)` (lines 138-163), the
dispatch for every media of the session: the result and the session afterwards. -/
def dispatchRtpAll (E : Env) (O : SdpOps) (s : SDPSession) (addr : Option String)
    (start : Bool) : Bool × SDPSession :=
  match s.rtpMedia with
  | none => (false, s)
  | some l =>
    let r := dispatchRtpLoop E O addr start l s [] false
    (r.1, { r.2.1 with rtpMedia := some r.2.2 })

/-- One dispatch of the list dispatch: the media handed to `dispatchRtp`, the result and
the media afterwards. -/
structure DispatchOutcome where
  media : SDPMedia
  ok : Bool
  after : SDPMedia
deriving DecidableEq, Repr

/-- The dispatches the specification asks for: every media of the list is dispatched
once, in the order of the list, with `pick` set, each on the session as the dispatches
before it left it. The outcomes and the session after the last dispatch. -/
def dispatchOutcomes (E : Env) (O : SdpOps) (addr : Option String) (start : Bool) :
    SDPSession → List SDPMedia → List DispatchOutcome × SDPSession
  | s, [] => ([], s)
  | s, m :: rest =>
    let r := dispatchRtp E O s (some m) addr start true
    let t := dispatchOutcomes E O addr start r.2.1 rest
    ({ media := m, ok := r.1, after := r.2.2.getD m } :: t.1, t.2)

/-- A channel whose `chan.rtp` dispatch is taken for audio and declined for any other
media. -/
def audioOnlyOps : SdpOps :=
  { sampleOps true with
    dispatch := fun m =>
      if getParam m.params "media" = some "audio" then
        some { m with params := m.params ++ [⟨"localip", "192.0.2.7"⟩] }
      else none }

/-- The sample environment with the video codec `h261`, static payload type 31, besides. -/
def videoEnv : Env :=
  { sampleEnv with
    payloads := fun s => if s = "h261" then 31 else sampleEnv.payloads s
    rtpmap := fun p => if p = 31 then some "H261/90000" else sampleEnv.rtpmap p }

/-- An entry of the parameter list yields a media in `updateRtpSDP`: it is named `rtp_port`
or `rtp_port_<name>`, the media is enabled (`media` or `media_<name>`, by default audio
only), the port reads as a number other than zero and formats are given (`formats` or
`formats_<name>`). -/
def yieldsMedia (E : Env) (O : SdpOps) (params : List NamedString) (p : NamedString) : Bool :=
  match startSkip p.name "rtp_port" with
  | none => false
  | some tmp =>
    decide (tmp = "" ∨ tmp.data.head? = some '_') &&
      getBoolValue O params ("media" ++ tmp) (decide (tmp = "")) &&
      decide (E.toInteger p.value 0 ≠ 0) &&
      decide (getValue params ("formats" ++ tmp) "" ≠ "")

/-- The media `rtp` is the one a turn of the loop of `updateRtpSDP` on the entry `p` adds
to the list being built. -/
def PlacedFor (E : Env) (O : SdpOps) (params : List NamedString) (p : NamedString)
    (rtp : SDPMedia) : Prop :=
  ∃ st : MediaLists,
    (updateRtpSDPStep E O params (getValue params "osdp-prefix" "osdp") st p).lst =
      appendMedia st.lst rtp

/-- A session with the RTP local address 192.0.2.7 that holds the audio media `alaw`. -/
def audioSession : SDPSession :=
  { sampleSession false false with
    rtpLocalAddr := "192.0.2.7"
    rtpMedia := some [sampleMedia "audio" "alaw" ""] }

/-! ## Reconfiguration (`IsupMangler::initialize`) -/

/-- A section of the configuration `isupmangler`, as `cfg.getSection(i)` gives it: its
name and its keys. A null section (`TelEngine::null`: a null pointer or an empty name) is
one with the empty name. -/
structure ConfigSection where
  name : String
  params : List NamedString
deriving DecidableEq, Repr

/-- What the reconfiguration takes from code outside `isupmangler.cpp`: the reading of a
boolean (`String::toBoolean`), the constructor `SS7ISUP(params)` and the call
`SS7ISUP::initialize(config)`, which give the service indicator and the subservice field
of the unit. Every theorem holds for all of them. -/
structure ManglerEnv where
  /-- The call `String::toBoolean(defvalue)`. -/
  toBoolean : String → Bool → Bool
  /-- The constructor `SS7ISUP(params)`: service indicator and subservice field. -/
  construct : ConfigSection → Int × Nat
  /-- The call `SS7ISUP::initialize(config)`: service indicator and subservice field. -/
  ss7Initialize : IsupIntercept → ConfigSection → Int × Nat

/-- Modelled from the spec: `NamedList::getBoolValue(name,defvalue)` on a section. -/
def ConfigSection.getBoolValue (M : ManglerEnv) (sect : ConfigSection) (name : String)
    (defvalue : Bool) : Bool :=
  match getParam sect.params name with
  | some v => M.toBoolean v defvalue
  | none => defvalue

/-- The constructor `IsupIntercept(params)` (lines 36-39). Modelled from the spec: the
unit made for a section is "the named unit", it bears the name of the section. -/
def IsupIntercept.create (M : ManglerEnv) (sect : ConfigSection) : IsupIntercept :=
  { name := sect.name
    sif := (M.construct sect).1
    ssf := (M.construct sect).2
    used := true
    symmetric := sect.getBoolValue M "symmetric" false }

/-- The function `IsupIntercept::initialize(config)` (lines 90-98) for a section that is
not null. The point codes `setPointCode` adds are kept by `SS7ISUP`, outside the
members of the unit recorded here. -/
def IsupIntercept.initialize (M : ManglerEnv) (u : IsupIntercept) (sect : ConfigSection) :
    IsupIntercept :=
  { u with
    sif := (M.ss7Initialize u sect).1
    ssf := (M.ss7Initialize u sect).2
    symmetric := sect.getBoolValue M "symmetric" u.symmetric }

/-- The list `s_manglers` and the units handed to `engine->insert`, in their order. -/
structure ManglerState where
  manglers : List IsupIntercept
  inserted : List IsupIntercept
deriving DecidableEq, Repr

/-- The first unit of the given name is replaced by what `f` makes of it. -/
def updateFirst (name : String) (f : IsupIntercept → IsupIntercept) :
    List IsupIntercept → List IsupIntercept
  | [] => []
  | u :: rest => if u.name = name then f u :: rest else u :: updateFirst name f rest

/-- Lines 197-209 of `IsupMangler::initialize`: one turn of the loop over the sections.
The unit `s_manglers[*sect]` is the first unit of the list named as the section. -/
def initializeStep (M : ManglerEnv) (st : ManglerState) (sect : ConfigSection) :
    ManglerState :=
  if sect.name = "" then st
  else if sect.getBoolValue M "enable" true = false then st
  else
    match st.manglers.find? (fun u => u.name = sect.name) with
    | some _ =>
      { st with
        manglers := updateFirst sect.name
          (fun u => IsupIntercept.initialize M { u with used := true } sect) st.manglers }
    | none =>
      { manglers := st.manglers ++
          [ IsupIntercept.initialize M { IsupIntercept.create M sect with used := true } sect]
        inserted := st.inserted ++ [IsupIntercept.create M sect] }

/-- The function `IsupMangler::initialize` (lines 179-216): the list of units afterwards
and the units inserted into the engine. `engine` tells whether `SignallingEngine::self()`
gives an engine, `sections` are the sections of the configuration in their order. -/
def IsupMangler.initialize (M : ManglerEnv) (engine : Bool) (manglers : List IsupIntercept)
    (sections : List ConfigSection) : ManglerState :=
  if engine = false then { manglers := manglers, inserted := [] }
  else
    let st := sections.foldl (initializeStep M)
      { manglers := manglers.map (fun u => { u with used := false }), inserted := [] }
    { st with manglers := st.manglers.filter (fun u => u.used) }

/-- A media declared by the parameters of `updateSDP` or `updateRtpSDP`: the suffix of its
parameters (empty for audio, `_<name>` otherwise), its name, transport and formats and the
local port handed to the descriptor (-1 in `updateSDP`). -/
structure MediaDecl where
  suffix : String
  name : String
  trans : String
  fmts : String
  lport : Int
deriving DecidableEq, Repr

/-- The entry is one of those `updateSDP` takes for a media declaration, `media` or
`media_<name>`: finding one disables the default media (lines 192-198). -/
def isMediaEntry (p : NamedString) : Bool :=
  match startSkip p.name "media" with
  | none => false
  | some tmp => decide (tmp = "" ∨ tmp.data.head? = some '_')

/-- The media an entry of the parameters declares for `updateSDP`: the entry is `media` or
`media_<name>`, it reads as true (by default for audio only) and formats are given, for
audio those of the parser when the parameters give none. -/
def declaredSDP (O : SdpOps) (params : List NamedString) (p : NamedString) :
    Option MediaDecl :=
  match startSkip p.name "media" with
  | none => none
  | some tmp =>
    if (tmp = "" ∨ tmp.data.head? = some '_') ∧
        O.toBoolean p.value (decide (tmp = "")) = true ∧
        (if tmp = "" ∧ getValue params ("formats" ++ tmp) "" = "" then O.defFormats
          else getValue params ("formats" ++ tmp) "") ≠ "" then
      some
        { suffix := tmp
          name := if tmp = "" then "audio" else skipPast tmp '_'
          trans := getValue params ("transport" ++ tmp) "RTP/AVP"
          fmts := if tmp = "" ∧ getValue params ("formats" ++ tmp) "" = "" then O.defFormats
                  else getValue params ("formats" ++ tmp) ""
          lport := -1 }
    else none

/-- The media an entry of the parameters declares for `updateRtpSDP`: the entry is
`rtp_port` or `rtp_port_<name>`, the media is enabled (by default audio only), the port
reads as a number other than zero and formats are given. -/
def declaredRtp (E : Env) (O : SdpOps) (params : List NamedString) (p : NamedString) :
    Option MediaDecl :=
  match startSkip p.name "rtp_port" with
  | none => none
  | some tmp =>
    if (tmp = "" ∨ tmp.data.head? = some '_') ∧
        getBoolValue O params ("media" ++ tmp) (decide (tmp = "")) = true ∧
        E.toInteger p.value 0 ≠ 0 ∧ getValue params ("formats" ++ tmp) "" ≠ "" then
      some
        { suffix := tmp
          name := if tmp = "" then "audio" else skipPast tmp '_'
          trans := getValue params ("transport" ++ tmp) "RTP/AVP"
          fmts := getValue params ("formats" ++ tmp) ""
          lport := E.toInteger p.value 0 }
    else none

/-- The media of the list built answer the declarations one by one, in their order: the
media of a declaration starts from the first descriptor of the declared name still in the
old list, as `SDPMedia::update` leaves it, which then leaves the old list, or from a new
descriptor when the old list is null or holds no descriptor of that name (`BuiltFrom`),
and `fin` tells how the media relates to the descriptor it starts from. `left` is the old
list after the last declaration. -/
def ReusedFrom (O : SdpOps) (fin : MediaDecl → SDPMedia → SDPMedia → Prop) :
    Option (List SDPMedia) → List MediaDecl → List SDPMedia → Option (List SDPMedia) → Prop
  | old, [], [], left => left = old
  | old, d :: ds, rtp :: rtps, left =>
    ∃ (base : SDPMedia) (mid : Option (List SDPMedia)),
      BuiltFrom O old d.name d.trans d.fmts (-1) d.lport base mid ∧ fin d base rtp ∧
      ReusedFrom O fin mid ds rtps left
  | _, _ :: _, [], _ => False
  | _, [], _ :: _, _ => False

/-- How a media of `updateSDP` relates to the descriptor it starts from: it keeps what
`KeepsFrom` lists, and its local crypto line is the value of `crypto<suffix>` in a secure
session, the empty line otherwise. -/
def FinishedSDP (s : SDPSession) (params : List NamedString) (d : MediaDecl)
    (base rtp : SDPMedia) : Prop :=
  KeepsFrom base rtp ∧
    rtp.localCrypto = (if s.secure = true then getValue params ("crypto" ++ d.suffix) "" else "")

/-- How a media of `updateRtpSDP` relates to the descriptor it starts from: it keeps what
`KeepsFrom` lists, and its local crypto line is the value of `crypto<suffix>`, the suffix
being that of the descriptor. -/
def FinishedRtp (O : SdpOps) (params : List NamedString) (_d : MediaDecl)
    (base rtp : SDPMedia) : Prop :=
  KeepsFrom base rtp ∧
    ∃ mid : SDPMedia, KeepsFrom base mid ∧
      rtp.localCrypto = getValue params ("crypto" ++ O.suffix mid) ""

/-! ## Shape of the body -/

theorem bagLines_name (m : SDPMedia) : ∀ a ∈ bagLines m, a.name = "a" := by
  intro a ha
  unfold bagLines at ha
  split at ha
  · simp only [List.mem_map] at ha
    obtain ⟨p, _, rfl⟩ := ha
    rfl
  · simp at ha

theorem cryptoLines_name (addr : Option String) (m : SDPMedia) :
    ∀ a ∈ cryptoLines addr m, a.name = "a" := by
  intro a ha
  unfold cryptoLines at ha
  split at ha
  · split at ha
    · simp at ha; subst ha; rfl
    · simp at ha
      rcases ha with rfl | rfl <;> rfl
  · simp at ha

theorem mediaBlock_shape (E : Env) (s : SDPSession) (addr : Option String) (m : SDPMedia) :
    IsMediaBlock (mediaBlock E s addr m) := by
  unfold mediaBlock
  simp only []
  split
  · exact Or.inl rfl
  · refine Or.inr ⟨mlineHead m ++
        (if (addTelephoneEvent E s m (codecLoop E m)).frm = ""
          then commasToSpaces (" " ++ m.fmtList)
          else (addTelephoneEvent E s m (codecLoop E m)).frm),
      bagLines m
        ++ (withPtime (addTelephoneEvent E s m (codecLoop E m))).map
            (fun a => { name := "a", value := a })
        ++ cryptoLines addr m, ?_, ?_⟩
    · simp only [List.singleton_append, List.append_assoc, List.cons_append, List.nil_append]
    · intro a ha
      simp only [List.mem_append, List.mem_map] at ha
      rcases ha with (ha | ⟨x, _, rfl⟩) | ha
      · exact bagLines_name m a ha
      · rfl
      · exact cryptoLines_name addr m a ha

theorem createSDP_of_list (E : Env) (now : Int) (s : SDPSession) (addr : Option String)
    (mediaList : Option (List SDPMedia)) (ml : List SDPMedia)
    (h : pickList s mediaList = some ml) :
    createSDP E now s addr mediaList =
      (bumpVersion now s,
        some ([{ name := "v", value := "0" },
               { name := "o", value := originLine (bumpVersion now s) addr },
               { name := "s", value := E.sessionName },
               { name := "c", value := connLine addr },
               { name := "t", value := "0 0" }]
              ++ (ml.map (mediaBlock E (bumpVersion now s) addr)).flatten)) := by
  unfold createSDP
  rw [h]

theorem createSDP_of_none (E : Env) (now : Int) (s : SDPSession) (addr : Option String)
    (mediaList : Option (List SDPMedia)) (h : pickList s mediaList = none) :
    createSDP E now s addr mediaList = (s, none) := by
  unfold createSDP
  rw [h]

theorem blocks_names (bs : List (List NamedString)) (h : ∀ b ∈ bs, IsMediaBlock b) :
    ∀ x ∈ bs.flatten, x.name = "m" ∨ x.name = "a" := by
  intro x hx
  rw [List.mem_flatten] at hx
  obtain ⟨b, hb, hxb⟩ := hx
  rcases h b hb with rfl | ⟨v, attrs, rfl, ha⟩
  · simp at hxb
  · rcases List.mem_cons.1 hxb with rfl | hx'
    · exact Or.inl rfl
    · exact Or.inr (ha x hx')

theorem blocks_head (bs : List (List NamedString)) (h : ∀ b ∈ bs, IsMediaBlock b) :
    ∀ x, bs.flatten.head? = some x → x.name = "m" := by
  induction bs with
  | nil => intro x hx; simp at hx
  | cons b bs ih =>
    intro x hx
    rcases h b (List.mem_cons_self _ _) with rfl | ⟨v, attrs, rfl, _⟩
    · simp only [List.flatten_cons, List.nil_append] at hx
      exact ih (fun b hb => h b (List.mem_cons_of_mem _ hb)) x hx
    · simp only [List.flatten_cons, List.cons_append, List.head?_cons, Option.some.injEq] at hx
      subst hx
      rfl

/-! ## The loop over the formats -/

theorem startsWith_append (p x : String) (hp : p.data ≠ []) :
    startsWith (p ++ x) p = true := by
  unfold startsWith
  rw [String.data_append]
  have h1 : p.data.isEmpty = false := by
    cases h : p.data with
    | nil => exact absurd h hp
    | cons a as => rfl
  rw [h1]
  simp [ List.isPrefixOf_iff_prefix]

theorem str_append_eq_empty (a b : String) (h : a ++ b = "") : a = "" ∧ b = "" := by
  have := congrArg String.data h
  simp [String.data_append] at this
  exact ⟨String.ext this.1, String.ext this.2⟩

theorem frm_piece_ne_empty (a b : String) : a ++ " " ++ b ≠ "" := by
  intro h
  have h1 := (str_append_eq_empty _ _ h).1
  have h2 := (str_append_eq_empty _ _ h1).2
  exact absurd h2 (by decide)

theorem codecEmit_eq (E : Env) (l map : List String) (acc : FmtAcc) (mode : Int) (s : String)
    (hs : s ≠ "g729b") :
    codecEmit E l map acc mode s =
      if Retained E map s then
        { frm := acc.frm ++ " " ++ toString (mappedPayload E map s)
          rtpmap := acc.rtpmap
            ++ ["rtpmap:" ++ toString (mappedPayload E map s) ++ " "
                  ++ (E.rtpmap (defcode E map s)).getD ""]
            ++ (if mode ≠ 0 then
                  ["fmtp:" ++ toString (mappedPayload E map s) ++ " mode=" ++ toString mode]
                else [])
            ++ (if s = "g729" then
                  ["fmtp:" ++ toString (mappedPayload E map s) ++ " annexb="
                    ++ (if "g729b" ∈ l then "yes" else "no")]
                else if s = "amr" then
                  ["fmtp:" ++ toString (mappedPayload E map s) ++ " octet-align=0"]
                else if s = "amr-o" then
                  ["fmtp:" ++ toString (mappedPayload E map s) ++ " octet-align=1"]
                else [])
          ptime := acc.ptime }
      else acc := by
  by_cases hR : Retained E map s
  · rw [if_pos hR]
    obtain ⟨_, hp, hsome, hc⟩ := hR
    obtain ⟨enc, henc⟩ := Option.isSome_iff_exists.1 hsome
    have henc2 := henc
    unfold defcode at henc2
    unfold codecEmit
    simp only [hp, henc, henc2, hc, if_true, Option.getD_some]
  · rw [if_neg hR]
    unfold codecEmit
    simp only []
    by_cases hp : 0 ≤ mappedPayload E map s
    · rw [if_pos hp]
      cases hr : E.rtpmap (if E.payloads s < 0 then mappedPayload E map s else E.payloads s) with
      | none => rfl
      | some enc =>
        by_cases hc : codecEnabled E s = true
        · exact absurd ⟨hs, hp, by unfold defcode; rw [hr]; rfl, hc⟩ hR
        · simp only [hc]
          rfl
    · rw [if_neg hp]

theorem codecStep_eq (E : Env) (l map : List String) (acc : FmtAcc) (s : String) :
    codecStep E l map acc s =
      if Retained E map s then
        { frm := acc.frm ++ specTokenPayload E map s
          rtpmap := acc.rtpmap ++ specTokenLines E l map s
          ptime := ptimeStep acc.ptime s }
      else { acc with ptime := ptimeStep acc.ptime s } := by
  unfold codecStep
  by_cases h20 : s = "ilbc20"
  · subst h20
    rw [if_pos rfl, codecEmit_eq _ _ _ _ _ _ (by decide)]
    by_cases hR : Retained E map "ilbc20"
    · simp only [if_pos hR, specTokenPayload, specTokenLines, specFmtp, ptimeStep]
      simp [String.append_assoc]
      rfl
    · simp only [if_neg hR, ptimeStep]
      rfl
  · rw [if_neg h20]
    by_cases h30 : s = "ilbc30"
    · subst h30
      rw [if_pos rfl, codecEmit_eq _ _ _ _ _ _ (by decide)]
      by_cases hR : Retained E map "ilbc30"
      · simp only [if_pos hR, specTokenPayload, specTokenLines, specFmtp, ptimeStep]
        simp [String.append_assoc]
        rfl
      · simp only [if_neg hR, ptimeStep]
        rfl
    · rw [if_neg h30]
      by_cases hb : s = "g729b"
      · subst hb
        have hR : ¬ Retained E map "g729b" := fun h => h.1 rfl
        rw [if_pos rfl, if_neg hR]
        simp [ptimeStep]
      · rw [if_neg hb, codecEmit_eq _ _ _ _ _ _ hb]
        by_cases hR : Retained E map s
        · simp only [if_pos hR, specTokenPayload, specTokenLines, specFmtp, ptimeStep, h20, h30,
            if_false]
          by_cases hg : s = "g729"
          · subst hg
            simp [String.append_assoc]
          · by_cases ha : s = "amr"
            · subst ha
              simp [String.append_assoc]
            · by_cases hao : s = "amr-o"
              · subst hao
                simp [String.append_assoc]
              · simp [hg, ha, hao, String.append_assoc]
        · simp only [if_neg hR, ptimeStep, h20, h30, if_false]

theorem codecStep_spec (E : Env) (l map : List String) (acc : FmtAcc) (s : String) :
    codecStep E l map acc s =
      { frm := acc.frm ++ specTokenPayload E map s
        rtpmap := acc.rtpmap ++ specTokenLines E l map s
        ptime := ptimeStep acc.ptime s } := by
  rw [codecStep_eq]
  by_cases hR : Retained E map s
  · rw [if_pos hR]
  · rw [if_neg hR]
    simp [specTokenPayload, specTokenLines, hR]

theorem codecFold_spec (E : Env) (l map : List String) :
    ∀ (ts : List String) (acc : FmtAcc),
      ts.foldl (codecStep E l map) acc =
        { frm := acc.frm ++ concatAll (ts.map (specTokenPayload E map))
          rtpmap := acc.rtpmap ++ ts.flatMap (specTokenLines E l map)
          ptime := ts.foldl ptimeStep acc.ptime } := by
  intro ts
  induction ts with
  | nil => intro acc; simp [concatAll]
  | cons t ts ih =>
    intro acc
    rw [List.foldl_cons, ih, codecStep_spec]
    simp [concatAll, String.append_assoc]

theorem codecLoop_spec (E : Env) (m : SDPMedia) :
    codecLoop E m =
      { frm := concatAll ((split m.fmtList ',' false).map
          (specTokenPayload E (split m.mappings ',' false)))
        rtpmap := (split m.fmtList ',' false).flatMap
          (specTokenLines E (split m.fmtList ',' false) (split m.mappings ',' false))
        ptime := (split m.fmtList ',' false).foldl ptimeStep 0 } := by
  unfold codecLoop
  simp only []
  rw [codecFold_spec]
  simp

theorem concatAll_payload_empty (E : Env) (map : List String) :
    ∀ ts : List String,
      concatAll (ts.map (specTokenPayload E map)) = "" ↔ ∀ t ∈ ts, ¬ Retained E map t := by
  intro ts
  induction ts with
  | nil => simp [concatAll]
  | cons t ts ih =>
    simp only [List.map_cons, concatAll, List.mem_cons, forall_eq_or_imp]
    constructor
    · intro h
      obtain ⟨h1, h2⟩ := str_append_eq_empty _ _ h
      refine ⟨?_, ih.1 h2⟩
      intro hR
      unfold specTokenPayload at h1
      rw [if_pos hR] at h1
      exact absurd (str_append_eq_empty _ _ h1).1 (by decide)
    · rintro ⟨h1, h2⟩
      rw [ih.2 h2]
      unfold specTokenPayload
      rw [if_neg h1]
      rfl

theorem codecLoop_frm_empty (E : Env) (m : SDPMedia) :
    (codecLoop E m).frm = "" ↔
      ∀ t ∈ split m.fmtList ',' false, ¬ Retained E (split m.mappings ',' false) t := by
  rw [codecLoop_spec]
  exact concatAll_payload_empty E _ _

theorem flatMap_lines_nil (E : Env) (l map : List String) :
    ∀ ts : List String, (∀ t ∈ ts, ¬ Retained E map t) →
      ts.flatMap (specTokenLines E l map) = [] := by
  intro ts h
  induction ts with
  | nil => rfl
  | cons t ts ih =>
    rw [List.flatMap_cons, ih (fun t ht => h t (List.mem_cons_of_mem _ ht))]
    unfold specTokenLines
    rw [if_neg (h t (List.mem_cons_self _ _))]
    rfl

theorem codecLoop_rtpmap_nil (E : Env) (m : SDPMedia) (h : (codecLoop E m).frm = "") :
    (codecLoop E m).rtpmap = [] := by
  have h2 := (codecLoop_frm_empty E m).1 h
  rw [codecLoop_spec]
  exact flatMap_lines_nil E _ _ _ h2

/-! ## The lines of one media -/

theorem addTelephoneEvent_frm (E : Env) (s : SDPSession) (m : SDPMedia) (acc : FmtAcc) :
    (addTelephoneEvent E s m acc).frm =
      if s.rfc2833 = true ∧ acc.frm ≠ "" ∧ m.audio = true then
        acc.frm ++ " " ++ toString (rfc2833Payload E m)
      else acc.frm := by
  unfold addTelephoneEvent
  split <;> rfl

theorem addTelephoneEvent_frm_empty (E : Env) (s : SDPSession) (m : SDPMedia) (acc : FmtAcc) :
    (addTelephoneEvent E s m acc).frm = "" ↔ acc.frm = "" := by
  rw [addTelephoneEvent_frm]
  split
  · next h =>
    constructor
    · intro h1
      exact absurd h1 (frm_piece_ne_empty _ _)
    · intro h1
      exact absurd h1 h.2.1
  · rfl

theorem withPtime_addTelephoneEvent (E : Env) (s : SDPSession) (m : SDPMedia) (acc : FmtAcc) :
    withPtime (addTelephoneEvent E s m acc) =
      acc.rtpmap ++ teleLines E s m acc ++ ptimeLines acc.ptime := by
  unfold withPtime addTelephoneEvent teleLines ptimeLines
  by_cases h : s.rfc2833 = true ∧ acc.frm ≠ "" ∧ m.audio = true
  · rw [if_pos h, if_pos h]
    by_cases hp : acc.ptime ≠ 0
    · simp [hp]
    · simp [hp]
  · rw [if_neg h, if_neg h]
    by_cases hp : acc.ptime ≠ 0
    · simp [hp]
    · simp [hp]

theorem mediaBlock_excluded (E : Env) (s : SDPSession) (addr : Option String) (m : SDPMedia)
    (h : (codecLoop E m).frm = "" ∧ (m.audio = true ∨ m.fmtList = "")) :
    mediaBlock E s addr m = [] := by
  unfold mediaBlock
  simp only []
  rw [if_pos ⟨(addTelephoneEvent_frm_empty E s m _).2 h.1, h.2⟩]

theorem mediaBlock_emitted (E : Env) (s : SDPSession) (addr : Option String) (m : SDPMedia)
    (h : ¬ ((codecLoop E m).frm = "" ∧ (m.audio = true ∨ m.fmtList = ""))) :
    mediaBlock E s addr m =
      { name := "m"
        value := mlineHead m ++
          (if (codecLoop E m).frm = "" then commasToSpaces (" " ++ m.fmtList)
           else (addTelephoneEvent E s m (codecLoop E m)).frm) }
      :: (bagLines m
          ++ ((codecLoop E m).rtpmap ++ teleLines E s m (codecLoop E m)
                ++ ptimeLines (codecLoop E m).ptime).map attrLine
          ++ cryptoLines addr m) := by
  unfold mediaBlock
  simp only []
  have h1 : ¬ ((addTelephoneEvent E s m (codecLoop E m)).frm = ""
      ∧ (m.audio = true ∨ m.fmtList = "")) := by
    rw [addTelephoneEvent_frm_empty]; exact h
  rw [if_neg h1, withPtime_addTelephoneEvent]
  simp only [addTelephoneEvent_frm_empty, List.singleton_append, List.append_assoc,
    List.cons_append, List.nil_append]
  rfl

theorem addTelephoneEvent_frm_tele (E : Env) (s : SDPSession) (m : SDPMedia) (acc : FmtAcc) :
    (addTelephoneEvent E s m acc).frm = acc.frm ++ telePayload E s m acc := by
  rw [addTelephoneEvent_frm]
  unfold telePayload
  split
  · rw [String.append_assoc]
  · simp

theorem commasToSpaces_space (x : String) :
    commasToSpaces (" " ++ x) = " " ++ commasToSpaces x := by
  unfold commasToSpaces
  apply String.ext
  rw [String.data_append, String.data_append]
  rfl

theorem mediaBlock_listed (E : Env) (s : SDPSession) (addr : Option String) (m : SDPMedia)
    (h : (codecLoop E m).frm ≠ "") :
    mediaBlock E s addr m =
      { name := "m"
        value := mlineHead m ++ ((codecLoop E m).frm ++ telePayload E s m (codecLoop E m)) }
      :: (bagLines m
          ++ ((codecLoop E m).rtpmap ++ teleLines E s m (codecLoop E m)
                ++ ptimeLines (codecLoop E m).ptime).map attrLine
          ++ cryptoLines addr m) := by
  rw [mediaBlock_emitted E s addr m (fun hh => h hh.1), if_neg h, addTelephoneEvent_frm_tele]

theorem mediaBlock_raw (E : Env) (s : SDPSession) (addr : Option String) (m : SDPMedia)
    (h : (codecLoop E m).frm = "") (ha : m.audio = false) (hf : m.fmtList ≠ "") :
    mediaBlock E s addr m =
      { name := "m", value := mlineHead m ++ (" " ++ commasToSpaces m.fmtList) }
      :: (bagLines m ++ (ptimeLines (codecLoop E m).ptime).map attrLine
          ++ cryptoLines addr m) := by
  have hem : ¬ ((codecLoop E m).frm = "" ∧ (m.audio = true ∨ m.fmtList = "")) := by
    rintro ⟨_, h1 | h1⟩
    · rw [ha] at h1; exact absurd h1 (by decide)
    · exact hf h1
  have ht : teleLines E s m (codecLoop E m) = [] := by
    unfold teleLines
    rw [if_neg (fun hh => hh.2.1 h)]
  rw [mediaBlock_emitted E s addr m hem, if_pos h, commasToSpaces_space,
    codecLoop_rtpmap_nil E m h, ht]
  rfl

theorem not_ptime_of_rtpmap (a : String) (h : startsWith a "rtpmap:" = true) :
    startsWith a "ptime:" = false := by
  unfold startsWith at h ⊢
  cases hd : a.data with
  | nil => rw [hd] at h; exact absurd h (by decide)
  | cons c cs =>
    rw [hd] at h
    have h1 : ("rtpmap:" : String).data = 'r' :: ("tpmap:" : String).data := rfl
    have h2 : ("ptime:" : String).data = 'p' :: ("time:" : String).data := rfl
    rw [h1] at h
    rw [h2]
    simp only [List.isPrefixOf, List.isEmpty_cons, Bool.not_false, Bool.true_and,
      Bool.and_eq_true, beq_iff_eq] at h
    have hc : c = 'r' := h.1.symm
    subst hc
    simp only [List.isPrefixOf, List.isEmpty_cons, Bool.not_false, Bool.true_and]
    have : ('p' == 'r') = false := by decide
    rw [this]
    rfl

theorem not_ptime_of_fmtp (a : String) (h : startsWith a "fmtp:" = true) :
    startsWith a "ptime:" = false := by
  unfold startsWith at h ⊢
  cases hd : a.data with
  | nil => rw [hd] at h; exact absurd h (by decide)
  | cons c cs =>
    rw [hd] at h
    have h1 : ("fmtp:" : String).data = 'f' :: ("mtp:" : String).data := rfl
    have h2 : ("ptime:" : String).data = 'p' :: ("time:" : String).data := rfl
    rw [h1] at h
    rw [h2]
    simp only [List.isPrefixOf, List.isEmpty_cons, Bool.not_false, Bool.true_and,
      Bool.and_eq_true, beq_iff_eq] at h
    have hc : c = 'f' := h.1.symm
    subst hc
    simp only [List.isPrefixOf, List.isEmpty_cons, Bool.not_false, Bool.true_and]
    have : ('p' == 'f') = false := by decide
    rw [this]
    rfl

theorem specFmtp_start (l : List String) (t : String) (pt : Int) :
    ∀ a ∈ specFmtp l t pt, startsWith a "fmtp:" = true := by
  intro a ha
  have key : ∀ x : String, startsWith ("fmtp:" ++ toString pt ++ x) "fmtp:" = true := by
    intro x
    rw [String.append_assoc]
    exact startsWith_append _ _ (by decide)
  unfold specFmtp at ha
  split at ha
  · simp at ha; subst ha; exact key _
  · split at ha
    · simp at ha; subst ha; exact key _
    · split at ha
      · simp at ha; subst ha; exact key _
      · split at ha
        · simp at ha; subst ha; exact key _
        · split at ha
          · simp at ha
            subst ha
            rw [String.append_assoc ("fmtp:" ++ toString pt)]
            exact key _
          · simp at ha

theorem specTokenLines_start (E : Env) (l map : List String) (t : String) :
    ∀ a ∈ specTokenLines E l map t,
      startsWith a "rtpmap:" = true ∨ startsWith a "fmtp:" = true := by
  intro a ha
  unfold specTokenLines at ha
  split at ha
  · rcases List.mem_cons.1 ha with rfl | h
    · left
      rw [String.append_assoc, String.append_assoc]
      exact startsWith_append _ _ (by decide)
    · exact Or.inr (specFmtp_start l t _ a h)
  · simp at ha

theorem codecLoop_rtpmap_start (E : Env) (m : SDPMedia) :
    ∀ a ∈ (codecLoop E m).rtpmap,
      startsWith a "rtpmap:" = true ∨ startsWith a "fmtp:" = true := by
  intro a ha
  rw [codecLoop_spec] at ha
  simp only [List.mem_flatMap] at ha
  obtain ⟨t, _, hat⟩ := ha
  exact specTokenLines_start E _ _ t a hat

theorem teleLines_start (E : Env) (s : SDPSession) (m : SDPMedia) (acc : FmtAcc) :
    ∀ a ∈ teleLines E s m acc, startsWith a "rtpmap:" = true := by
  intro a ha
  unfold teleLines at ha
  split at ha
  · simp at ha
    subst ha
    rw [String.append_assoc]
    exact startsWith_append _ _ (by decide)
  · simp at ha

theorem cryptoLines_not_ptime (addr : Option String) (m : SDPMedia) :
    ∀ x ∈ cryptoLines addr m, isPtimeLine x = false := by
  intro x hx
  have hc : isPtimeLine { name := "a", value := "crypto:" ++ m.localCrypto } = false := by
    unfold isPtimeLine startsWith
    rw [String.data_append]
    rfl
  unfold cryptoLines at hx
  split at hx
  · split at hx
    · simp at hx; subst hx; exact hc
    · simp at hx
      rcases hx with rfl | rfl
      · exact hc
      · decide
  · simp at hx

theorem ptimeFold_absent :
    ∀ (ts : List String) (p : Int), "ilbc20" ∉ ts → "ilbc30" ∉ ts →
      ts.foldl ptimeStep p = p := by
  intro ts
  induction ts with
  | nil => intro p _ _; rfl
  | cons t ts ih =>
    intro p h20 h30
    have a20 : t ≠ "ilbc20" := fun e => h20 (by rw [e]; exact List.mem_cons_self _ _)
    have a30 : t ≠ "ilbc30" := fun e => h30 (by rw [e]; exact List.mem_cons_self _ _)
    rw [List.foldl_cons, ih _ (fun e => h20 (List.mem_cons_of_mem _ e))
      (fun e => h30 (List.mem_cons_of_mem _ e))]
    unfold ptimeStep
    rw [if_neg a20, if_neg a30]

theorem ptimeFold_present :
    ∀ (ts : List String) (p : Int), ("ilbc20" ∈ ts ∨ "ilbc30" ∈ ts) →
      (ts.foldl ptimeStep p = 20 ∧ "ilbc20" ∈ ts) ∨
        (ts.foldl ptimeStep p = 30 ∧ "ilbc30" ∈ ts) := by
  intro ts
  induction ts with
  | nil => intro p h; simp at h
  | cons t ts ih =>
    intro p h
    rw [List.foldl_cons]
    by_cases hin : "ilbc20" ∈ ts ∨ "ilbc30" ∈ ts
    · rcases ih (ptimeStep p t) hin with ⟨h1, h2⟩ | ⟨h1, h2⟩
      · exact Or.inl ⟨h1, List.mem_cons_of_mem _ h2⟩
      · exact Or.inr ⟨h1, List.mem_cons_of_mem _ h2⟩
    · have n20 : "ilbc20" ∉ ts := fun e => hin (Or.inl e)
      have n30 : "ilbc30" ∉ ts := fun e => hin (Or.inr e)
      rw [ptimeFold_absent ts _ n20 n30]
      rcases h with h | h
      · rcases List.mem_cons.1 h with e | e
        · left
          refine ⟨?_, h⟩
          unfold ptimeStep
          rw [if_pos e.symm]
        · exact absurd e n20
      · rcases List.mem_cons.1 h with e | e
        · right
          refine ⟨?_, h⟩
          unfold ptimeStep
          rw [if_neg (by rw [← e]; decide), if_pos e.symm]
        · exact absurd e n30

theorem countP_attr_none (l : List String)
    (h : ∀ a ∈ l, startsWith a "ptime:" = false) :
    (l.map attrLine).countP isPtimeLine = 0 := by
  rw [List.countP_eq_zero]
  intro x hx
  rw [List.mem_map] at hx
  obtain ⟨a, ha, rfl⟩ := hx
  unfold isPtimeLine attrLine
  simp [h a ha]

theorem own_ptime_count (E : Env) (s : SDPSession) (addr : Option String) (m : SDPMedia) :
    (((codecLoop E m).rtpmap ++ teleLines E s m (codecLoop E m)
        ++ ptimeLines (codecLoop E m).ptime).map attrLine
      ++ cryptoLines addr m).countP isPtimeLine =
      if (codecLoop E m).ptime ≠ 0 then 1 else 0 := by
  have h1 : ((codecLoop E m).rtpmap.map attrLine).countP isPtimeLine = 0 := by
    apply countP_attr_none
    intro a ha
    rcases codecLoop_rtpmap_start E m a ha with h | h
    · exact not_ptime_of_rtpmap a h
    · exact not_ptime_of_fmtp a h
  have h2 : ((teleLines E s m (codecLoop E m)).map attrLine).countP isPtimeLine = 0 := by
    apply countP_attr_none
    intro a ha
    exact not_ptime_of_rtpmap a (teleLines_start E s m _ a ha)
  have h3 : (cryptoLines addr m).countP isPtimeLine = 0 := by
    rw [List.countP_eq_zero]
    intro x hx
    rw [cryptoLines_not_ptime addr m x hx]
    simp
  rw [List.countP_append, List.map_append, List.map_append, List.countP_append,
    List.countP_append, h1, h2, h3]
  unfold ptimeLines
  split
  · have : isPtimeLine (attrLine ("ptime:" ++ toString (codecLoop E m).ptime)) = true := by
      unfold isPtimeLine attrLine
      simp only [decide_True, Bool.true_and]
      exact startsWith_append _ _ (by decide)
    simp [List.countP_cons, this]
  · simp

theorem skipPastChar_first (c : Char) (all rest : List Char) :
    ∀ pre : List Char, c ∉ pre → skipPastChar c all (pre ++ c :: rest) = rest := by
  intro pre
  induction pre with
  | nil => intro _; simp [skipPastChar]
  | cons d ds ih =>
    intro h
    have hd : d ≠ c := fun e => h (by rw [e]; exact List.mem_cons_self _ _)
    have hds : c ∉ ds := fun e => h (List.mem_cons_of_mem _ e)
    simp [skipPastChar, hd, ih hds]

theorem skipPast_entry (s r : String) (h : '=' ∉ s.data) :
    skipPast (s ++ "=" ++ r) '=' = r := by
  unfold skipPast
  apply String.ext
  simp only [String.data_append]
  simp only [List.append_assoc, List.singleton_append]
  exact skipPastChar_first '=' _ _ _ h

theorem mappedPayload_unmapped (E : Env) (map : List String) (s : String)
    (h : ∀ e ∈ map, startsWith e (s ++ "=") = false) :
    mappedPayload E map s = E.payloads s := by
  unfold mappedPayload
  have : map.find? (fun mapping => startsWith mapping (s ++ "=")) = none := by
    rw [List.find?_eq_none]
    intro e he
    rw [h e he]
    simp
  rw [this]

theorem mappedPayload_mapped (E : Env) (pre post : List String) (s e : String)
    (hpre : ∀ x ∈ pre, startsWith x (s ++ "=") = false)
    (he : startsWith e (s ++ "=") = true) :
    mappedPayload E (pre ++ e :: post) s = (E.readInt (skipPast e '=')).getD (-1) := by
  unfold mappedPayload
  have : (pre ++ e :: post).find? (fun mapping => startsWith mapping (s ++ "=")) = some e := by
    induction pre with
    | nil => simp [List.find?, he]
    | cons x xs ih =>
      have hx := hpre x (List.mem_cons_self _ _)
      simp only [List.cons_append, List.find?, hx]
      exact ih (fun y hy => hpre y (List.mem_cons_of_mem _ hy))
  rw [this]

/-! ## Claims -/

/-- C1: when the session already has a non-zero session id `s` and version `v`, a call of
`createSDP` that has a media list to work on keeps the session id, makes the version
exactly `v + 1` (strictly greater than `v`) and writes both into the single `o=` line of
the body; on the first offer (session id still zero) session id and version both become
the current time in seconds and the `o=` line carries them. -/
theorem createSDP_session_version (E : Env) (now : Int) (s : SDPSession)
    (addr : Option String) (mediaList : Option (List SDPMedia)) (ml : List SDPMedia)
    (h : pickList s mediaList = some ml) :
    ∃ body, (createSDP E now s addr mediaList).2 = some body ∧
      (s.sdpSession ≠ 0 →
        (createSDP E now s addr mediaList).1.sdpSession = s.sdpSession ∧
        (createSDP E now s addr mediaList).1.sdpVersion = s.sdpVersion + 1 ∧
        s.sdpVersion < (createSDP E now s addr mediaList).1.sdpVersion ∧
        body.filter (fun x => x.name = "o") =
          [{ name := "o"
             value := "yate " ++ toString s.sdpSession ++ " " ++ toString (s.sdpVersion + 1)
               ++ " IN IP4 " ++ (match addr with | some a => a | none => s.host) }]) ∧
      (s.sdpSession = 0 →
        (createSDP E now s addr mediaList).1.sdpSession = now ∧
        (createSDP E now s addr mediaList).1.sdpVersion = now ∧
        body.filter (fun x => x.name = "o") =
          [{ name := "o"
             value := "yate " ++ toString now ++ " " ++ toString now
               ++ " IN IP4 " ++ (match addr with | some a => a | none => s.host) }]) := by
  rw [createSDP_of_list E now s addr mediaList ml h]
  refine ⟨_, rfl, ?_, ?_⟩
  · intro hs
    have hb : bumpVersion now s = { s with sdpVersion := s.sdpVersion + 1 } := by
      unfold bumpVersion; rw [if_pos hs]
    have hrest : ((ml.map (mediaBlock E (bumpVersion now s) addr)).flatten).filter
        (fun x => x.name = "o") = [] := by
      rw [List.filter_eq_nil_iff]
      intro x hx
      have := blocks_names _ (by
        intro b hb'
        rw [List.mem_map] at hb'
        obtain ⟨m, _, rfl⟩ := hb'
        exact mediaBlock_shape E _ addr m) x hx
      rcases this with h1 | h1 <;> simp [h1]
    refine ⟨by rw [hb], by rw [hb], by rw [hb]; simp, ?_⟩
    rw [List.filter_append, hrest, hb]
    simp [List.filter, originLine]
  · intro hs
    have hb : bumpVersion now s = { s with sdpSession := now, sdpVersion := now } := by
      unfold bumpVersion; rw [if_neg (by simpa using hs)]
    have hrest : ((ml.map (mediaBlock E (bumpVersion now s) addr)).flatten).filter
        (fun x => x.name = "o") = [] := by
      rw [List.filter_eq_nil_iff]
      intro x hx
      have := blocks_names _ (by
        intro b hb'
        rw [List.mem_map] at hb'
        obtain ⟨m, _, rfl⟩ := hb'
        exact mediaBlock_shape E _ addr m) x hx
      rcases this with h1 | h1 <;> simp [h1]
    refine ⟨by rw [hb], by rw [hb], ?_⟩
    rw [List.filter_append, hrest, hb]
    simp [List.filter, originLine]

theorem createSDP_session_version_witness :
    pickList { sampleSession true true with sdpSession := 1000, sdpVersion := 1004 }
        (some [sampleMedia "audio" "alaw" ""]) = some [sampleMedia "audio" "alaw" ""] ∧
    (1000 : Int) ≠ 0 ∧
    ∃ body, (createSDP sampleEnv 2000
        { sampleSession true true with sdpSession := 1000, sdpVersion := 1004 }
        (some "10.0.0.1") (some [sampleMedia "audio" "alaw" ""])).2 = some body ∧
      (createSDP sampleEnv 2000
        { sampleSession true true with sdpSession := 1000, sdpVersion := 1004 }
        (some "10.0.0.1") (some [sampleMedia "audio" "alaw" ""])).1.sdpSession = 1000 ∧
      (createSDP sampleEnv 2000
        { sampleSession true true with sdpSession := 1000, sdpVersion := 1004 }
        (some "10.0.0.1") (some [sampleMedia "audio" "alaw" ""])).1.sdpVersion = 1004 + 1 ∧
      body.filter (fun x => x.name = "o") =
        [{ name := "o"
           value := "yate " ++ toString (1000 : Int) ++ " " ++ toString ((1004 : Int) + 1)
             ++ " IN IP4 " ++ "10.0.0.1" }] :=
  ⟨rfl, by decide,
    (createSDP_session_version sampleEnv 2000
      { sampleSession true true with sdpSession := 1000, sdpVersion := 1004 }
      (some "10.0.0.1") (some [sampleMedia "audio" "alaw" ""])
      [sampleMedia "audio" "alaw" ""] rfl).imp
      (fun _ hb => ⟨hb.1, (hb.2.1 (by decide)).1, (hb.2.1 (by decide)).2.1,
        (hb.2.1 (by decide)).2.2.2⟩)⟩

/-- C2: for every address and every media list the body begins with the five lines `v=0`,
`o=`, `s=`, `c=`, `t=0 0` in this order; what follows is the sequence of the media blocks,
one per media, each of them empty or an `m=` line followed by `a=` lines only, so that
every later line is an `m=` or an `a=` line and the first of them, if any, is an `m=`
line. -/
theorem createSDP_line_order (E : Env) (now : Int) (s : SDPSession) (addr : Option String)
    (mediaList : Option (List SDPMedia)) (ml : List SDPMedia)
    (h : pickList s mediaList = some ml) :
    ∃ (origin conn : String) (blocks : List (List NamedString)),
      (createSDP E now s addr mediaList).2 =
        some ([{ name := "v", value := "0" }, { name := "o", value := origin },
               { name := "s", value := E.sessionName }, { name := "c", value := conn },
               { name := "t", value := "0 0" }] ++ blocks.flatten) ∧
      blocks = ml.map (mediaBlock E (bumpVersion now s) addr) ∧
      (∀ b ∈ blocks, IsMediaBlock b) ∧
      (∀ x ∈ blocks.flatten, x.name = "m" ∨ x.name = "a") ∧
      (∀ x, blocks.flatten.head? = some x → x.name = "m") := by
  rw [createSDP_of_list E now s addr mediaList ml h]
  have hb : ∀ b ∈ ml.map (mediaBlock E (bumpVersion now s) addr), IsMediaBlock b := by
    intro b hb'
    rw [List.mem_map] at hb'
    obtain ⟨m, _, rfl⟩ := hb'
    exact mediaBlock_shape E _ addr m
  exact ⟨_, _, _, rfl, rfl, hb, blocks_names _ hb, blocks_head _ hb⟩

theorem createSDP_line_order_witness :
    pickList (sampleSession true true) (some [sampleMedia "audio" "alaw" ""]) =
        some [sampleMedia "audio" "alaw" ""] ∧
    ∃ (origin conn : String) (blocks : List (List NamedString)),
      (createSDP sampleEnv 2000 (sampleSession true true) none
          (some [sampleMedia "audio" "alaw" ""])).2 =
        some ([{ name := "v", value := "0" }, { name := "o", value := origin },
               { name := "s", value := sampleEnv.sessionName }, { name := "c", value := conn },
               { name := "t", value := "0 0" }] ++ blocks.flatten) ∧
      blocks = [sampleMedia "audio" "alaw" ""].map
        (mediaBlock sampleEnv (bumpVersion 2000 (sampleSession true true)) none) ∧
      (∀ b ∈ blocks, IsMediaBlock b) ∧
      (∀ x ∈ blocks.flatten, x.name = "m" ∨ x.name = "a") ∧
      (∀ x, blocks.flatten.head? = some x → x.name = "m") :=
  ⟨rfl, createSDP_line_order sampleEnv 2000 (sampleSession true true) none
    (some [sampleMedia "audio" "alaw" ""]) [sampleMedia "audio" "alaw" ""] rfl⟩

/-- C3: the attribute lines the loop over a media's format list produces are, token by
token and in the order of the list, the lines of `specTokenLines`: for every retained
token exactly one `rtpmap:<pt> <encoding>` line with its payload number, followed by
`fmtp:<pt> mode=20` for ilbc20, `mode=30` for ilbc30, `octet-align=0` for amr,
`octet-align=1` for amr-o, `annexb=yes` for g729 when `g729b` is in the format list and
`annexb=no` when it is not, and by no `fmtp` line for any other token; tokens that are not
retained produce nothing. These lines stand in the media block after the copies of the
attribute bag. In particular the list `g729,g729b`, with static payload 18 for g729 and no
mapping for it, yields the payload list ` 18` and the lines `rtpmap:18 <encoding>` and
`fmtp:18 annexb=yes`. -/
theorem createSDP_codec_lines (E : Env) (s : SDPSession) (addr : Option String)
    (m : SDPMedia) :
    (codecLoop E m).rtpmap =
        (split m.fmtList ',' false).flatMap
          (specTokenLines E (split m.fmtList ',' false) (split m.mappings ',' false)) ∧
    (mediaBlock E s addr m ≠ [] →
      ∃ v, mediaBlock E s addr m =
        { name := "m", value := v }
          :: (bagLines m
              ++ ((split m.fmtList ',' false).flatMap
                    (specTokenLines E (split m.fmtList ',' false) (split m.mappings ',' false))
                  ++ teleLines E s m (codecLoop E m)
                  ++ ptimeLines (codecLoop E m).ptime).map attrLine
              ++ cryptoLines addr m)) ∧
    (∀ enc : String, m.fmtList = "g729,g729b" → E.payloads "g729" = 18 →
      E.rtpmap 18 = some enc → codecEnabled E "g729" = true →
      (∀ e ∈ split m.mappings ',' false, startsWith e "g729=" = false) →
      (codecLoop E m).frm = " 18" ∧
      (codecLoop E m).rtpmap = ["rtpmap:18 " ++ enc, "fmtp:18 annexb=yes"]) := by
  refine ⟨by rw [codecLoop_spec], ?_, ?_⟩
  · intro hne
    have hem : ¬ ((codecLoop E m).frm = "" ∧ (m.audio = true ∨ m.fmtList = "")) :=
      fun h => hne (mediaBlock_excluded E s addr m h)
    refine ⟨mlineHead m ++
      (if (codecLoop E m).frm = "" then commasToSpaces (" " ++ m.fmtList)
       else (addTelephoneEvent E s m (codecLoop E m)).frm), ?_⟩
    rw [mediaBlock_emitted E s addr m hem]
    congr 5
    rw [codecLoop_spec]
  · intro enc hf hp hr hc hmap
    have hsplit : split m.fmtList ',' false = ["g729", "g729b"] := by rw [hf]; decide
    have hfind : (split m.mappings ',' false).find?
        (fun mapping => startsWith mapping ("g729" ++ "=")) = none := by
      rw [List.find?_eq_none]
      intro e he
      have := hmap e he
      have h2 : ("g729" ++ "=" : String) = "g729=" := by decide
      rw [h2, this]
      simp
    have hmp : mappedPayload E (split m.mappings ',' false) "g729" = 18 := by
      unfold mappedPayload
      rw [hfind]
      exact hp
    have hdc : defcode E (split m.mappings ',' false) "g729" = 18 := by
      unfold defcode
      rw [hp]
      simp
    have hR : Retained E (split m.mappings ',' false) "g729" :=
      ⟨by decide, by rw [hmp]; decide, by rw [hdc, hr]; rfl, hc⟩
    have hRb : ¬ Retained E (split m.mappings ',' false) "g729b" := fun h => h.1 rfl
    rw [codecLoop_spec, hsplit]
    simp only [List.map_cons, List.map_nil, concatAll, specTokenPayload, if_pos hR, if_neg hRb,
      List.flatMap_cons, List.flatMap_nil, specTokenLines, hmp, hdc, hr, Option.getD_some,
      specFmtp]
    refine ⟨by decide, ?_⟩
    have h3 : ("rtpmap:" ++ toString (18 : Int) ++ " " : String) = "rtpmap:18 " := by decide
    rw [h3]
    simp
    decide

theorem createSDP_codec_lines_witness :
    mediaBlock sampleEnv (sampleSession true false) (some "10.0.0.1")
        (sampleMedia "audio" "g729,g729b" "") ≠ [] ∧
    (sampleMedia "audio" "g729,g729b" "").fmtList = "g729,g729b" ∧
    sampleEnv.payloads "g729" = 18 ∧ sampleEnv.rtpmap 18 = some "G729/8000" ∧
    codecEnabled sampleEnv "g729" = true ∧
    (∀ e ∈ split (sampleMedia "audio" "g729,g729b" "").mappings ',' false,
      startsWith e "g729=" = false) ∧
    (codecLoop sampleEnv (sampleMedia "audio" "g729,g729b" "")).frm = " 18" ∧
    (codecLoop sampleEnv (sampleMedia "audio" "g729,g729b" "")).rtpmap =
      ["rtpmap:18 " ++ "G729/8000", "fmtp:18 annexb=yes"] :=
  ⟨by decide, rfl, rfl, rfl, rfl, by decide,
    (createSDP_codec_lines sampleEnv (sampleSession true false) (some "10.0.0.1")
      (sampleMedia "audio" "g729,g729b" "")).2.2 "G729/8000" rfl rfl rfl rfl (by decide)⟩

/-- C4: the token `g729b` never contributes a payload number or an attribute line (a turn
of the loop on it leaves the payload list and the attribute lines as they were, and it is
never a retained token), and an audio media whose format list holds `g729b` only, such as
the list `g729b` itself, adds no line at all to the body: the media is omitted. -/
theorem createSDP_g729b_suppressed (E : Env) (s : SDPSession) (addr : Option String) :
    (∀ (l map : List String) (acc : FmtAcc), codecStep E l map acc "g729b" = acc) ∧
    (∀ (l map : List String), specTokenPayload E map "g729b" = ""
      ∧ specTokenLines E l map "g729b" = []) ∧
    (∀ m : SDPMedia, m.audio = true → (∀ t ∈ split m.fmtList ',' false, t = "g729b") →
      mediaBlock E s addr m = []) ∧
    (∀ m : SDPMedia, m.audio = true → m.fmtList = "g729b" → mediaBlock E s addr m = []) := by
  have hRb : ∀ map, ¬ Retained E map "g729b" := fun _ h => h.1 rfl
  have h3 : ∀ m : SDPMedia, m.audio = true → (∀ t ∈ split m.fmtList ',' false, t = "g729b") →
      mediaBlock E s addr m = [] := by
    intro m ha ht
    apply mediaBlock_excluded
    refine ⟨?_, Or.inl ha⟩
    rw [codecLoop_frm_empty]
    intro t htm
    rw [ht t htm]
    exact hRb _
  refine ⟨?_, ?_, h3, ?_⟩
  · intro l map acc
    unfold codecStep
    rw [if_neg (by decide), if_neg (by decide), if_pos rfl]
  · intro l map
    unfold specTokenPayload specTokenLines
    rw [if_neg (hRb map), if_neg (hRb map)]
    exact ⟨rfl, rfl⟩
  · intro m ha hf
    apply h3 m ha
    rw [hf]
    decide

theorem createSDP_g729b_suppressed_witness :
    (sampleMedia "audio" "g729b" "").audio = true ∧
    (sampleMedia "audio" "g729b" "").fmtList = "g729b" ∧
    mediaBlock sampleEnv (sampleSession true true) (some "10.0.0.1")
      (sampleMedia "audio" "g729b" "") = [] :=
  ⟨rfl, rfl, (createSDP_g729b_suppressed sampleEnv (sampleSession true true)
    (some "10.0.0.1")).2.2.2 (sampleMedia "audio" "g729b" "") rfl rfl⟩

/-- C5, the claim as stated fails: with the static payload 18 for `g729` and every codec
enabled, an audio media with the format `g729` and the mapping entry `g729=x` is left out
of the body although the token has a static payload type; and a fax media (`image`)
whose only format `t38` has neither a static payload type nor a mapping entry has this
token listed on its `m=` line. -/
theorem createSDP_payload_counterexample :
    (codecEnabled sampleEnv "g729" = true ∧ sampleEnv.payloads "g729" = 18 ∧
      (createSDP sampleEnv 1000 (sampleSession false false) (some "10.0.0.1")
        (some [sampleMedia "audio" "g729" "g729=x"])).2 =
        some [⟨"v", "0"⟩, ⟨"o", "yate 1000 1000 IN IP4 10.0.0.1"⟩, ⟨"s", "SIP Call"⟩,
          ⟨"c", "IN IP4 10.0.0.1"⟩, ⟨"t", "0 0"⟩]) ∧
    (sampleEnv.payloads "t38" = -1 ∧ faxMedia.mappings = "" ∧
      (createSDP sampleEnv 1000 (sampleSession false false) (some "10.0.0.1")
        (some [faxMedia])).2 =
        some [⟨"v", "0"⟩, ⟨"o", "yate 1000 1000 IN IP4 10.0.0.1"⟩, ⟨"s", "SIP Call"⟩,
          ⟨"c", "IN IP4 10.0.0.1"⟩, ⟨"t", "0 0"⟩, ⟨"m", "image 0 udptl t38"⟩]) := by
  decide

/-- C5 as amended: the payload list of the `m=` line is built token by token, in the order
of the format list: a retained token (not `g729b`, payload number not negative, encoding
known for its static payload type or else for its mapped number, codec enabled) adds a
space and its payload number, any other token adds nothing. The payload number is the
static payload type when no mapping entry starts with `token=`, and the number read after
the `=` of the first such entry when there is one, -1 when no number can be read there. A
token with neither a static payload type nor a mapping entry is not retained, and neither
is a token whose mapping entry gives no number, static payload type or not. When a token
is retained the `m=` line of the media is its head, this payload list and the
telephone-event number, if any. -/
theorem createSDP_payload_numbers (E : Env) (m : SDPMedia) :
    (codecLoop E m).frm =
        concatAll ((split m.fmtList ',' false).map
          (specTokenPayload E (split m.mappings ',' false))) ∧
    (∀ (map : List String) (t : String),
      (∀ e ∈ map, startsWith e (t ++ "=") = false) →
        mappedPayload E map t = E.payloads t ∧
        (E.payloads t < 0 → ¬ Retained E map t ∧ specTokenPayload E map t = "")) ∧
    (∀ (pre post : List String) (t r : String), '=' ∉ t.data →
      (∀ e ∈ pre, startsWith e (t ++ "=") = false) →
        mappedPayload E (pre ++ (t ++ "=" ++ r) :: post) t = (E.readInt r).getD (-1) ∧
        (∀ n : Int, E.readInt r = some n →
          mappedPayload E (pre ++ (t ++ "=" ++ r) :: post) t = n) ∧
        (E.readInt r = none → ¬ Retained E (pre ++ (t ++ "=" ++ r) :: post) t ∧
          specTokenPayload E (pre ++ (t ++ "=" ++ r) :: post) t = "")) ∧
    (∀ (s : SDPSession) (addr : Option String), (codecLoop E m).frm ≠ "" →
      ∃ attrs, mediaBlock E s addr m =
        { name := "m"
          value := mlineHead m ++ ((codecLoop E m).frm ++ telePayload E s m (codecLoop E m)) }
        :: attrs) := by
  refine ⟨by rw [codecLoop_spec], ?_, ?_, fun s addr h => ⟨_, mediaBlock_listed E s addr m h⟩⟩
  · intro map t h
    have hm := mappedPayload_unmapped E map t h
    refine ⟨hm, ?_⟩
    intro hneg
    have hR : ¬ Retained E map t := by
      intro hR
      have := hR.2.1
      rw [hm] at this
      omega
    exact ⟨hR, by unfold specTokenPayload; rw [if_neg hR]⟩
  · intro pre post t r ht hpre
    have hst : startsWith (t ++ "=" ++ r) (t ++ "=") = true := by
      apply startsWith_append
      rw [String.data_append]
      simp
    have hm := mappedPayload_mapped E pre post t (t ++ "=" ++ r) hpre hst
    rw [skipPast_entry t r ht] at hm
    refine ⟨hm, ?_, ?_⟩
    · intro n hn
      rw [hm, hn]
      rfl
    · intro hn
      have hR : ¬ Retained E (pre ++ (t ++ "=" ++ r) :: post) t := by
        intro hR
        have := hR.2.1
        rw [hm, hn] at this
        simp at this
      exact ⟨hR, by unfold specTokenPayload; rw [if_neg hR]⟩

theorem createSDP_payload_numbers_witness :
    '=' ∉ ("alaw" : String).data ∧
    (∀ e ∈ ["mulaw=5"], startsWith e ("alaw" ++ "=") = false) ∧
    sampleEnv.readInt "97" = some 97 ∧
    mappedPayload sampleEnv (["mulaw=5"] ++ ("alaw" ++ "=" ++ "97") :: ["alaw=6"]) "alaw" = 97 :=
  ⟨by decide, by decide, by decide,
    ((createSDP_payload_numbers sampleEnv (sampleMedia "audio" "alaw" "")).2.2.1
      ["mulaw=5"] ["alaw=6"] "alaw" "97" (by decide) (by decide)).2.1 97 (by decide)⟩

/-- C7: the telephone-event number is appended to the payload list of the `m=` line, as
its last number, and `rtpmap:<pt> telephone-event/8000` is added after the lines of the
codecs, exactly when RFC 2833 is enabled for the session, the media is audio and at least
one token of its format list is retained; with RFC 2833 disabled or a media that is not
audio the `m=` line ends with the payload list of the codecs and no such line is added,
and a media without a retained token is left out or gets its raw format list. The number
`<pt>` is the media's own RFC 2833 payload when that is a non-negative integer and 101
otherwise. -/
theorem createSDP_telephone_event (E : Env) (s : SDPSession) (addr : Option String)
    (m : SDPMedia) :
    (s.rfc2833 = true → m.audio = true →
      (∃ t ∈ split m.fmtList ',' false, Retained E (split m.mappings ',' false) t) →
      mediaBlock E s addr m =
        { name := "m"
          value := mlineHead m
            ++ ((codecLoop E m).frm ++ (" " ++ toString (rfc2833Payload E m))) }
        :: (bagLines m
            ++ ((codecLoop E m).rtpmap
                  ++ ["rtpmap:" ++ toString (rfc2833Payload E m) ++ " telephone-event/8000"]
                  ++ ptimeLines (codecLoop E m).ptime).map attrLine
            ++ cryptoLines addr m)) ∧
    (¬ (s.rfc2833 = true ∧ m.audio = true) →
      (∃ t ∈ split m.fmtList ',' false, Retained E (split m.mappings ',' false) t) →
      mediaBlock E s addr m =
        { name := "m", value := mlineHead m ++ (codecLoop E m).frm }
        :: (bagLines m
            ++ ((codecLoop E m).rtpmap ++ ptimeLines (codecLoop E m).ptime).map attrLine
            ++ cryptoLines addr m)) ∧
    ((∀ t ∈ split m.fmtList ',' false, ¬ Retained E (split m.mappings ',' false) t) →
      mediaBlock E s addr m = [] ∨
      mediaBlock E s addr m =
        { name := "m", value := mlineHead m ++ (" " ++ commasToSpaces m.fmtList) }
        :: (bagLines m ++ (ptimeLines (codecLoop E m).ptime).map attrLine
            ++ cryptoLines addr m)) ∧
    (0 ≤ E.toInteger m.rfc2833 (-1) → rfc2833Payload E m = E.toInteger m.rfc2833 (-1)) ∧
    (E.toInteger m.rfc2833 (-1) < 0 → rfc2833Payload E m = 101) := by
  have hret : (∃ t ∈ split m.fmtList ',' false, Retained E (split m.mappings ',' false) t) →
      (codecLoop E m).frm ≠ "" := by
    rintro ⟨t, ht, hR⟩ h
    exact (codecLoop_frm_empty E m).1 h t ht hR
  refine ⟨?_, ?_, ?_, ?_, ?_⟩
  · intro h1 h2 h3
    have hf := hret h3
    rw [mediaBlock_listed E s addr m hf]
    unfold telePayload teleLines
    rw [if_pos ⟨h1, hf, h2⟩, if_pos ⟨h1, hf, h2⟩]
  · intro h1 h3
    have hf := hret h3
    rw [mediaBlock_listed E s addr m hf]
    unfold telePayload teleLines
    rw [if_neg (fun h => h1 ⟨h.1, h.2.2⟩), if_neg (fun h => h1 ⟨h.1, h.2.2⟩)]
    simp
  · intro h
    have hf := (codecLoop_frm_empty E m).2 h
    by_cases hx : m.audio = true ∨ m.fmtList = ""
    · exact Or.inl (mediaBlock_excluded E s addr m ⟨hf, hx⟩)
    · right
      apply mediaBlock_raw E s addr m hf
      · cases ha : m.audio with
        | false => rfl
        | true => exact absurd (Or.inl ha) hx
      · exact fun e => hx (Or.inr e)
  · intro h
    unfold rfc2833Payload
    rw [if_neg (by omega)]
  · intro h
    unfold rfc2833Payload
    rw [if_pos h]

theorem createSDP_telephone_event_witness :
    (sampleSession false true).rfc2833 = true ∧ (sampleMedia "audio" "alaw" "").audio = true ∧
    (∃ t ∈ split (sampleMedia "audio" "alaw" "").fmtList ',' false,
      Retained sampleEnv (split (sampleMedia "audio" "alaw" "").mappings ',' false) t) ∧
    mediaBlock sampleEnv (sampleSession false true) none (sampleMedia "audio" "alaw" "") =
      { name := "m"
        value := mlineHead (sampleMedia "audio" "alaw" "")
          ++ ((codecLoop sampleEnv (sampleMedia "audio" "alaw" "")).frm
              ++ (" " ++ toString (rfc2833Payload sampleEnv (sampleMedia "audio" "alaw" "")))) }
      :: (bagLines (sampleMedia "audio" "alaw" "")
          ++ ((codecLoop sampleEnv (sampleMedia "audio" "alaw" "")).rtpmap
                ++ ["rtpmap:"
                      ++ toString (rfc2833Payload sampleEnv (sampleMedia "audio" "alaw" ""))
                      ++ " telephone-event/8000"]
                ++ ptimeLines (codecLoop sampleEnv (sampleMedia "audio" "alaw" "")).ptime).map
              attrLine
          ++ cryptoLines none (sampleMedia "audio" "alaw" "")) :=
  ⟨rfl, rfl, ⟨"alaw", by decide, by decide⟩,
    (createSDP_telephone_event sampleEnv (sampleSession false true) none
      (sampleMedia "audio" "alaw" "")).1 rfl rfl ⟨"alaw", by decide, by decide⟩⟩

/-- C10, the claim as stated fails: an audio media offering `ilbc20` whose attribute bag
holds `ptime=30` gets two `a=ptime` lines in its block, the copy of the attribute and the
packet time the codec dictated. -/
theorem createSDP_ptime_counterexample :
    (createSDP sampleEnv 1000 (sampleSession false false) (some "10.0.0.1")
        (some [ptimeMedia])).2 =
      some [⟨"v", "0"⟩, ⟨"o", "yate 1000 1000 IN IP4 10.0.0.1"⟩, ⟨"s", "SIP Call"⟩,
        ⟨"c", "IN IP4 10.0.0.1"⟩, ⟨"t", "0 0"⟩, ⟨"m", "audio 0 RTP/AVP 98"⟩,
        ⟨"a", "ptime:30"⟩, ⟨"a", "rtpmap:98 iLBC/8000"⟩, ⟨"a", "fmtp:98 mode=20"⟩,
        ⟨"a", "ptime:20"⟩] ∧
    (mediaBlock sampleEnv (sampleSession false false) (some "10.0.0.1")
        ptimeMedia).countP isPtimeLine = 2 := by
  decide

/-- C10 as amended: in every media block the lines that follow the `m=` line and the
copies of the attribute bag hold at most one `a=ptime` line: exactly one, `ptime:20` or
`ptime:30`, when `ilbc20` or `ilbc30` is in the format list (the value being that of a
token of the list), and none when neither is; so the `a=ptime` lines of a block are those
copied from the attribute bag and at most one more. -/
theorem createSDP_ptime_lines (E : Env) (s : SDPSession) (addr : Option String)
    (m : SDPMedia) (hne : mediaBlock E s addr m ≠ []) :
    ∃ (v : String) (own : List NamedString),
      mediaBlock E s addr m = { name := "m", value := v } :: (bagLines m ++ own) ∧
      own.countP isPtimeLine ≤ 1 ∧
      (("ilbc20" ∈ split m.fmtList ',' false ∨ "ilbc30" ∈ split m.fmtList ',' false) →
        own.countP isPtimeLine = 1 ∧
        ((attrLine "ptime:20" ∈ own ∧ "ilbc20" ∈ split m.fmtList ',' false) ∨
          (attrLine "ptime:30" ∈ own ∧ "ilbc30" ∈ split m.fmtList ',' false))) ∧
      ("ilbc20" ∉ split m.fmtList ',' false → "ilbc30" ∉ split m.fmtList ',' false →
        own.countP isPtimeLine = 0) ∧
      (mediaBlock E s addr m).countP isPtimeLine =
        (bagLines m).countP isPtimeLine + own.countP isPtimeLine := by
  have hem : ¬ ((codecLoop E m).frm = "" ∧ (m.audio = true ∨ m.fmtList = "")) :=
    fun h => hne (mediaBlock_excluded E s addr m h)
  have hpt : (codecLoop E m).ptime = (split m.fmtList ',' false).foldl ptimeStep 0 := by
    rw [codecLoop_spec]
  refine ⟨mlineHead m ++
      (if (codecLoop E m).frm = "" then commasToSpaces (" " ++ m.fmtList)
       else (addTelephoneEvent E s m (codecLoop E m)).frm),
    ((codecLoop E m).rtpmap ++ teleLines E s m (codecLoop E m)
      ++ ptimeLines (codecLoop E m).ptime).map attrLine ++ cryptoLines addr m, ?_, ?_, ?_, ?_, ?_⟩
  · rw [mediaBlock_emitted E s addr m hem, List.append_assoc]
  · rw [own_ptime_count]
    split <;> omega
  · intro hin
    rw [own_ptime_count]
    rcases ptimeFold_present _ 0 hin with ⟨h1, h2⟩ | ⟨h1, h2⟩
    · rw [← hpt] at h1
      refine ⟨by rw [h1]; rfl, Or.inl ⟨?_, h2⟩⟩
      rw [h1]
      simp only [List.mem_append, List.mem_map]
      exact Or.inl ⟨"ptime:20", Or.inr (by decide), rfl⟩
    · rw [← hpt] at h1
      refine ⟨by rw [h1]; rfl, Or.inr ⟨?_, h2⟩⟩
      rw [h1]
      simp only [List.mem_append, List.mem_map]
      exact Or.inl ⟨"ptime:30", Or.inr (by decide), rfl⟩
  · intro h20 h30
    rw [own_ptime_count, hpt, ptimeFold_absent _ 0 h20 h30]
    rfl
  · rw [mediaBlock_emitted E s addr m hem, List.countP_cons, List.append_assoc,
      List.countP_append]
    have : isPtimeLine { name := "m", value := mlineHead m ++
        (if (codecLoop E m).frm = "" then commasToSpaces (" " ++ m.fmtList)
         else (addTelephoneEvent E s m (codecLoop E m)).frm) } = false := by
      unfold isPtimeLine
      simp
    rw [this]
    simp

theorem createSDP_ptime_lines_witness :
    mediaBlock sampleEnv (sampleSession false false) (some "10.0.0.1") ptimeMedia ≠ [] ∧
    ∃ (v : String) (own : List NamedString),
      mediaBlock sampleEnv (sampleSession false false) (some "10.0.0.1") ptimeMedia =
        { name := "m", value := v } :: (bagLines ptimeMedia ++ own) ∧
      own.countP isPtimeLine ≤ 1 ∧
      (("ilbc20" ∈ split ptimeMedia.fmtList ',' false
          ∨ "ilbc30" ∈ split ptimeMedia.fmtList ',' false) →
        own.countP isPtimeLine = 1 ∧
        ((attrLine "ptime:20" ∈ own ∧ "ilbc20" ∈ split ptimeMedia.fmtList ',' false) ∨
          (attrLine "ptime:30" ∈ own ∧ "ilbc30" ∈ split ptimeMedia.fmtList ',' false))) ∧
      ("ilbc20" ∉ split ptimeMedia.fmtList ',' false →
        "ilbc30" ∉ split ptimeMedia.fmtList ',' false → own.countP isPtimeLine = 0) ∧
      (mediaBlock sampleEnv (sampleSession false false) (some "10.0.0.1")
          ptimeMedia).countP isPtimeLine =
        (bagLines ptimeMedia).countP isPtimeLine + own.countP isPtimeLine :=
  ⟨by decide, createSDP_ptime_lines sampleEnv (sampleSession false false) (some "10.0.0.1")
    ptimeMedia (by decide)⟩

/-! ## ISUP interception -/

theorem getData_of_split (msu : SS7MSU) (offs : Nat) (pre : List (Fin 256))
    (s0 s1 s2 : Fin 256) (rest : List (Fin 256))
    (hd : msu.data = pre ++ s0 :: s1 :: s2 :: rest) (hl : pre.length = offs) :
    msu.getData offs 3 = some (s0 :: s1 :: s2 :: rest) := by
  unfold SS7MSU.getData
  have hlen : offs + 3 ≤ msu.data.length := by
    rw [hd]
    simp
    omega
  rw [if_pos hlen, hd, ← hl, List.drop_left]

theorem cic_little_endian (s0 s1 : Fin 256) :
    s0.val ||| (s1.val <<< 8) = s0.val + 256 * s1.val ∧ s0.val + 256 * s1.val < 65536 := by
  have h0 := s0.isLt
  have h1 := s1.isLt
  refine ⟨?_, by omega⟩
  have h := Nat.mul_add_lt_is_or (i := 8) (b := s0.val) (by simp) s1.val
  rw [Nat.shiftLeft_eq, Nat.or_comm]
  have e : s1.val * 2 ^ 8 = 2 ^ 8 * s1.val := Nat.mul_comm _ _
  rw [e, ← h]
  norm_num
  omega

theorem interceptMSU_of_bytes (X : IsupEnv) (u : IsupIntercept) (msu : SS7MSU)
    (label : SS7Label) (sls : Int) (s0 s1 s2 : Fin 256) (rest : List (Fin 256))
    (h : msu.getData (label.length + 1) 3 = some (s0 :: s1 :: s2 :: rest)) :
    interceptMSU X u msu label sls =
      if s2.val = X.iam then
        ((if (processMSU X u s2.val (s0.val ||| (s1.val <<< 8)) rest
              (usub32 (usub32 (usub32 msu.data.length label.length) 1) 3) label sls).1 = true
            then HandledMSU.Accepted else HandledMSU.Rejected),
          (processMSU X u s2.val (s0.val ||| (s1.val <<< 8)) rest
              (usub32 (usub32 (usub32 msu.data.length label.length) 1) 3) label sls).2)
      else (HandledMSU.Rejected, none) := by
  unfold interceptMSU
  rw [h]

theorem interceptMSU_short (X : IsupEnv) (u : IsupIntercept) (msu : SS7MSU)
    (label : SS7Label) (sls : Int) (h : msu.getData (label.length + 1) 3 = none) :
    interceptMSU X u msu label sls = (HandledMSU.Rejected, none) := by
  unfold interceptMSU
  rw [h]

theorem getData_some_shape (msu : SS7MSU) (offs : Nat) (l : List (Fin 256))
    (h : msu.getData offs 3 = some l) :
    ∃ s0 s1 s2 rest, l = s0 :: s1 :: s2 :: rest := by
  unfold SS7MSU.getData at h
  split at h
  · next hle =>
    simp only [Option.some.injEq] at h
    have hl : 3 ≤ l.length := by
      rw [← h, List.length_drop]
      omega
    match l, hl with
    | s0 :: s1 :: s2 :: rest, _ => exact ⟨s0, s1, s2, rest, rfl⟩
  · exact absurd h (by simp)

theorem processMSU_decoded (X : IsupEnv) (u : IsupIntercept) (type cic : Nat)
    (paramPtr : List (Fin 256)) (paramLen : Nat) (label : SS7Label) (sls : Int)
    (decoded : List NamedString)
    (h : X.decodeMessage type label.type paramPtr paramLen = some decoded) :
    processMSU X u type cic paramPtr paramLen label sls =
      (X.enqueue
          { name := "isup.mangle"
            params := [{ name := "address", value := u.name ++ "/" ++ toString cic },
                       { name := "sls", value := toString sls }] ++ decoded
            isup := u, type := type, cic := cic, label := label, sls := sls
            accepted := false },
        some
          { name := "isup.mangle"
            params := [{ name := "address", value := u.name ++ "/" ++ toString cic },
                       { name := "sls", value := toString sls }] ++ decoded
            isup := u, type := type, cic := cic, label := label, sls := sls
            accepted := false }) := by
  unfold processMSU
  rw [h]
  rfl

theorem processMSU_failed (X : IsupEnv) (u : IsupIntercept) (type cic : Nat)
    (paramPtr : List (Fin 256)) (paramLen : Nat) (label : SS7Label) (sls : Int)
    (h : X.decodeMessage type label.type paramPtr paramLen = none) :
    processMSU X u type cic paramPtr paramLen label sls = (false, none) := by
  unfold processMSU
  rw [h]

/-- C17: `receivedMSU` rejects every MSU whose service indicator is not the one of the
ISUP unit; an MSU with that service indicator gets past the point code filter, to the
reading of CIC and message type, exactly when the label's destination point code is one
of the unit's own and the origin point code is in its remote set, or the unit is
symmetric, the origin point code is one of its own and the destination point code is in
its remote set; every other MSU is Rejected and nothing is enqueued. -/
theorem receivedMSU_filter (X : IsupEnv) (u : IsupIntercept) (msu : SS7MSU)
    (label : SS7Label) (sls : Int) :
    (msu.sif ≠ u.sif → receivedMSU X u msu label sls = (HandledMSU.Rejected, none)) ∧
    (msu.sif = u.sif →
      ((X.hasPointCode u label.dpc = true ∧ X.handlesRemotePC u label.opc = true) ∨
        (u.symmetric = true ∧ X.hasPointCode u label.opc = true
          ∧ X.handlesRemotePC u label.dpc = true)) →
      receivedMSU X u msu label sls = interceptMSU X u msu label sls) ∧
    (msu.sif = u.sif →
      ¬ ((X.hasPointCode u label.dpc = true ∧ X.handlesRemotePC u label.opc = true) ∨
        (u.symmetric = true ∧ X.hasPointCode u label.opc = true
          ∧ X.handlesRemotePC u label.dpc = true)) →
      receivedMSU X u msu label sls = (HandledMSU.Rejected, none)) := by
  refine ⟨?_, ?_, ?_⟩
  · intro h
    unfold receivedMSU
    rw [if_pos h]
  · intro h hc
    unfold receivedMSU
    rw [if_neg (by simpa using h), if_neg]
    rcases hc with ⟨h1, h2⟩ | ⟨h1, h2, h3⟩
    · simp [h1, h2]
    · simp [h1, h2, h3]
  · intro h hc
    unfold receivedMSU
    rw [if_neg (by simpa using h), if_pos]
    simp only [not_or, not_and, Bool.not_eq_true] at hc
    cases hd : X.hasPointCode u label.dpc <;> cases ho : X.handlesRemotePC u label.opc <;>
      cases hs : u.symmetric <;> cases hp : X.hasPointCode u label.opc <;>
      cases hr : X.handlesRemotePC u label.dpc <;> simp_all

theorem receivedMSU_filter_witness :
    ({ sif := 5, data := [5, 0, 0, 0, 0, 100, 0, 1, 7, 9] } : SS7MSU).sif
      = (sampleIntercept true).sif ∧
    (sampleIntercept true).symmetric = true ∧
    sampleIsupEnv.hasPointCode (sampleIntercept true) (sampleLabel 20 10).opc = true ∧
    sampleIsupEnv.handlesRemotePC (sampleIntercept true) (sampleLabel 20 10).dpc = true ∧
    receivedMSU sampleIsupEnv (sampleIntercept true)
        { sif := 5, data := [5, 0, 0, 0, 0, 100, 0, 1, 7, 9] } (sampleLabel 20 10) 3 =
      interceptMSU sampleIsupEnv (sampleIntercept true)
        { sif := 5, data := [5, 0, 0, 0, 0, 100, 0, 1, 7, 9] } (sampleLabel 20 10) 3 ∧
    ({ sif := 3, data := [3, 0, 0, 0, 0, 100, 0, 1, 7, 9] } : SS7MSU).sif
      ≠ (sampleIntercept true).sif ∧
    receivedMSU sampleIsupEnv (sampleIntercept true)
        { sif := 3, data := [3, 0, 0, 0, 0, 100, 0, 1, 7, 9] } (sampleLabel 10 20) 3 =
      (HandledMSU.Rejected, none) ∧
    receivedMSU sampleIsupEnv (sampleIntercept false)
        { sif := 5, data := [5, 0, 0, 0, 0, 100, 0, 1, 7, 9] } (sampleLabel 20 10) 3 =
      (HandledMSU.Rejected, none) :=
  ⟨rfl, rfl, by decide, by decide,
    (receivedMSU_filter sampleIsupEnv (sampleIntercept true)
      { sif := 5, data := [5, 0, 0, 0, 0, 100, 0, 1, 7, 9] } (sampleLabel 20 10) 3).2.1 rfl
      (Or.inr ⟨rfl, by decide, by decide⟩),
    by decide,
    (receivedMSU_filter sampleIsupEnv (sampleIntercept true)
      { sif := 3, data := [3, 0, 0, 0, 0, 100, 0, 1, 7, 9] } (sampleLabel 10 20) 3).1
      (by decide),
    (receivedMSU_filter sampleIsupEnv (sampleIntercept false)
      { sif := 5, data := [5, 0, 0, 0, 0, 100, 0, 1, 7, 9] } (sampleLabel 20 10) 3).2.2 rfl
      (by decide)⟩

/-- C18: past the filter, an MSU whose message type byte is not IAM is Rejected and
nothing is enqueued, so only an IAM can be Accepted; an IAM whose parameters decode has
its `isup.mangle` message handed to the queue and is Accepted exactly when the queue takes
it; an IAM whose parameters do not decode is Rejected, as is an MSU too short for CIC and
type. -/
theorem receivedMSU_iam_only (X : IsupEnv) (u : IsupIntercept) (msu : SS7MSU)
    (label : SS7Label) (sls : Int) :
    (∀ (s0 s1 s2 : Fin 256) (rest : List (Fin 256)),
      msu.getData (label.length + 1) 3 = some (s0 :: s1 :: s2 :: rest) →
      (s2.val ≠ X.iam → interceptMSU X u msu label sls = (HandledMSU.Rejected, none)) ∧
      (s2.val = X.iam →
        (X.decodeMessage X.iam label.type rest
            (usub32 (usub32 (usub32 msu.data.length label.length) 1) 3) = none →
          interceptMSU X u msu label sls = (HandledMSU.Rejected, none)) ∧
        (∀ decoded, X.decodeMessage X.iam label.type rest
            (usub32 (usub32 (usub32 msu.data.length label.length) 1) 3) = some decoded →
          ∃ m : IsupMessage, m.name = "isup.mangle" ∧
            (interceptMSU X u msu label sls).2 = some m ∧
            ((interceptMSU X u msu label sls).1 = HandledMSU.Accepted ↔
              X.enqueue m = true) ∧
            ((interceptMSU X u msu label sls).1 = HandledMSU.Rejected ↔
              X.enqueue m = false)))) ∧
    (msu.getData (label.length + 1) 3 = none →
      interceptMSU X u msu label sls = (HandledMSU.Rejected, none)) ∧
    ((receivedMSU X u msu label sls).1 = HandledMSU.Accepted →
      ∃ (s0 s1 s2 : Fin 256) (rest : List (Fin 256)) (decoded : List NamedString),
        msu.getData (label.length + 1) 3 = some (s0 :: s1 :: s2 :: rest) ∧
        s2.val = X.iam ∧
        X.decodeMessage X.iam label.type rest
          (usub32 (usub32 (usub32 msu.data.length label.length) 1) 3) = some decoded) := by
  have key : ∀ (s0 s1 s2 : Fin 256) (rest : List (Fin 256)),
      msu.getData (label.length + 1) 3 = some (s0 :: s1 :: s2 :: rest) →
      (s2.val ≠ X.iam → interceptMSU X u msu label sls = (HandledMSU.Rejected, none)) ∧
      (s2.val = X.iam →
        (X.decodeMessage X.iam label.type rest
            (usub32 (usub32 (usub32 msu.data.length label.length) 1) 3) = none →
          interceptMSU X u msu label sls = (HandledMSU.Rejected, none)) ∧
        (∀ decoded, X.decodeMessage X.iam label.type rest
            (usub32 (usub32 (usub32 msu.data.length label.length) 1) 3) = some decoded →
          ∃ m : IsupMessage, m.name = "isup.mangle" ∧
            (interceptMSU X u msu label sls).2 = some m ∧
            ((interceptMSU X u msu label sls).1 = HandledMSU.Accepted ↔
              X.enqueue m = true) ∧
            ((interceptMSU X u msu label sls).1 = HandledMSU.Rejected ↔
              X.enqueue m = false))) := by
    intro s0 s1 s2 rest hg
    have hi := interceptMSU_of_bytes X u msu label sls s0 s1 s2 rest hg
    refine ⟨?_, ?_⟩
    · intro hne
      rw [hi, if_neg hne]
    · intro he
      rw [if_pos he, he] at hi
      refine ⟨?_, ?_⟩
      · intro hd
        rw [hi, processMSU_failed X u _ _ _ _ _ _ hd]
        rfl
      · intro decoded hd
        rw [hi, processMSU_decoded X u _ _ _ _ _ _ decoded hd]
        refine ⟨_, ?_, rfl, ?_, ?_⟩
        · rfl
        · simp only []
          split <;> simp_all
        · simp only []
          split <;> simp_all
  refine ⟨key, interceptMSU_short X u msu label sls, ?_⟩
  intro hacc
  have hin : (interceptMSU X u msu label sls).1 = HandledMSU.Accepted := by
    unfold receivedMSU at hacc
    split at hacc
    · exact absurd hacc (by decide)
    · split at hacc
      · exact absurd hacc (by decide)
      · exact hacc
  cases hg : msu.getData (label.length + 1) 3 with
  | none =>
    rw [interceptMSU_short X u msu label sls hg] at hin
    exact absurd hin (by decide)
  | some l =>
    obtain ⟨s0, s1, s2, rest, rfl⟩ := getData_some_shape msu _ l hg
    obtain ⟨h1, h2⟩ := key s0 s1 s2 rest hg
    by_cases he : s2.val = X.iam
    · cases hd : X.decodeMessage X.iam label.type rest
          (usub32 (usub32 (usub32 msu.data.length label.length) 1) 3) with
      | none =>
        rw [(h2 he).1 hd] at hin
        exact absurd hin (by decide)
      | some decoded => exact ⟨s0, s1, s2, rest, decoded, rfl, he, hd⟩
    · rw [h1 he] at hin
      exact absurd hin (by decide)

theorem receivedMSU_iam_only_witness :
    ({ sif := 5, data := [5, 0, 0, 0, 0, 100, 0, 6, 7, 9] } : SS7MSU).getData
        ((sampleLabel 10 20).length + 1) 3 = some [100, 0, 6, 7, 9] ∧
    ((6 : Fin 256).val ≠ sampleIsupEnv.iam) ∧
    interceptMSU sampleIsupEnv (sampleIntercept false)
        { sif := 5, data := [5, 0, 0, 0, 0, 100, 0, 6, 7, 9] } (sampleLabel 10 20) 3 =
      (HandledMSU.Rejected, none) ∧
    (receivedMSU sampleIsupEnv (sampleIntercept false)
        { sif := 5, data := [5, 0, 0, 0, 0, 100, 0, 1, 7, 9] } (sampleLabel 10 20) 3).1 =
      HandledMSU.Accepted :=
  ⟨by decide, by decide,
    ((receivedMSU_iam_only sampleIsupEnv (sampleIntercept false)
      { sif := 5, data := [5, 0, 0, 0, 0, 100, 0, 6, 7, 9] } (sampleLabel 10 20) 3).1
      100 0 6 [7, 9] (by decide)).1 (by decide),
    by decide⟩

/-- C19: for every MSU that holds at least three bytes `b0 b1 b2` after the service
information byte and the routing label, the CIC `receivedMSU` computes, `b0 | (b1 << 8)`,
is `b0 + 256 * b1`, a number below 65536, and the message type is `b2`: an IAM is
processed with this CIC (it is the CIC of the message handed to the queue), any other
type is Rejected. -/
theorem receivedMSU_cic (X : IsupEnv) (u : IsupIntercept) (msu : SS7MSU) (label : SS7Label)
    (sls : Int) (pre : List (Fin 256)) (b0 b1 b2 : Fin 256) (rest : List (Fin 256))
    (hd : msu.data = pre ++ b0 :: b1 :: b2 :: rest) (hl : pre.length = label.length + 1) :
    b0.val ||| (b1.val <<< 8) = b0.val + 256 * b1.val ∧
    b0.val + 256 * b1.val < 65536 ∧
    interceptMSU X u msu label sls =
      (if b2.val = X.iam then
        ((if (processMSU X u b2.val (b0.val + 256 * b1.val) rest
              (usub32 (usub32 (usub32 msu.data.length label.length) 1) 3) label sls).1 = true
            then HandledMSU.Accepted else HandledMSU.Rejected),
          (processMSU X u b2.val (b0.val + 256 * b1.val) rest
              (usub32 (usub32 (usub32 msu.data.length label.length) 1) 3) label sls).2)
      else (HandledMSU.Rejected, none)) ∧
    (∀ m : IsupMessage, (interceptMSU X u msu label sls).2 = some m →
      m.cic = b0.val + 256 * b1.val ∧ m.type = b2.val ∧
      getParam m.params "address" = some (u.name ++ "/" ++ toString (b0.val + 256 * b1.val))) := by
  have hg := getData_of_split msu (label.length + 1) pre b0 b1 b2 rest hd hl
  have hc := cic_little_endian b0 b1
  have hi := interceptMSU_of_bytes X u msu label sls b0 b1 b2 rest hg
  rw [hc.1] at hi
  refine ⟨hc.1, hc.2, hi, ?_⟩
  intro m hm
  rw [hi] at hm
  split at hm
  · cases hdec : X.decodeMessage b2.val label.type rest
        (usub32 (usub32 (usub32 msu.data.length label.length) 1) 3) with
    | none =>
      rw [processMSU_failed X u _ _ _ _ _ _ hdec] at hm
      exact absurd hm (by simp)
    | some decoded =>
      rw [processMSU_decoded X u _ _ _ _ _ _ decoded hdec] at hm
      simp only [Option.some.injEq] at hm
      subst hm
      refine ⟨rfl, rfl, ?_⟩
      simp [getParam]
  · exact absurd hm (by simp)

theorem receivedMSU_cic_witness :
    ({ sif := 5, data := [5, 0, 0, 0, 0, 44, 1, 1, 7, 9] } : SS7MSU).data =
      [5, 0, 0, 0, 0] ++ 44 :: 1 :: 1 :: [7, 9] ∧
    ([5, 0, 0, 0, 0] : List (Fin 256)).length = (sampleLabel 10 20).length + 1 ∧
    (44 : Fin 256).val ||| ((1 : Fin 256).val <<< 8) = 300 ∧
    (interceptMSU sampleIsupEnv (sampleIntercept false)
        { sif := 5, data := [5, 0, 0, 0, 0, 44, 1, 1, 7, 9] } (sampleLabel 10 20) 3).2.map
      (fun m => getParam m.params "address") = some (some "mangler/300") :=
  ⟨rfl, rfl,
    (receivedMSU_cic sampleIsupEnv (sampleIntercept false)
      { sif := 5, data := [5, 0, 0, 0, 0, 44, 1, 1, 7, 9] } (sampleLabel 10 20) 3
      [5, 0, 0, 0, 0] 44 1 1 [7, 9] rfl rfl).1,
    by decide⟩

/-- C20: when the parameters decode, `processMSU` hands to the queue a message named
`isup.mangle` whose first parameter is `address`, the unit's name, a slash and the CIC in
decimal, whose second parameter is `sls`, the SLS of the received MSU in decimal, and
whose further parameters are the decoded ISUP parameters, each with its name and value,
in their order; the result is what the queue answers. -/
theorem processMSU_message (X : IsupEnv) (u : IsupIntercept) (type cic : Nat)
    (paramPtr : List (Fin 256)) (paramLen : Nat) (label : SS7Label) (sls : Int)
    (decoded : List NamedString)
    (h : X.decodeMessage type label.type paramPtr paramLen = some decoded) :
    ∃ m : IsupMessage,
      processMSU X u type cic paramPtr paramLen label sls = (X.enqueue m, some m) ∧
      m.name = "isup.mangle" ∧
      m.params = [{ name := "address", value := u.name ++ "/" ++ toString cic },
                  { name := "sls", value := toString sls }] ++ decoded ∧
      getParam m.params "address" = some (u.name ++ "/" ++ toString cic) ∧
      getParam m.params "sls" = some (toString sls) ∧
      (∀ p ∈ decoded, p ∈ m.params) ∧
      m.cic = cic ∧ m.type = type ∧ m.label = label ∧ m.sls = sls := by
  refine ⟨_, processMSU_decoded X u type cic paramPtr paramLen label sls decoded h,
    rfl, rfl, ?_, ?_, ?_, rfl, rfl, rfl, rfl⟩
  · simp [getParam]
  · simp [getParam]
  · intro p hp
    simp [hp]

theorem processMSU_message_witness :
    sampleIsupEnv.decodeMessage 1 (sampleLabel 10 20).type [7, 9] 2 =
      some [⟨"Param_7", "7"⟩, ⟨"Param_9", "9"⟩] ∧
    (processMSU sampleIsupEnv (sampleIntercept false) 1 100 [7, 9] 2 (sampleLabel 10 20) 3).1
      = true ∧
    (processMSU sampleIsupEnv (sampleIntercept false) 1 100 [7, 9] 2 (sampleLabel 10 20)
        3).2.map (fun m => m.params) =
      some [⟨"address", "mangler/100"⟩, ⟨"sls", "3"⟩, ⟨"Param_7", "7"⟩, ⟨"Param_9", "9"⟩] ∧
    ∃ m : IsupMessage,
      processMSU sampleIsupEnv (sampleIntercept false) 1 100 [7, 9] 2 (sampleLabel 10 20) 3 =
        (sampleIsupEnv.enqueue m, some m) ∧ m.name = "isup.mangle" :=
  ⟨by decide, by decide, by decide,
    (processMSU_message sampleIsupEnv (sampleIntercept false) 1 100 [7, 9] 2
      (sampleLabel 10 20) 3 [⟨"Param_7", "7"⟩, ⟨"Param_9", "9"⟩] (by decide)).imp
      (fun _ hm => ⟨hm.1, hm.2.1⟩)⟩

/-! ## The `chan.rtp` message -/

theorem find_first_entry {α : Type} (p : α → Bool) (pre post : List α) (e : α)
    (hpre : ∀ x ∈ pre, p x = false) (he : p e = true) :
    (pre ++ e :: post).find? p = some e := by
  induction pre with
  | nil => simp [List.find?, he]
  | cons x xs ih =>
    have hx := hpre x (List.mem_cons_self _ _)
    simp only [List.cons_append, List.find?, hx]
    exact ih (fun y hy => hpre y (List.mem_cons_of_mem _ hy))

theorem chanRtpStart_eq (media : SDPMedia) (p : List NamedString) :
    chanRtpStart media p =
      p ++ ([{ name := "remoteport", value := media.remotePort },
             { name := "format", value := media.format }]
            ++ specPayloadParam media
            ++ [{ name := "evpayload", value := media.rfc2833 }]) := by
  unfold chanRtpStart specPayloadParam addParam
  simp only []
  split <;> simp

theorem chanRtpCrypto_eq (s : SDPSession) (media : SDPMedia) (p : List NamedString) :
    chanRtpCrypto s media p = (p ++ specCryptoParams s media, mediaAfterBuild s media) := by
  unfold chanRtpCrypto specCryptoParams mediaAfterBuild addParam
  by_cases hs : s.secure = true
  · simp only [hs, if_true]
    by_cases hr : media.remoteCrypto ≠ ""
    · rw [if_pos hr, if_pos hr]
      cases hp : parseSdes media.remoteCrypto with
      | none => simp
      | some q =>
        obtain ⟨tag, suite, key, params⟩ := q
        simp only []
        by_cases hpa : params ≠ ""
        · simp [hpa]
        · simp [hpa]
    · rw [if_neg hr, if_neg hr]
      by_cases hsec : media.securable = true
      · simp [hsec]
      · simp [hsec]
  · simp [hs]

theorem mediaAfterBuild_params (s : SDPSession) (media : SDPMedia) :
    (mediaAfterBuild s media).params = media.params := by
  unfold mediaAfterBuild SDPMedia.crypto
  split <;> simp

theorem buildChanRtp_built (O : SdpOps) (s : SDPSession) (media : SDPMedia) (addr : String)
    (start : Bool) (m : Message) (h : O.buildChanRtp = some m) :
    buildChanRtp O s (some media) (some addr) start =
      (some { m with params := m.params ++ specChanRtpParams s media addr start },
        some (mediaAfterBuild s media)) := by
  unfold buildChanRtp
  simp only [h]
  rw [chanRtpCrypto_eq]
  simp only [mediaAfterBuild_params]
  unfold specChanRtpParams addParam
  by_cases hl : s.rtpLocalAddr ≠ ""
  · cases start
    · simp [hl]
    · simp [hl, chanRtpStart_eq]
  · cases start
    · simp [hl]
    · simp [hl, chanRtpStart_eq]

theorem buildChanRtp_null (O : SdpOps) (s : SDPSession) (media : Option SDPMedia)
    (addr : Option String) (start : Bool)
    (h : media = none ∨ addr = none ∨ O.buildChanRtp = none) :
    buildChanRtp O s media addr start = (none, media) := by
  unfold buildChanRtp
  cases media with
  | none => rfl
  | some md =>
    cases addr with
    | none => rfl
    | some a =>
      rcases h with h | h | h
      · exact absurd h (by simp)
      · exact absurd h (by simp)
      · simp only [h]

/-! ## The SDES grammar -/

theorem takeWhile_stop {α : Type} (p : α → Bool) (l : List α) (a : α) (r : List α)
    (hl : ∀ x ∈ l, p x = true) (ha : p a = false) :
    (l ++ a :: r).takeWhile p = l ∧ (l ++ a :: r).dropWhile p = a :: r := by
  induction l with
  | nil => simp [List.takeWhile, List.dropWhile, ha]
  | cons x xs ih =>
    have hx := hl x (List.mem_cons_self _ _)
    have ih' := ih (fun y hy => hl y (List.mem_cons_of_mem _ hy))
    simp [List.takeWhile, List.dropWhile, hx, ih'.1, ih'.2]

theorem takeWhile_whole {α : Type} (p : α → Bool) (l : List α)
    (hl : ∀ x ∈ l, p x = true) :
    l.takeWhile p = l ∧ l.dropWhile p = [] := by
  induction l with
  | nil => simp
  | cons x xs ih =>
    have hx := hl x (List.mem_cons_self _ _)
    have ih' := ih (fun y hy => hl y (List.mem_cons_of_mem _ hy))
    simp [List.takeWhile, List.dropWhile, hx, ih'.1, ih'.2]

theorem dropSpaces_word (w r : List Char) :
    (' ' :: (w ++ r)).dropWhile (fun c => decide (c = ' ')) =
      (w ++ r).dropWhile (fun c => decide (c = ' ')) := by
  simp [List.dropWhile]

theorem dropSpaces_start (w : List Char) (hw : w.head? ≠ some ' ') :
    w.dropWhile (fun c => decide (c = ' ')) = w := by
  cases w with
  | nil => rfl
  | cons c cs =>
    have hc : c ≠ ' ' := by
      intro e
      apply hw
      rw [e]
      rfl
    simp [List.dropWhile, hc]

theorem head_append_word (w r : List Char) (hne : w ≠ []) (hw : ' ' ∉ w) :
    (w ++ r).head? ≠ some ' ' := by
  cases w with
  | nil => exact absurd rfl hne
  | cons c cs =>
    intro e
    simp only [List.cons_append, List.head?_cons, Option.some.injEq] at e
    exact hw (by rw [e]; exact List.mem_cons_self _ _)

theorem sdesLine_data (tag suite key params : String) :
    (sdesLine tag suite key params).data =
      tag.data ++ ' ' :: (suite.data ++ ' ' :: (key.data ++
        (if params = "" then [] else ' ' :: params.data))) := by
  unfold sdesLine
  by_cases hp : params = ""
  · simp only [hp, if_true, String.data_append]
    simp
  · simp only [hp, if_false, String.data_append]
    simp

theorem parseSdes_line (tag suite key params : String)
    (ht : tag.data ≠ []) (htd : ∀ c ∈ tag.data, c.isDigit = true)
    (hs : suite.data ≠ []) (hss : ' ' ∉ suite.data)
    (hk : key.data ≠ []) (hks : ' ' ∉ key.data)
    (hp : params.data.head? ≠ some ' ') :
    parseSdes (sdesLine tag suite key params) = some (tag, suite, key, params) := by
  have hsp : Char.isDigit ' ' = false := by decide
  have hnot : ∀ w : List Char, ' ' ∉ w →
      ∀ x ∈ w, (fun c : Char => decide (c ≠ ' ')) x = true := by
    intro w hw x hx
    have : x ≠ ' ' := fun e => hw (by rw [← e]; exact hx)
    simp [this]
  have hstop : (fun c : Char => decide (c ≠ ' ')) ' ' = false := by simp
  -- the remainder after the key
  have htail : ∀ t : List Char, (t = [] ∨ ∃ r, t = ' ' :: r) →
      (key.data ++ t).takeWhile (fun c => decide (c ≠ ' ')) = key.data ∧
      (key.data ++ t).dropWhile (fun c => decide (c ≠ ' ')) = t := by
    intro t htl
    rcases htl with rfl | ⟨r, rfl⟩
    · rw [List.append_nil]
      exact takeWhile_whole _ _ (hnot _ hks)
    · exact takeWhile_stop _ _ _ _ (hnot _ hks) hstop
  unfold parseSdes
  simp only [sdesLine_data]
  have e1 := takeWhile_stop Char.isDigit tag.data ' '
    (suite.data ++ ' ' :: (key.data ++ (if params = "" then [] else ' ' :: params.data)))
    htd hsp
  rw [e1.1, e1.2]
  rw [dropSpaces_word suite.data _,
    dropSpaces_start _ (head_append_word _ _ hs hss)]
  have e2 := takeWhile_stop (fun c : Char => decide (c ≠ ' ')) suite.data ' '
    (key.data ++ (if params = "" then [] else ' ' :: params.data)) (hnot _ hss) hstop
  rw [e2.1, e2.2]
  rw [dropSpaces_word key.data _,
    dropSpaces_start _ (head_append_word _ _ hk hks)]
  have e3 := htail (if params = "" then [] else ' ' :: params.data) (by
    by_cases hpe : params = ""
    · left; simp [hpe]
    · right; exact ⟨params.data, by simp [hpe]⟩)
  rw [e3.1, e3.2]
  have e4 : (if params = "" then [] else ' ' :: params.data).dropWhile
      (fun c => decide (c = ' ')) = params.data := by
    by_cases hpe : params = ""
    · simp [hpe]
    · simp only [hpe, if_false]
      have : (' ' :: params.data).dropWhile (fun c => decide (c = ' ')) =
          params.data.dropWhile (fun c => decide (c = ' ')) := by
        simp [List.dropWhile]
      rw [this, dropSpaces_start _ hp]
  rw [e4]
  simp [ht, hs, hk]

/-- C11, the claim as stated fails: a session that has no RTP local address yet builds a
`chan.rtp` message without the parameter `localip`. -/
theorem buildChanRtp_localip_counterexample :
    (sampleSession false false).rtpLocalAddr = "" ∧
    (buildChanRtp (sampleOps true) (sampleSession false false)
        (some (startedMedia "alaw=8" "")) (some "10.0.0.1") true).1 =
      some { name := "chan.rtp"
             params := [⟨"media", "audio"⟩, ⟨"transport", "RTP/AVP"⟩, ⟨"direction", "bidir"⟩,
               ⟨"remoteip", "10.0.0.1"⟩, ⟨"remoteport", "4000"⟩, ⟨"format", "alaw"⟩,
               ⟨"payload", "8"⟩, ⟨"evpayload", "101"⟩] } ∧
    (buildChanRtp (sampleOps true) (sampleSession false false)
        (some (startedMedia "alaw=8" "")) (some "10.0.0.1") true).1.map
      (fun m => getParam m.params "localip") = some none := by
  decide

/-- C11 as amended: for a media and an address that are not null and a channel that gives
its message, `buildChanRtp` adds to the message, in this order, `media`, `transport`,
`direction=bidir`, `localip` when the RTP local address of the session is not empty (and
only then), `remoteip=<address>`, and when `start` is set (and only then) `remoteport`,
`format`, `payload` and `evpayload`, followed by the crypto parameters and the `sdp_`
attributes; `payload` is the text after the `=` of the first mapping-table entry that
starts with `<format>=`, and is left out when the table has no such entry. -/
theorem buildChanRtp_params (O : SdpOps) (s : SDPSession) (media : SDPMedia) (addr : String)
    (start : Bool) (m : Message) (h : O.buildChanRtp = some m) :
    (buildChanRtp O s (some media) (some addr) start).1 =
      some { m with
        params := m.params ++
          ([{ name := "media", value := media.name },
            { name := "transport", value := media.transport },
            { name := "direction", value := "bidir" }]
            ++ (if s.rtpLocalAddr ≠ "" then [{ name := "localip", value := s.rtpLocalAddr }]
                else [])
            ++ [{ name := "remoteip", value := addr }]
            ++ (if start = true then
                  [{ name := "remoteport", value := media.remotePort },
                   { name := "format", value := media.format }]
                    ++ specPayloadParam media
                    ++ [{ name := "evpayload", value := media.rfc2833 }]
                else [])
            ++ specCryptoParams s media
            ++ media.params.map
                (fun param => { name := "sdp_" ++ param.name, value := param.value })) } ∧
    (∀ (pre post : List String) (v : String), '=' ∉ media.format.data →
      split media.mappings ',' false = pre ++ (media.format ++ "=" ++ v) :: post →
      (∀ e ∈ pre, startsWith e (media.format ++ "=") = false) →
      specPayloadParam media = [{ name := "payload", value := v }]) ∧
    ((∀ e ∈ split media.mappings ',' false, startsWith e (media.format ++ "=") = false) →
      specPayloadParam media = []) := by
  refine ⟨?_, ?_, ?_⟩
  · rw [buildChanRtp_built O s media addr start m h]
    rfl
  · intro pre post v hf hsplit hpre
    unfold specPayloadParam
    rw [hsplit]
    have hst : startsWith (media.format ++ "=" ++ v) (media.format ++ "=") = true := by
      apply startsWith_append
      rw [String.data_append]
      simp
    have hfind := find_first_entry
      (fun mapping => startsWith mapping (media.format ++ "=")) pre post
      (media.format ++ "=" ++ v) hpre hst
    rw [hfind]
    simp only []
    rw [skipPast_entry media.format v hf]
  · intro hno
    unfold specPayloadParam
    have hfind : (split media.mappings ',' false).find?
        (fun mapping => startsWith mapping (media.format ++ "=")) = none := by
      rw [List.find?_eq_none]
      intro e he
      rw [hno e he]
      simp
    rw [hfind]

theorem buildChanRtp_params_witness :
    (sampleOps true).buildChanRtp = some { name := "chan.rtp", params := [] } ∧
    '=' ∉ (startedMedia "mulaw=0,alaw=8" "").format.data ∧
    split (startedMedia "mulaw=0,alaw=8" "").mappings ',' false =
      ["mulaw=0"] ++ ((startedMedia "mulaw=0,alaw=8" "").format ++ "=" ++ "8") :: [] ∧
    (∀ e ∈ ["mulaw=0"],
      startsWith e ((startedMedia "mulaw=0,alaw=8" "").format ++ "=") = false) ∧
    specPayloadParam (startedMedia "mulaw=0,alaw=8" "") = [{ name := "payload", value := "8" }] ∧
    (buildChanRtp (sampleOps true) { sampleSession false false with rtpLocalAddr := "192.0.2.7" }
        (some (startedMedia "mulaw=0,alaw=8" "")) (some "10.0.0.1") true).1 =
      some { name := "chan.rtp"
             params := [⟨"media", "audio"⟩, ⟨"transport", "RTP/AVP"⟩, ⟨"direction", "bidir"⟩,
               ⟨"localip", "192.0.2.7"⟩, ⟨"remoteip", "10.0.0.1"⟩, ⟨"remoteport", "4000"⟩,
               ⟨"format", "alaw"⟩, ⟨"payload", "8"⟩, ⟨"evpayload", "101"⟩] } :=
  ⟨rfl, by decide, by decide, by decide,
    (buildChanRtp_params (sampleOps true) (sampleSession false false)
      (startedMedia "mulaw=0,alaw=8" "") "10.0.0.1" true
      { name := "chan.rtp", params := [] } rfl).2.1 ["mulaw=0"] [] "8" (by decide) (by decide)
      (by decide),
    by decide⟩

/-- C12: in a secure session, for a media whose remote crypto line is a tag (a non-empty
run of digits), a space, a suite, a space and a key (both non-empty and without space),
followed or not by a space and parameters (which do not begin with a space), the crypto
parameters `buildChanRtp` adds are `secure=true`, `crypto_tag`, `crypto_suite` and
`crypto_key` with these values, and `crypto_params` exactly when the parameters are not
empty; a securable media without remote crypto line gets `secure=true` alone. The
parameters stand in the message after those of C11 and before the `sdp_` attributes. -/
theorem buildChanRtp_crypto (O : SdpOps) (s : SDPSession) (media : SDPMedia) (addr : String)
    (start : Bool) (hs : s.secure = true) :
    (∀ tag suite key params : String,
      tag.data ≠ [] → (∀ c ∈ tag.data, c.isDigit = true) →
      suite.data ≠ [] → ' ' ∉ suite.data → key.data ≠ [] → ' ' ∉ key.data →
      params.data.head? ≠ some ' ' →
      media.remoteCrypto = sdesLine tag suite key params →
      specCryptoParams s media =
        [{ name := "secure", value := "true" }, { name := "crypto_tag", value := tag },
         { name := "crypto_suite", value := suite }, { name := "crypto_key", value := key }]
          ++ (if params ≠ "" then [{ name := "crypto_params", value := params }] else [])) ∧
    (media.remoteCrypto = "" → media.securable = true →
      specCryptoParams s media = [{ name := "secure", value := "true" }]) ∧
    (∀ m : Message, O.buildChanRtp = some m →
      ∃ front back : List NamedString,
        (buildChanRtp O s (some media) (some addr) start).1 =
          some { m with params := front ++ specCryptoParams s media ++ back } ∧
        back = media.params.map
          (fun param => { name := "sdp_" ++ param.name, value := param.value }) ∧
        (buildChanRtp O s (some media) (some addr) start).2 = some media) := by
  refine ⟨?_, ?_, ?_⟩
  · intro tag suite key params ht htd hsu hsus hk hks hp hline
    have hne : media.remoteCrypto ≠ "" := by
      rw [hline]
      intro e
      have := congrArg String.data e
      rw [sdesLine_data] at this
      simp at this
    unfold specCryptoParams
    rw [if_pos hs, if_pos hne, hline, parseSdes_line tag suite key params ht htd hsu hsus hk hks hp]
  · intro hr hsec
    unfold specCryptoParams
    rw [if_pos hs, if_neg (by simpa using hr), if_pos hsec]
  · intro m hm
    refine ⟨m.params ++ ([{ name := "media", value := media.name },
            { name := "transport", value := media.transport },
            { name := "direction", value := "bidir" }]
            ++ (if s.rtpLocalAddr ≠ "" then [{ name := "localip", value := s.rtpLocalAddr }]
                else [])
            ++ [{ name := "remoteip", value := addr }]
            ++ (if start = true then
                  [{ name := "remoteport", value := media.remotePort },
                   { name := "format", value := media.format }]
                    ++ specPayloadParam media
                    ++ [{ name := "evpayload", value := media.rfc2833 }]
                else [])), _, ?_, rfl, ?_⟩
    · rw [buildChanRtp_built O s media addr start m hm]
      simp [specChanRtpParams]
    · rw [buildChanRtp_built O s media addr start m hm]
      simp [mediaAfterBuild, hs]

theorem buildChanRtp_crypto_witness :
    (sampleSession true false).secure = true ∧
    ("1" : String).data ≠ [] ∧ (∀ c ∈ ("1" : String).data, c.isDigit = true) ∧
    ("AES_CM_128_HMAC_SHA1_80" : String).data ≠ [] ∧
    ' ' ∉ ("AES_CM_128_HMAC_SHA1_80" : String).data ∧
    ("inline:KEY" : String).data ≠ [] ∧ ' ' ∉ ("inline:KEY" : String).data ∧
    ("2^20|1:4" : String).data.head? ≠ some ' ' ∧
    (startedMedia "" "1 AES_CM_128_HMAC_SHA1_80 inline:KEY 2^20|1:4").remoteCrypto =
      sdesLine "1" "AES_CM_128_HMAC_SHA1_80" "inline:KEY" "2^20|1:4" ∧
    specCryptoParams (sampleSession true false)
        (startedMedia "" "1 AES_CM_128_HMAC_SHA1_80 inline:KEY 2^20|1:4") =
      [{ name := "secure", value := "true" }, { name := "crypto_tag", value := "1" },
       { name := "crypto_suite", value := "AES_CM_128_HMAC_SHA1_80" },
       { name := "crypto_key", value := "inline:KEY" }]
        ++ (if ("2^20|1:4" : String) ≠ "" then
              [{ name := "crypto_params", value := "2^20|1:4" }] else []) :=
  ⟨rfl, by decide, by decide, by decide, by decide, by decide, by decide, by decide, by decide,
    (buildChanRtp_crypto (sampleOps true) (sampleSession true false)
      (startedMedia "" "1 AES_CM_128_HMAC_SHA1_80 inline:KEY 2^20|1:4") "10.0.0.1" true rfl).1
      "1" "AES_CM_128_HMAC_SHA1_80" "inline:KEY" "2^20|1:4"
      (by decide) (by decide) (by decide) (by decide) (by decide) (by decide) (by decide)
      (by decide)⟩

/-! ## Dispatch of the `chan.rtp` message -/

theorem parameter_localCrypto (m : SDPMedia) (name value : String) (append : Bool) :
    (m.parameter name value append).localCrypto = m.localCrypto ∧
    (m.parameter name value append).remoteCrypto = m.remoteCrypto := by
  unfold SDPMedia.parameter
  split <;> exact ⟨rfl, rfl⟩

theorem copyReplyAttrs_crypto (sdpPrefix : String) (reply : List NamedString) :
    ∀ media : SDPMedia,
      (copyReplyAttrs sdpPrefix reply media).localCrypto = media.localCrypto ∧
      (copyReplyAttrs sdpPrefix reply media).remoteCrypto = media.remoteCrypto := by
  unfold copyReplyAttrs
  induction reply with
  | nil => intro media; exact ⟨rfl, rfl⟩
  | cons p ps ih =>
    intro media
    rw [List.foldl_cons]
    refine ⟨(ih _).1.trans ?_, (ih _).2.trans ?_⟩
    · split
      · rfl
      · split
        · rfl
        · split
          · exact (parameter_localCrypto _ _ _ _).1
          · rfl
    · split
      · rfl
      · split
        · rfl
        · split
          · exact (parameter_localCrypto _ _ _ _).2
          · rfl

theorem dispatchRtp_unbuilt (E : Env) (O : SdpOps) (s : SDPSession) (media : Option SDPMedia)
    (addr : Option String) (start pick : Bool)
    (h : media = none ∨ addr = none ∨ O.buildChanRtp = none) :
    dispatchRtp E O s media addr start pick = (false, s, media) := by
  unfold dispatchRtp
  rw [buildChanRtp_null O s media addr start h]

theorem dispatchRtp_declined (E : Env) (O : SdpOps) (s : SDPSession) (media : SDPMedia)
    (addr : String) (start pick : Bool) (m : Message) (h : O.buildChanRtp = some m)
    (hd : O.dispatch { m with params := m.params ++ specChanRtpParams s media addr start }
      = none) :
    dispatchRtp E O s (some media) (some addr) start pick =
      (false, s, some (mediaAfterBuild s media)) := by
  unfold dispatchRtp
  rw [buildChanRtp_built O s media addr start m h]
  simp only [hd]

theorem dispatchRtp_unpicked (E : Env) (O : SdpOps) (s : SDPSession) (media : SDPMedia)
    (addr : String) (start : Bool) (m reply : Message) (h : O.buildChanRtp = some m)
    (hd : O.dispatch { m with params := m.params ++ specChanRtpParams s media addr start }
      = some reply) :
    dispatchRtp E O s (some media) (some addr) start false =
      (true, s, some (O.updateFromMsg (mediaAfterBuild s media) reply start)) := by
  unfold dispatchRtp
  rw [buildChanRtp_built O s media addr start m h]
  simp only [hd]
  rfl

theorem dispatchRtp_picked (E : Env) (O : SdpOps) (s : SDPSession) (media : SDPMedia)
    (addr : String) (start : Bool) (m reply : Message) (h : O.buildChanRtp = some m)
    (hd : O.dispatch { m with params := m.params ++ specChanRtpParams s media addr start }
      = some reply) :
    dispatchRtp E O s (some media) (some addr) start true =
      (true,
        { s with
          rtpForward := false
          rtpLocalAddr := getValue reply.params "localip" s.rtpLocalAddr
          mediaStatus := MediaStatus.MediaStarted },
        some (replyCrypto E s reply.params
          (if getValue reply.params "osdp-prefix" "osdp" ≠ "" then
            copyReplyAttrs (getValue reply.params "osdp-prefix" "osdp") reply.params
              (O.updateFromMsg (mediaAfterBuild s media) reply start)
           else O.updateFromMsg (mediaAfterBuild s media) reply start))) := by
  unfold dispatchRtp
  rw [buildChanRtp_built O s media addr start m h]
  simp only [hd]
  rfl

theorem replyAttrs_localCrypto (O : SdpOps) (s : SDPSession) (media : SDPMedia)
    (reply : Message) (start : Bool) :
    (if getValue reply.params "osdp-prefix" "osdp" ≠ "" then
        copyReplyAttrs (getValue reply.params "osdp-prefix" "osdp") reply.params
          (O.updateFromMsg (mediaAfterBuild s media) reply start)
      else O.updateFromMsg (mediaAfterBuild s media) reply start).localCrypto =
      (O.updateFromMsg (mediaAfterBuild s media) reply start).localCrypto := by
  split
  · exact (copyReplyAttrs_crypto _ _ _).1
  · rfl

/-- C13: in a secure session, after a `dispatchRtp` with `pick` set whose message was
built and accepted, the local crypto line of the media is `T S K`, followed by a space and
`P` when the reply carries `ocrypto_params`, where `S` and `K` are the reply's
`ocrypto_suite` and `ocrypto_key` and `T`, which must be positive, is the integer of the
reply's `ocrypto_tag`, else that of its `crypto_tag`, else 1; when the suite or the key is
missing or `T` is not positive `dispatchRtp` does not set the local crypto line: it is
the one `media->update` left, the media's own when that call keeps it. -/
theorem dispatchRtp_local_crypto (E : Env) (O : SdpOps) (s : SDPSession) (media : SDPMedia)
    (addr : String) (start : Bool) (m reply : Message) (hs : s.secure = true)
    (h : O.buildChanRtp = some m)
    (hd : O.dispatch { m with params := m.params ++ specChanRtpParams s media addr start }
      = some reply) :
    ∃ md : SDPMedia,
      dispatchRtp E O s (some media) (some addr) start true =
        (true,
          { s with
            rtpForward := false
            rtpLocalAddr := getValue reply.params "localip" s.rtpLocalAddr
            mediaStatus := MediaStatus.MediaStarted },
          some md) ∧
      (∀ suite key : String,
        getParam reply.params "ocrypto_suite" = some suite →
        getParam reply.params "ocrypto_key" = some key →
        0 < getIntValue E reply.params "ocrypto_tag" (getIntValue E reply.params "crypto_tag" 1) →
        md.localCrypto =
          match getParam reply.params "ocrypto_params" with
          | some params =>
            toString (getIntValue E reply.params "ocrypto_tag"
                (getIntValue E reply.params "crypto_tag" 1))
              ++ " " ++ suite ++ " " ++ key ++ " " ++ params
          | none =>
            toString (getIntValue E reply.params "ocrypto_tag"
                (getIntValue E reply.params "crypto_tag" 1))
              ++ " " ++ suite ++ " " ++ key) ∧
      ((getParam reply.params "ocrypto_suite" = none ∨
          getParam reply.params "ocrypto_key" = none ∨
          getIntValue E reply.params "ocrypto_tag"
            (getIntValue E reply.params "crypto_tag" 1) ≤ 0) →
        md.localCrypto = (O.updateFromMsg media reply start).localCrypto ∧
        ((O.updateFromMsg media reply start).localCrypto = media.localCrypto →
          md.localCrypto = media.localCrypto)) ∧
      (∀ v : String, getParam reply.params "ocrypto_tag" = some v →
        getIntValue E reply.params "ocrypto_tag" (getIntValue E reply.params "crypto_tag" 1) =
          E.toInteger v (getIntValue E reply.params "crypto_tag" 1)) ∧
      (getParam reply.params "ocrypto_tag" = none →
        (∀ v : String, getParam reply.params "crypto_tag" = some v →
          getIntValue E reply.params "ocrypto_tag"
            (getIntValue E reply.params "crypto_tag" 1) = E.toInteger v 1) ∧
        (getParam reply.params "crypto_tag" = none →
          getIntValue E reply.params "ocrypto_tag"
            (getIntValue E reply.params "crypto_tag" 1) = 1)) := by
  have hmb : mediaAfterBuild s media = media := by
    unfold mediaAfterBuild
    rw [if_pos hs]
  have hbase := replyAttrs_localCrypto O s media reply start
  rw [hmb] at hbase
  refine ⟨replyCrypto E s reply.params
      (if getValue reply.params "osdp-prefix" "osdp" ≠ "" then
        copyReplyAttrs (getValue reply.params "osdp-prefix" "osdp") reply.params
          (O.updateFromMsg media reply start)
       else O.updateFromMsg media reply start), ?_, ?_, ?_, ?_, ?_⟩
  · rw [dispatchRtp_picked E O s media addr start m reply h hd, hmb]
  · intro suite key hsu hk htag
    unfold replyCrypto
    rw [if_pos hs]
    simp only [hsu, hk, if_pos htag]
    unfold SDPMedia.crypto
    cases hp : getParam reply.params "ocrypto_params" <;> simp
  · intro hmiss
    have hkeep : (replyCrypto E s reply.params
        (if getValue reply.params "osdp-prefix" "osdp" ≠ "" then
          copyReplyAttrs (getValue reply.params "osdp-prefix" "osdp") reply.params
            (O.updateFromMsg media reply start)
         else O.updateFromMsg media reply start)).localCrypto =
        (O.updateFromMsg media reply start).localCrypto := by
      rw [← hbase]
      unfold replyCrypto
      rw [if_pos hs]
      simp only []
      cases hsu : getParam reply.params "ocrypto_suite" with
      | none => rfl
      | some suite =>
        cases hk : getParam reply.params "ocrypto_key" with
        | none => rfl
        | some key =>
          simp only []
          rcases hmiss with h1 | h1 | h1
          · rw [hsu] at h1; exact absurd h1 (by simp)
          · rw [hk] at h1; exact absurd h1 (by simp)
          · rw [if_neg (by omega)]
    exact ⟨hkeep, fun hu => hkeep.trans hu⟩
  · intro v hv
    conv_lhs => unfold getIntValue
    simp only [hv]
    rfl
  · intro hno
    refine ⟨?_, ?_⟩
    · intro v hv
      unfold getIntValue
      simp only [hno, hv]
    · intro hno2
      unfold getIntValue
      simp only [hno, hno2]

theorem dispatchRtp_local_crypto_witness :
    (sampleSession true false).secure = true ∧
    (sampleOps true).buildChanRtp = some { name := "chan.rtp", params := [] } ∧
    (dispatchRtp sampleEnv (sampleOps true) (sampleSession true false)
        (some (startedMedia "alaw=8" "")) (some "10.0.0.1") true true).2.2.map
      (fun md => md.localCrypto) = some "1 AES_CM_128_HMAC_SHA1_80 inline:LOCAL" ∧
    ∃ md : SDPMedia,
      dispatchRtp sampleEnv (sampleOps true) (sampleSession true false)
          (some (startedMedia "alaw=8" "")) (some "10.0.0.1") true true =
        (true,
          { sampleSession true false with
            rtpForward := false
            rtpLocalAddr := "192.0.2.7"
            mediaStatus := MediaStatus.MediaStarted },
          some md) :=
  ⟨rfl, rfl, by decide,
    (dispatchRtp_local_crypto sampleEnv (sampleOps true) (sampleSession true false)
      (startedMedia "alaw=8" "") "10.0.0.1" true { name := "chan.rtp", params := [] }
      { name := "chan.rtp"
        params := ([] ++ specChanRtpParams (sampleSession true false)
            (startedMedia "alaw=8" "") "10.0.0.1" true) ++
          [⟨"localip", "192.0.2.7"⟩, ⟨"ocrypto_suite", "AES_CM_128_HMAC_SHA1_80"⟩,
           ⟨"ocrypto_key", "inline:LOCAL"⟩] }
      rfl rfl rfl).imp (fun _ hmd => hmd.1.trans rfl)⟩

/-- C14, the claim as stated fails: in a session that is not secure, a `dispatchRtp` whose
dispatch is declined returns false and leaves the session as it was, but the media has
lost its remote crypto line, cleared while the message was built. -/
theorem dispatchRtp_declined_counterexample :
    (sampleSession false false).secure = false ∧
    (sampleOps false).dispatch
      { name := "chan.rtp"
        params := specChanRtpParams (sampleSession false false)
          (startedMedia "alaw=8" "1 AES_CM_128_HMAC_SHA1_80 inline:KEY") "10.0.0.1" true }
      = none ∧
    (dispatchRtp sampleEnv (sampleOps false) (sampleSession false false)
        (some (startedMedia "alaw=8" "1 AES_CM_128_HMAC_SHA1_80 inline:KEY"))
        (some "10.0.0.1") true true).1 = false ∧
    (dispatchRtp sampleEnv (sampleOps false) (sampleSession false false)
        (some (startedMedia "alaw=8" "1 AES_CM_128_HMAC_SHA1_80 inline:KEY"))
        (some "10.0.0.1") true true).2.1 = sampleSession false false ∧
    (dispatchRtp sampleEnv (sampleOps false) (sampleSession false false)
        (some (startedMedia "alaw=8" "1 AES_CM_128_HMAC_SHA1_80 inline:KEY"))
        (some "10.0.0.1") true true).2.2.map (fun md => md.remoteCrypto) = some "" ∧
    (startedMedia "alaw=8" "1 AES_CM_128_HMAC_SHA1_80 inline:KEY").remoteCrypto ≠ "" := by
  decide

/-- C14 as amended: `dispatchRtp` returns false and leaves the session and the media
untouched when the message cannot be built (null media, null address, or no message from
the channel); when the dispatch is declined it returns false and leaves the session
untouched, and the media too in a secure session, whereas in a session that is not secure
the remote crypto line of the media has been cleared; when the dispatch succeeds it
returns true, and with `pick` set the RTP local address becomes the reply's `localip`
(unchanged when the reply has none), the media status becomes Started and `rtp_forward`
false, no other member of the session changing, while with `pick` unset the session is
unchanged. -/
theorem dispatchRtp_effects (E : Env) (O : SdpOps) (s : SDPSession) (start pick : Bool) :
    (∀ (media : Option SDPMedia) (addr : Option String),
      (media = none ∨ addr = none ∨ O.buildChanRtp = none) →
      dispatchRtp E O s media addr start pick = (false, s, media)) ∧
    (∀ (media : SDPMedia) (addr : String) (m : Message), O.buildChanRtp = some m →
      (O.dispatch { m with params := m.params ++ specChanRtpParams s media addr start } = none →
        dispatchRtp E O s (some media) (some addr) start pick =
          (false, s, some (if s.secure = true then media else media.crypto "" true))) ∧
      (∀ reply : Message,
        O.dispatch { m with params := m.params ++ specChanRtpParams s media addr start }
          = some reply →
        (dispatchRtp E O s (some media) (some addr) start pick).1 = true ∧
        (pick = true →
          (dispatchRtp E O s (some media) (some addr) start pick).2.1 =
            { s with
              rtpForward := false
              rtpLocalAddr := getValue reply.params "localip" s.rtpLocalAddr
              mediaStatus := MediaStatus.MediaStarted } ∧
          (getParam reply.params "localip" = none →
            getValue reply.params "localip" s.rtpLocalAddr = s.rtpLocalAddr) ∧
          (∀ v : String, getParam reply.params "localip" = some v →
            getValue reply.params "localip" s.rtpLocalAddr = v)) ∧
        (pick = false →
          dispatchRtp E O s (some media) (some addr) start pick =
            (true, s, some (O.updateFromMsg
              (if s.secure = true then media else media.crypto "" true) reply start))))) := by
  refine ⟨fun media addr h => dispatchRtp_unbuilt E O s media addr start pick h, ?_⟩
  intro media addr m hm
  refine ⟨?_, ?_⟩
  · intro hd
    rw [dispatchRtp_declined E O s media addr start pick m hm hd]
    rfl
  · intro reply hd
    cases pick with
    | false =>
      refine ⟨?_, fun hp => absurd hp (by decide), fun _ => ?_⟩
      · rw [dispatchRtp_unpicked E O s media addr start m reply hm hd]
      · rw [dispatchRtp_unpicked E O s media addr start m reply hm hd]
        rfl
    | true =>
      refine ⟨?_, fun _ => ⟨?_, ?_, ?_⟩, fun hp => absurd hp (by decide)⟩
      · rw [dispatchRtp_picked E O s media addr start m reply hm hd]
      · rw [dispatchRtp_picked E O s media addr start m reply hm hd]
      · intro hn
        unfold getValue
        rw [hn]
        rfl
      · intro v hv
        unfold getValue
        rw [hv]
        rfl

theorem dispatchRtp_effects_witness :
    (sampleOps true).buildChanRtp = some { name := "chan.rtp", params := [] } ∧
    (sampleOps true).dispatch
      { name := "chan.rtp"
        params := [] ++ specChanRtpParams (sampleSession false false)
          (startedMedia "alaw=8" "") "10.0.0.1" true } =
      some { name := "chan.rtp"
             params := ([] ++ specChanRtpParams (sampleSession false false)
                 (startedMedia "alaw=8" "") "10.0.0.1" true) ++
               [⟨"localip", "192.0.2.7"⟩, ⟨"ocrypto_suite", "AES_CM_128_HMAC_SHA1_80"⟩,
                ⟨"ocrypto_key", "inline:LOCAL"⟩] } ∧
    (dispatchRtp sampleEnv (sampleOps true) (sampleSession false false)
        (some (startedMedia "alaw=8" "")) (some "10.0.0.1") true true).1 = true ∧
    (dispatchRtp sampleEnv (sampleOps true) (sampleSession false false)
        (some (startedMedia "alaw=8" "")) (some "10.0.0.1") true true).2.1 =
      { sampleSession false false with
        rtpForward := false
        rtpLocalAddr := "192.0.2.7"
        mediaStatus := MediaStatus.MediaStarted } ∧
    dispatchRtp sampleEnv (sampleOps true) (sampleSession false false) none
        (some "10.0.0.1") true true = (false, sampleSession false false, none) :=
  ⟨rfl, rfl,
    (((dispatchRtp_effects sampleEnv (sampleOps true) (sampleSession false false) true true).2
      (startedMedia "alaw=8" "") "10.0.0.1" { name := "chan.rtp", params := [] } rfl).2
      _ rfl).1,
    by decide,
    (dispatchRtp_effects sampleEnv (sampleOps true) (sampleSession false false) true true).1
      none (some "10.0.0.1") (Or.inl rfl)⟩

/-! ## Passing the SDP through -/

theorem find_clearParam (l : List NamedString) (name other : String) (h : other ≠ name) :
    (clearParam l name).find? (fun p => decide (p.name = other)) =
      l.find? (fun p => decide (p.name = other)) := by
  unfold clearParam
  induction l with
  | nil => rfl
  | cons p ps ih =>
    by_cases hp : p.name = name
    · have hne : ¬ p.name = other := fun e => h (e.symm.trans hp)
      rw [List.filter_cons_of_neg (by simp [hp]), List.find?_cons_of_neg _ (by simp [hne])]
      exact ih
    · rw [List.filter_cons_of_pos (by simp [hp])]
      by_cases ho : p.name = other
      · rw [List.find?_cons_of_pos _ (by simp [ho]), List.find?_cons_of_pos _ (by simp [ho])]
      · rw [List.find?_cons_of_neg _ (by simp [ho]), List.find?_cons_of_neg _ (by simp [ho])]
        exact ih

theorem getParam_clearParam (l : List NamedString) (name other : String) (h : other ≠ name) :
    getParam (clearParam l name) other = getParam l other := by
  unfold getParam
  rw [find_clearParam l name other h]

/-- C16: when the session has `rtp_forward` enabled, the message's `rtp_forward`
parameter reads as true, SDP forwarding is on for the session or its parser and the
message carries `sdp_raw`, `createPasstroughSDP` returns the body constructed from the
`sdp_raw` value, all of it, with the type `application/sdp`; it does not generate an SDP:
session id, version, media list and every other member of the session are as before,
apart from the SDP forwarding flag of the session, now set, and the message has
`rtp_forward=accepted`. When `rtp_forward` is off for the session or the message's
`rtp_forward` does not read as true it returns no body and leaves the session alone. -/
theorem createPasstroughSDP_raw (E : Env) (O : SdpOps) (now : Int) (s : SDPSession)
    (msg : List NamedString) (update : Bool) :
    (∀ raw : String, s.rtpForward = true →
      O.toBoolean (getValue msg "rtp_forward" "") false = true →
      (s.sdpForward = true ∨ O.sdpForward = true) →
      getParam msg "sdp_raw" = some raw →
      createPasstroughSDP E O now s msg update =
        ({ s with sdpForward := true },
          setParam (clearParam msg "rtp_forward") "rtp_forward" "accepted",
          some (MimeSdpBody.raw "application/sdp" raw)) ∧
      (createPasstroughSDP E O now s msg update).1.sdpSession = s.sdpSession ∧
      (createPasstroughSDP E O now s msg update).1.sdpVersion = s.sdpVersion ∧
      (createPasstroughSDP E O now s msg update).1.rtpMedia = s.rtpMedia) ∧
    ((s.rtpForward = false ∨ O.toBoolean (getValue msg "rtp_forward" "") false = false) →
      createPasstroughSDP E O now s msg update = (s, clearParam msg "rtp_forward", none)) := by
  refine ⟨?_, ?_⟩
  · intro raw hf hb hsf hraw
    have hraw1 : getParam (clearParam msg "rtp_forward") "sdp_raw" = some raw := by
      rw [getParam_clearParam _ _ _ (by decide)]
      exact hraw
    have hor : (s.sdpForward || O.sdpForward) = true := by
      rcases hsf with h1 | h1 <;> simp [h1]
    have hmain : createPasstroughSDP E O now s msg update =
        ({ s with sdpForward := true },
          setParam (clearParam msg "rtp_forward") "rtp_forward" "accepted",
          some (MimeSdpBody.raw "application/sdp" raw)) := by
      unfold createPasstroughSDP
      simp only [hf, hb, Bool.and_self, hraw1, hor]
      rfl
    rw [hmain]
    exact ⟨rfl, rfl, rfl, rfl⟩
  · intro h
    have hc : (s.rtpForward && O.toBoolean (getValue msg "rtp_forward" "") false) = false := by
      rcases h with h1 | h1 <;> simp [h1]
    unfold createPasstroughSDP
    simp only [hc]
    rfl

theorem createPasstroughSDP_raw_witness :
    ({ sampleSession false false with rtpForward := true, sdpForward := true }
      : SDPSession).rtpForward = true ∧
    (sampleOps true).toBoolean
      (getValue [⟨"rtp_forward", "yes"⟩, ⟨"sdp_raw", "v=0\r\ns=call\r\n"⟩] "rtp_forward" "")
      false = true ∧
    getParam [⟨"rtp_forward", "yes"⟩, ⟨"sdp_raw", "v=0\r\ns=call\r\n"⟩] "sdp_raw" =
      some "v=0\r\ns=call\r\n" ∧
    createPasstroughSDP sampleEnv (sampleOps true) 1000
        { sampleSession false false with rtpForward := true, sdpForward := true }
        [⟨"rtp_forward", "yes"⟩, ⟨"sdp_raw", "v=0\r\ns=call\r\n"⟩] true =
      ({ sampleSession false false with rtpForward := true, sdpForward := true },
        [⟨"sdp_raw", "v=0\r\ns=call\r\n"⟩, ⟨"rtp_forward", "accepted"⟩],
        some (MimeSdpBody.raw "application/sdp" "v=0\r\ns=call\r\n")) ∧
    createPasstroughSDP sampleEnv (sampleOps true) 1000
        { sampleSession false false with rtpForward := true, sdpForward := true }
        [⟨"rtp_forward", "no"⟩, ⟨"sdp_raw", "v=0\r\ns=call\r\n"⟩] true =
      ({ sampleSession false false with rtpForward := true, sdpForward := true },
        clearParam [⟨"rtp_forward", "no"⟩, ⟨"sdp_raw", "v=0\r\ns=call\r\n"⟩] "rtp_forward",
        none) :=
  ⟨rfl, by decide, by decide,
    ((createPasstroughSDP_raw sampleEnv (sampleOps true) 1000
      { sampleSession false false with rtpForward := true, sdpForward := true }
      [⟨"rtp_forward", "yes"⟩, ⟨"sdp_raw", "v=0\r\ns=call\r\n"⟩] true).1
      "v=0\r\ns=call\r\n" rfl (by decide) (Or.inl rfl) (by decide)).1.trans (by decide),
    (createPasstroughSDP_raw sampleEnv (sampleOps true) 1000
      { sampleSession false false with rtpForward := true, sdpForward := true }
      [⟨"rtp_forward", "no"⟩, ⟨"sdp_raw", "v=0\r\ns=call\r\n"⟩] true).2
      (Or.inr (by decide))⟩

/-! ## Reuse of the media descriptors -/

theorem keepsFrom_refl (a : SDPMedia) : KeepsFrom a a :=
  ⟨rfl, rfl, rfl, rfl, rfl, rfl, rfl, rfl, rfl, fun h => h⟩

theorem keepsFrom_trans {a b c : SDPMedia} (h1 : KeepsFrom a b) (h2 : KeepsFrom b c) :
    KeepsFrom a c := by
  obtain ⟨a1, a2, a3, a4, a5, a6, a7, a8, a9, a10⟩ := h1
  obtain ⟨b1, b2, b3, b4, b5, b6, b7, b8, b9, b10⟩ := h2
  exact ⟨b1.trans a1, b2.trans a2, b3.trans a3, b4.trans a4, b5.trans a5, b6.trans a6,
    b7.trans a7, b8.trans a8, b9.trans a9, fun h => b10 (a10 h)⟩

theorem keepsFrom_crypto (a : SDPMedia) (desc : String) :
    KeepsFrom a (a.crypto desc false) ∧ (a.crypto desc false).localCrypto = desc := by
  exact ⟨⟨rfl, rfl, rfl, rfl, rfl, rfl, rfl, rfl, rfl, fun h => h⟩, rfl⟩

theorem keepsFrom_parameter (a : SDPMedia) (name value : String) (append : Bool) :
    KeepsFrom a (a.parameter name value append) := by
  unfold SDPMedia.parameter
  split
  · exact keepsFrom_refl a
  · exact ⟨rfl, rfl, rfl, rfl, rfl, rfl, rfl, rfl, rfl, fun h => h⟩

theorem keepsFrom_setMappings (a : SDPMedia) (newMap : String) :
    KeepsFrom a (a.setMappings newMap) := by
  unfold SDPMedia.setMappings
  split
  · exact ⟨rfl, rfl, rfl, rfl, rfl, rfl, rfl, rfl, rfl, fun h => h⟩
  · exact keepsFrom_refl a

theorem keepsFrom_setRfc2833 (a : SDPMedia) (payload : Int) :
    KeepsFrom a (a.setRfc2833 payload) :=
  ⟨rfl, rfl, rfl, rfl, rfl, rfl, rfl, rfl, rfl, fun h => h⟩

theorem keepsFrom_copyOsdp (O : SdpOps) (sdpPrefix : String) (params : List NamedString)
    (append : Bool) :
    ∀ rtp : SDPMedia, KeepsFrom rtp (copyOsdpParams O sdpPrefix params rtp append) ∧
      (copyOsdpParams O sdpPrefix params rtp append).localCrypto = rtp.localCrypto := by
  unfold copyOsdpParams
  induction params with
  | nil => intro rtp; exact ⟨keepsFrom_refl rtp, rfl⟩
  | cons p ps ih =>
    intro rtp
    rw [List.foldl_cons]
    have hstep : KeepsFrom rtp
        (match startSkip p.name (sdpPrefix ++ O.suffix rtp ++ "_") with
          | some tmp => if '_' ∈ tmp.data then rtp else rtp.parameter tmp p.value append
          | none => rtp) ∧
        (match startSkip p.name (sdpPrefix ++ O.suffix rtp ++ "_") with
          | some tmp => if '_' ∈ tmp.data then rtp else rtp.parameter tmp p.value append
          | none => rtp).localCrypto = rtp.localCrypto := by
      split
      · split
        · exact ⟨keepsFrom_refl rtp, rfl⟩
        · exact ⟨keepsFrom_parameter _ _ _ _, (parameter_localCrypto _ _ _ _).1⟩
      · exact ⟨keepsFrom_refl rtp, rfl⟩
    exact ⟨keepsFrom_trans hstep.1 (ih _).1, (ih _).2.trans hstep.2⟩

theorem removeFirst_none (name : String) :
    ∀ l : List SDPMedia, removeFirst name l = none ↔ ∀ d ∈ l, d.name ≠ name := by
  intro l
  induction l with
  | nil => simp [removeFirst]
  | cons m ms ih =>
    unfold removeFirst
    by_cases hm : m.name = name
    · simp [hm]
    · rw [if_neg hm]
      cases hr : removeFirst name ms with
      | none =>
        simp only [true_iff]
        intro d hd
        rcases List.mem_cons.1 hd with rfl | hd'
        · exact hm
        · exact (ih.1 hr) d hd'
      | some q =>
        obtain ⟨d, rest⟩ := q
        constructor
        · intro h
          simp at h
        · intro hall
          have := ih.2 (fun d hd => hall d (List.mem_cons_of_mem _ hd))
          rw [hr] at this
          exact absurd this (by simp)

theorem removeFirst_some (name : String) :
    ∀ (l : List SDPMedia) (d : SDPMedia) (rest : List SDPMedia),
      removeFirst name l = some (d, rest) →
      d.name = name ∧
        ∃ pre post : List SDPMedia, l = pre ++ d :: post ∧ rest = pre ++ post ∧
          ∀ x ∈ pre, x.name ≠ name := by
  intro l
  induction l with
  | nil => intro d rest h; simp [removeFirst] at h
  | cons m ms ih =>
    intro d rest h
    unfold removeFirst at h
    by_cases hm : m.name = name
    · rw [if_pos hm] at h
      simp only [Option.some.injEq, Prod.mk.injEq] at h
      obtain ⟨rfl, rfl⟩ := h
      exact ⟨hm, [], ms, rfl, rfl, by simp⟩
    · rw [if_neg hm] at h
      cases hr : removeFirst name ms with
      | none => rw [hr] at h; simp at h
      | some q =>
        obtain ⟨d', rest'⟩ := q
        rw [hr] at h
        simp only [Option.some.injEq, Prod.mk.injEq] at h
        obtain ⟨rfl, rfl⟩ := h
        obtain ⟨hn, pre, post, hl, hrest, hpre⟩ := ih d' rest' hr
        refine ⟨hn, m :: pre, post, by rw [hl]; rfl, by rw [hrest]; rfl, ?_⟩
        intro x hx
        rcases List.mem_cons.1 hx with rfl | hx'
        · exact hm
        · exact hpre x hx'

theorem takeOrNew_reused (O : SdpOps) (l : List SDPMedia) (name trans fmts : String)
    (rport lport : Int) (d : SDPMedia) (rest : List SDPMedia)
    (h : removeFirst name l = some (d, rest)) :
    takeOrNew O (some l) name trans fmts rport lport =
      (O.updateFormats d fmts rport lport, some rest, false) := by
  unfold takeOrNew
  simp only [h]

theorem takeOrNew_new (O : SdpOps) (old : Option (List SDPMedia)) (name trans fmts : String)
    (rport lport : Int) (h : ∀ l, old = some l → ∀ d ∈ l, d.name ≠ name) :
    takeOrNew O old name trans fmts rport lport =
      (O.newMedia name trans fmts rport lport, old, true) := by
  unfold takeOrNew
  cases old with
  | none => rfl
  | some l =>
    have := (removeFirst_none name l).2 (h l rfl)
    simp only [this]

theorem placeSDP_keeps (O : SdpOps) (params : List NamedString) (sdpPrefix : String)
    (st : MediaLists) (name trans fmts crypto : String) :
    ∃ rtp : SDPMedia,
      placeSDP O params sdpPrefix st name trans fmts crypto =
        { old := (takeOrNew O st.old name trans fmts (-1) (-1)).2.1
          lst := appendMedia st.lst rtp } ∧
      KeepsFrom (takeOrNew O st.old name trans fmts (-1) (-1)).1 rtp ∧
      rtp.localCrypto = crypto := by
  unfold placeSDP
  simp only []
  have hc := keepsFrom_crypto (takeOrNew O st.old name trans fmts (-1) (-1)).1 crypto
  by_cases hp : sdpPrefix ≠ ""
  · rw [if_pos hp]
    have ho := keepsFrom_copyOsdp O sdpPrefix params
      (takeOrNew O st.old name trans fmts (-1) (-1)).2.2
      ((takeOrNew O st.old name trans fmts (-1) (-1)).1.crypto crypto false)
    exact ⟨_, rfl, keepsFrom_trans hc.1 ho.1, ho.2.trans hc.2⟩
  · rw [if_neg hp]
    exact ⟨_, rfl, hc.1, hc.2⟩

theorem takeOrNew_builtFrom (O : SdpOps) (old : Option (List SDPMedia))
    (name trans fmts : String) (rport lport : Int) :
    BuiltFrom O old name trans fmts rport lport
      (takeOrNew O old name trans fmts rport lport).1
      (takeOrNew O old name trans fmts rport lport).2.1 := by
  cases old with
  | none =>
    refine Or.inr ⟨?_, rfl, rfl⟩
    intro l h
    simp at h
  | some l =>
    cases hr : removeFirst name l with
    | none =>
      have hall := (removeFirst_none name l).1 hr
      have ht := takeOrNew_new O (some l) name trans fmts rport lport
        (fun l' h' => by
          simp only [Option.some.injEq] at h'
          subst h'
          exact hall)
      rw [ht]
      refine Or.inr ⟨?_, rfl, rfl⟩
      intro l' h'
      simp only [Option.some.injEq] at h'
      subst h'
      exact hall
    | some q =>
      obtain ⟨d, rest⟩ := q
      rw [takeOrNew_reused O l name trans fmts rport lport d rest hr]
      obtain ⟨hn, pre, post, hl, hrest, hpre⟩ := removeFirst_some name l d rest hr
      exact Or.inl ⟨d, pre, post, by rw [hl], hn, hpre, rfl, by rw [hrest]⟩

theorem updateSDPStep_lists (O : SdpOps) (s : SDPSession) (params : List NamedString)
    (sdpPrefix : String) (us : UpdateState) (p : NamedString) :
    (updateSDPStep O s params sdpPrefix us p).lists = us.lists ∨
      ∃ tmp fmts : String,
        (updateSDPStep O s params sdpPrefix us p).lists =
          placeSDP O params sdpPrefix us.lists
            (if tmp = "" then "audio" else skipPast tmp '_')
            (getValue params ("transport" ++ tmp) "RTP/AVP") fmts
            (if s.secure = true then getValue params ("crypto" ++ tmp) "" else "") := by
  unfold updateSDPStep
  split
  · exact Or.inl rfl
  · rename_i tmp _
    split
    · exact Or.inl rfl
    · split
      · exact Or.inl rfl
      · simp only []
        split
        · split
          · exact Or.inl rfl
          · exact Or.inr ⟨tmp, O.defFormats, rfl⟩
        · split
          · exact Or.inl rfl
          · exact Or.inr ⟨tmp, getValue params ("formats" ++ tmp) "", rfl⟩

theorem updateRtpSDPStep_lists (E : Env) (O : SdpOps) (params : List NamedString)
    (sdpPrefix : String) (st : MediaLists) (p : NamedString) :
    updateRtpSDPStep E O params sdpPrefix st p = st ∨
      ∃ tmp : String,
        updateRtpSDPStep E O params sdpPrefix st p =
          placeRtpSDP E O params sdpPrefix st (decide (tmp = ""))
            (if tmp = "" then "audio" else skipPast tmp '_')
            (getValue params ("transport" ++ tmp) "RTP/AVP")
            (getValue params ("formats" ++ tmp) "") (E.toInteger p.value 0) := by
  unfold updateRtpSDPStep
  split
  · exact Or.inl rfl
  · rename_i tmp _
    split
    · exact Or.inl rfl
    · split
      · exact Or.inl rfl
      · split
        · exact Or.inl rfl
        · split
          · exact Or.inl rfl
          · exact Or.inr ⟨tmp, rfl⟩

theorem placeRtpSDP_built (E : Env) (O : SdpOps) (params : List NamedString)
    (sdpPrefix : String) (st : MediaLists) (audio : Bool) (name trans fmts : String)
    (port : Int) :
    ∃ mid : SDPMedia,
      KeepsFrom (takeOrNew O st.old name trans fmts (-1) port).1 mid ∧
      placeRtpSDP E O params sdpPrefix st audio name trans fmts port =
        { old := (takeOrNew O st.old name trans fmts (-1) port).2.1
          lst := appendMedia st.lst
            (mid.crypto (getValue params ("crypto" ++ O.suffix mid) "") false) } := by
  unfold placeRtpSDP
  simp only []
  generalize takeOrNew O st.old name trans fmts (-1) port = r
  have h1 : KeepsFrom r.1
      (if sdpPrefix ≠ "" then copyOsdpParams O sdpPrefix params r.1 r.2.2 else r.1) := by
    split
    · exact (keepsFrom_copyOsdp O sdpPrefix params _ _).1
    · exact keepsFrom_refl _
  generalize (if sdpPrefix ≠ "" then copyOsdpParams O sdpPrefix params r.1 r.2.2 else r.1)
    = rtp1 at h1
  have h2 := keepsFrom_setMappings rtp1 (getValue params ("rtp_mapping" ++ O.suffix rtp1) "")
  generalize rtp1.setMappings (getValue params ("rtp_mapping" ++ O.suffix rtp1) "")
    = rtp2 at h2
  have h3 : KeepsFrom rtp2
      (if audio = true then rtp2.setRfc2833 (getIntValue E params "rtp_rfc2833" (-1))
       else rtp2) := by
    split
    · exact keepsFrom_setRfc2833 _ _
    · exact keepsFrom_refl _
  generalize (if audio = true then rtp2.setRfc2833 (getIntValue E params "rtp_rfc2833" (-1))
    else rtp2) = rtp3 at h3
  exact ⟨rtp3, keepsFrom_trans h1 (keepsFrom_trans h2 h3), rfl⟩

/-- C15 (counterexample): a secure session holds an audio descriptor with the local crypto
line `1 AES_CM_128_HMAC_SHA1_80 inline:LOCAL`. After `updateSDP` with the parameters
`media=yes`, `formats=alaw`, and after `updateRtpSDP` with `rtp_addr=192.0.2.7`,
`rtp_port=4000`, `formats=alaw`, the audio media of the session has no local crypto line:
the reused descriptor's SDES is not preserved. With `media` declared twice the second
audio media is a new descriptor, without the remote crypto line, although the session's
list held an audio descriptor when the function was called; and with no `media` entry at
all (`formats=alaw` alone) `updateSDP` builds the default audio media as a new descriptor,
without the remote crypto line and the `local-changed` flag of the descriptor the session
holds. -/
theorem updateSDP_crypto_counterexample :
    securedSession.rtpMedia.map (fun l => l.map (fun m => (m.name, m.localCrypto))) =
        some [("audio", "1 AES_CM_128_HMAC_SHA1_80 inline:LOCAL")] ∧
      (updateSDP (sampleOps true) securedSession
          [⟨"media", "yes"⟩, ⟨"formats", "alaw"⟩]).1.rtpMedia.map
          (fun l => l.map (fun m => (m.name, m.localCrypto))) = some [("audio", "")] ∧
      (updateRtpSDP sampleEnv (sampleOps true) securedSession
          [⟨"rtp_addr", "192.0.2.7"⟩, ⟨"rtp_port", "4000"⟩, ⟨"formats", "alaw"⟩]).1.rtpMedia.map
          (fun l => l.map (fun m => (m.name, m.localCrypto))) = some [("audio", "")] ∧
      (updateSDP (sampleOps true) securedSession
          [⟨"media", "yes"⟩, ⟨"media", "yes"⟩, ⟨"formats", "alaw"⟩]).1.rtpMedia.map
          (fun l => l.map (fun m => (m.name, m.remoteCrypto))) =
        some [("audio", "1 AES_CM_128_HMAC_SHA1_80 inline:REMOTE"), ("audio", "")] ∧
      securedSession.rtpMedia.map
          (fun l => l.map (fun m => (m.name, m.remoteCrypto, m.localChanged))) =
        some [("audio", "1 AES_CM_128_HMAC_SHA1_80 inline:REMOTE", true)] ∧
      (updateSDP (sampleOps true) securedSession [⟨"formats", "alaw"⟩]).1.rtpMedia.map
          (fun l => l.map (fun m => (m.name, m.remoteCrypto, m.localChanged))) =
        some [("audio", "", false)] := by
  decide

/-! ## SIP transaction states -/

/-- C25: `SIPTransaction::isActive` is true exactly in the states Initial, Trying, Process
and Retrans and false exactly in the states Invalid, Finish and Cleared, and
`SIPEvent::isActive` of an event created for the transaction in that state gives the same
answer. -/
theorem isActive_states (st : SIPTransaction.State) :
    (SIPTransaction.isActive { state := st.toInt } = true ↔
      (st = SIPTransaction.State.Initial ∨ st = SIPTransaction.State.Trying ∨
        st = SIPTransaction.State.Process ∨ st = SIPTransaction.State.Retrans)) ∧
    (SIPTransaction.isActive { state := st.toInt } = false ↔
      (st = SIPTransaction.State.Invalid ∨ st = SIPTransaction.State.Finish ∨
        st = SIPTransaction.State.Cleared)) ∧
    SIPEvent.isActive (SIPEvent.ofTransaction { state := st.toInt }) =
      SIPTransaction.isActive { state := st.toInt } ∧
    (∀ e : SIPEvent, e.state = st.toInt →
      e.isActive = SIPTransaction.isActive { state := st.toInt }) := by
  refine ⟨?_, ?_, rfl, ?_⟩
  · cases st <;> decide
  · cases st <;> decide
  · intro e he
    unfold SIPEvent.isActive SIPTransaction.isActive
    rw [he]

theorem isActive_states_witness :
    SIPTransaction.isActive { state := SIPTransaction.State.Trying.toInt } = true ∧
    SIPTransaction.isActive { state := SIPTransaction.State.Finish.toInt } = false ∧
    SIPEvent.isActive { state := 2 } = true :=
  ⟨(isActive_states SIPTransaction.State.Trying).1.2 (Or.inr (Or.inl rfl)),
    (isActive_states SIPTransaction.State.Finish).2.1.2 (Or.inr (Or.inl rfl)),
    ((isActive_states SIPTransaction.State.Trying).2.2.2 { state := 2 } rfl).trans
      (by decide)⟩

/-! ## The length of the ISUP parameters -/

theorem usub32_of_le (a b : Nat) (ha : a < 4294967296) (hb : b ≤ a) : usub32 a b = a - b := by
  unfold usub32
  omega

theorem getData_some_length (msu : SS7MSU) (offs : Nat) (s0 s1 s2 : Fin 256)
    (rest : List (Fin 256)) (h : msu.getData offs 3 = some (s0 :: s1 :: s2 :: rest)) :
    offs + 3 ≤ msu.data.length ∧ rest.length = msu.data.length - offs - 3 := by
  unfold SS7MSU.getData at h
  split at h
  · next hle =>
    simp only [Option.some.injEq] at h
    have hl := congrArg List.length h
    simp only [List.length_drop, List.length_cons] at hl
    exact ⟨hle, by omega⟩
  · exact absurd h (by simp)

/-- C27: for an MSU (its length an `unsigned int`) and a label for which the read of
three bytes at offset `label.length + 1` succeeds, the MSU holds at least
`label.length + 4` bytes, so neither `msu.length - label.length - 1` nor the parameter
length `(msu.length - label.length - 1) - 3` wraps around, and that length, the one handed
to `processMSU` for an IAM, is the number of bytes that follow the message type byte; when
the read fails the MSU is Rejected, nothing is enqueued and no length reaches
`processMSU`. -/
theorem receivedMSU_param_length (X : IsupEnv) (u : IsupIntercept) (msu : SS7MSU)
    (label : SS7Label) (sls : Int) (hlen : msu.data.length < 4294967296) :
    (∀ l : List (Fin 256), msu.getData (label.length + 1) 3 = some l →
      ∃ (s0 s1 s2 : Fin 256) (rest : List (Fin 256)),
        l = s0 :: s1 :: s2 :: rest ∧
        label.length + 4 ≤ msu.data.length ∧
        (usub32 (usub32 msu.data.length label.length) 1 : Int) =
          (msu.data.length : Int) - (label.length : Int) - 1 ∧
        (usub32 (usub32 (usub32 msu.data.length label.length) 1) 3 : Int) =
          (msu.data.length : Int) - (label.length : Int) - 1 - 3 ∧
        usub32 (usub32 (usub32 msu.data.length label.length) 1) 3 = rest.length ∧
        interceptMSU X u msu label sls =
          (if s2.val = X.iam then
            ((if (processMSU X u s2.val (s0.val ||| (s1.val <<< 8)) rest rest.length
                  label sls).1 = true
                then HandledMSU.Accepted else HandledMSU.Rejected),
              (processMSU X u s2.val (s0.val ||| (s1.val <<< 8)) rest rest.length
                  label sls).2)
          else (HandledMSU.Rejected, none))) ∧
    (msu.getData (label.length + 1) 3 = none →
      interceptMSU X u msu label sls = (HandledMSU.Rejected, none) ∧
      receivedMSU X u msu label sls = (HandledMSU.Rejected, none)) := by
  refine ⟨?_, ?_⟩
  · intro l h
    obtain ⟨s0, s1, s2, rest, rfl⟩ := getData_some_shape msu (label.length + 1) l h
    obtain ⟨hle, hrest⟩ := getData_some_length msu (label.length + 1) s0 s1 s2 rest h
    have e1 : usub32 msu.data.length label.length = msu.data.length - label.length :=
      usub32_of_le _ _ hlen (by omega)
    have e2 : usub32 (msu.data.length - label.length) 1 = msu.data.length - label.length - 1 :=
      usub32_of_le _ _ (by omega) (by omega)
    have e3 : usub32 (msu.data.length - label.length - 1) 3 =
        msu.data.length - label.length - 1 - 3 :=
      usub32_of_le _ _ (by omega) (by omega)
    have e4 : usub32 (usub32 (usub32 msu.data.length label.length) 1) 3 = rest.length := by
      rw [e1, e2, e3, hrest]
      omega
    have hi := interceptMSU_of_bytes X u msu label sls s0 s1 s2 rest h
    rw [e4] at hi
    refine ⟨s0, s1, s2, rest, rfl, by omega, ?_, ?_, e4, hi⟩
    · rw [e1, e2]
      omega
    · rw [e1, e2, e3]
      omega
  · intro h
    have hi := interceptMSU_short X u msu label sls h
    refine ⟨hi, ?_⟩
    unfold receivedMSU
    split
    · rfl
    · split
      · rfl
      · exact hi

theorem receivedMSU_param_length_witness :
    ({ sif := 5, data := [5, 0, 0, 0, 0, 44, 1, 1, 7, 9] } : SS7MSU).getData
        ((sampleLabel 10 20).length + 1) 3 = some [44, 1, 1, 7, 9] ∧
    usub32 (usub32 (usub32
      ({ sif := 5, data := [5, 0, 0, 0, 0, 44, 1, 1, 7, 9] } : SS7MSU).data.length
      (sampleLabel 10 20).length) 1) 3 = 2 ∧
    (∃ (s0 s1 s2 : Fin 256) (rest : List (Fin 256)),
      ([44, 1, 1, 7, 9] : List (Fin 256)) = s0 :: s1 :: s2 :: rest ∧
      usub32 (usub32 (usub32
        ({ sif := 5, data := [5, 0, 0, 0, 0, 44, 1, 1, 7, 9] } : SS7MSU).data.length
        (sampleLabel 10 20).length) 1) 3 = rest.length) ∧
    ({ sif := 5, data := [5, 0, 0, 0, 0, 44, 1] } : SS7MSU).getData
        ((sampleLabel 10 20).length + 1) 3 = none ∧
    receivedMSU sampleIsupEnv (sampleIntercept false)
        { sif := 5, data := [5, 0, 0, 0, 0, 44, 1] } (sampleLabel 10 20) 3 =
      (HandledMSU.Rejected, none) :=
  ⟨by decide, by decide,
    (((receivedMSU_param_length sampleIsupEnv (sampleIntercept false)
      { sif := 5, data := [5, 0, 0, 0, 0, 44, 1, 1, 7, 9] } (sampleLabel 10 20) 3
      (by decide)).1 [44, 1, 1, 7, 9] (by decide)).imp
      (fun _ h1 => h1.imp (fun _ h2 => h2.imp (fun _ h3 => h3.imp
        (fun _ h4 => ⟨h4.1, h4.2.2.2.2.1⟩))))),
    by decide,
    ((receivedMSU_param_length sampleIsupEnv (sampleIntercept false)
      { sif := 5, data := [5, 0, 0, 0, 0, 44, 1] } (sampleLabel 10 20) 3
      (by decide)).2 (by decide)).2⟩

/-! ## The `rtp_forward` parameter after a pass-through -/

theorem getParam_clearParam_same (l : List NamedString) (name : String) :
    getParam (clearParam l name) name = none := by
  unfold getParam clearParam
  have : (l.filter (fun p => decide (p.name ≠ name))).find? (fun p => decide (p.name = name))
      = none := by
    rw [List.find?_eq_none]
    intro x hx
    have := (List.mem_filter.1 hx).2
    simpa using this
  rw [this]
  rfl

theorem getParam_setParam_same (l : List NamedString) (name value : String) :
    getParam (setParam l name value) name = some value := by
  induction l with
  | nil => simp [setParam, getParam]
  | cons p ps ih =>
    unfold setParam
    by_cases hp : p.name = name
    · rw [if_pos hp]
      simp [getParam]
    · rw [if_neg hp]
      unfold getParam at ih ⊢
      rw [List.find?_cons_of_neg _ (by simpa using hp)]
      exact ih

theorem createPasstroughRtp_forward (E : Env) (O : SdpOps) (now : Int) (s1 : SDPSession)
    (msg : List NamedString) (update : Bool) :
    (createPasstroughSDP.createPasstroughRtp E O now s1 (clearParam msg "rtp_forward")
        update).2.1 =
      (if (createPasstroughSDP.createPasstroughRtp E O now s1 (clearParam msg "rtp_forward")
          update).2.2.isSome = true
        then setParam (clearParam msg "rtp_forward") "rtp_forward" "accepted"
        else clearParam msg "rtp_forward") := by
  unfold createPasstroughSDP.createPasstroughRtp
  simp only []
  split
  · rfl
  · simp only [Option.isSome_map']

theorem createPasstroughSDP_message (E : Env) (O : SdpOps) (now : Int) (s : SDPSession)
    (msg : List NamedString) (update : Bool) :
    (createPasstroughSDP E O now s msg update).2.1 =
      (if (createPasstroughSDP E O now s msg update).2.2.isSome = true
        then setParam (clearParam msg "rtp_forward") "rtp_forward" "accepted"
        else clearParam msg "rtp_forward") := by
  unfold createPasstroughSDP
  simp only []
  split
  · rfl
  · split
    · split
      · rfl
      · exact createPasstroughRtp_forward E O now _ msg update
    · exact createPasstroughRtp_forward E O now _ msg update

/-- C28: for every session and every message, after `createPasstroughSDP` the parameter
`rtp_forward` of the message is `accepted` if and only if a body was returned, and when no
body is returned the message has no parameter `rtp_forward` at all; in both cases the
other parameters of the message are as they were. -/
theorem createPasstroughSDP_rtp_forward (E : Env) (O : SdpOps) (now : Int) (s : SDPSession)
    (msg : List NamedString) (update : Bool) :
    (getParam (createPasstroughSDP E O now s msg update).2.1 "rtp_forward" = some "accepted" ↔
      (createPasstroughSDP E O now s msg update).2.2.isSome = true) ∧
    ((createPasstroughSDP E O now s msg update).2.2 = none →
      getParam (createPasstroughSDP E O now s msg update).2.1 "rtp_forward" = none ∧
      (createPasstroughSDP E O now s msg update).2.1 = clearParam msg "rtp_forward") ∧
    ((createPasstroughSDP E O now s msg update).2.2.isSome = true →
      (createPasstroughSDP E O now s msg update).2.1 =
        setParam (clearParam msg "rtp_forward") "rtp_forward" "accepted") := by
  have hm := createPasstroughSDP_message E O now s msg update
  cases hb : (createPasstroughSDP E O now s msg update).2.2 with
  | none =>
    rw [hb] at hm
    simp only [Option.isSome_none, Bool.false_eq_true, if_false] at hm
    rw [hm]
    refine ⟨?_, fun _ => ⟨getParam_clearParam_same msg "rtp_forward", rfl⟩, ?_⟩
    · rw [getParam_clearParam_same]
      simp
    · intro h
      simp at h
  | some body =>
    rw [hb] at hm
    simp only [Option.isSome_some, if_true] at hm
    rw [hm]
    refine ⟨?_, ?_, fun _ => rfl⟩
    · rw [getParam_setParam_same]
      simp
    · intro h
      simp at h

theorem createPasstroughSDP_rtp_forward_witness :
    (createPasstroughSDP sampleEnv (sampleOps true) 1000
        { sampleSession false false with rtpForward := true, sdpForward := true }
        [⟨"rtp_forward", "yes"⟩, ⟨"sdp_raw", "v=0\r\ns=call\r\n"⟩] true).2.2.isSome = true ∧
    (createPasstroughSDP sampleEnv (sampleOps true) 1000
        { sampleSession false false with rtpForward := true, sdpForward := true }
        [⟨"rtp_forward", "yes"⟩, ⟨"sdp_raw", "v=0\r\ns=call\r\n"⟩] true).2.1 =
      [⟨"sdp_raw", "v=0\r\ns=call\r\n"⟩, ⟨"rtp_forward", "accepted"⟩] ∧
    (createPasstroughSDP sampleEnv (sampleOps true) 1000
        { sampleSession false false with rtpForward := true }
        [⟨"rtp_forward", "yes"⟩, ⟨"formats", "alaw"⟩] true).2.2 = none ∧
    getParam (createPasstroughSDP sampleEnv (sampleOps true) 1000
        { sampleSession false false with rtpForward := true }
        [⟨"rtp_forward", "yes"⟩, ⟨"formats", "alaw"⟩] true).2.1 "rtp_forward" = none :=
  ⟨by decide,
    ((createPasstroughSDP_rtp_forward sampleEnv (sampleOps true) 1000
      { sampleSession false false with rtpForward := true, sdpForward := true }
      [⟨"rtp_forward", "yes"⟩, ⟨"sdp_raw", "v=0\r\ns=call\r\n"⟩] true).2.2
      (by decide)).trans (by decide),
    by decide,
    ((createPasstroughSDP_rtp_forward sampleEnv (sampleOps true) 1000
      { sampleSession false false with rtpForward := true }
      [⟨"rtp_forward", "yes"⟩, ⟨"formats", "alaw"⟩] true).2.1 (by decide)).1⟩

/-! ## The SDES line recorded and read back -/

theorem digitChar_isDigit : ∀ k : Nat, k < 10 → (Nat.digitChar k).isDigit = true := by
  decide

theorem toDigitsCore_isDigit : ∀ (fuel n : Nat) (ds : List Char),
    (∀ c ∈ ds, c.isDigit = true) → ∀ c ∈ Nat.toDigitsCore 10 fuel n ds, c.isDigit = true := by
  intro fuel
  induction fuel with
  | zero =>
    intro n ds hds c hc
    exact hds c hc
  | succ f ih =>
    intro n ds hds c hc
    have hd : (Nat.digitChar (n % 10)).isDigit = true :=
      digitChar_isDigit _ (Nat.mod_lt _ (by decide))
    have hcons : ∀ x ∈ Nat.digitChar (n % 10) :: ds, x.isDigit = true := by
      intro x hx
      rcases List.mem_cons.1 hx with rfl | hx'
      · exact hd
      · exact hds x hx'
    unfold Nat.toDigitsCore at hc
    simp only [] at hc
    split at hc
    · exact hcons c hc
    · exact ih _ _ hcons c hc

theorem toDigitsCore_ne_nil : ∀ (fuel n : Nat) (ds : List Char),
    ds ≠ [] ∨ 0 < fuel → Nat.toDigitsCore 10 fuel n ds ≠ [] := by
  intro fuel
  induction fuel with
  | zero =>
    intro n ds h
    rcases h with h | h
    · exact h
    · exact absurd h (by decide)
  | succ f ih =>
    intro n ds _
    unfold Nat.toDigitsCore
    simp only []
    split
    · simp
    · exact ih _ _ (Or.inl (by simp))

theorem toString_nat_digits (n : Nat) :
    (toString n).data ≠ [] ∧ ∀ c ∈ (toString n).data, c.isDigit = true := by
  have e : (toString n).data = Nat.toDigitsCore 10 (n + 1) n [] := rfl
  rw [e]
  exact ⟨toDigitsCore_ne_nil _ _ _ (Or.inr (Nat.succ_pos n)),
    toDigitsCore_isDigit _ _ _ (by simp)⟩

theorem toString_int_digits (t : Int) (h : 0 < t) :
    (toString t).data ≠ [] ∧ ∀ c ∈ (toString t).data, c.isDigit = true := by
  cases t with
  | ofNat n => exact toString_nat_digits n
  | negSucc n => exact absurd h (by simp)

theorem parseSdes_empty : parseSdes "" = none := by decide

theorem specCryptoParams_of_parse (s : SDPSession) (media : SDPMedia)
    (tag suite key params : String) (hs : s.secure = true)
    (hp : parseSdes media.remoteCrypto = some (tag, suite, key, params)) :
    specCryptoParams s media =
      [{ name := "secure", value := "true" }, { name := "crypto_tag", value := tag },
       { name := "crypto_suite", value := suite }, { name := "crypto_key", value := key }]
        ++ (if params ≠ "" then [{ name := "crypto_params", value := params }] else []) := by
  have hne : media.remoteCrypto ≠ "" := by
    intro e
    rw [e, parseSdes_empty] at hp
    exact absurd hp (by simp)
  unfold specCryptoParams
  rw [if_pos hs, if_pos hne, hp]

theorem replyCrypto_line (E : Env) (s : SDPSession) (reply : List NamedString)
    (media : SDPMedia) (S K : String) (hs : s.secure = true)
    (hpos : 0 < getIntValue E reply "ocrypto_tag" (getIntValue E reply "crypto_tag" 1))
    (hS : getParam reply "ocrypto_suite" = some S)
    (hK : getParam reply "ocrypto_key" = some K) :
    (replyCrypto E s reply media).localCrypto =
      match getParam reply "ocrypto_params" with
      | some params =>
        toString (getIntValue E reply "ocrypto_tag" (getIntValue E reply "crypto_tag" 1))
          ++ " " ++ S ++ " " ++ K ++ " " ++ params
      | none =>
        toString (getIntValue E reply "ocrypto_tag" (getIntValue E reply "crypto_tag" 1))
          ++ " " ++ S ++ " " ++ K := by
  unfold replyCrypto
  rw [if_pos hs]
  simp only [hS, hK, if_pos hpos]
  rfl

/-- C26: in a secure session, when the reply gives a positive tag `T`, a suite `S` and a
key `K`, both non-empty and without space, the local crypto line `dispatchRtp` records
(lines 120-133) matches the SDES grammar of `buildChanRtp` and reads back as tag `T` in
decimal, suite `S` and key `K`, with the parameters `P` when the reply gave parameters `P`
that are not empty and do not begin with a space, and without parameters when the reply
gave none; a media that has this line as its remote crypto line gets from `buildChanRtp`
`secure=true`, `crypto_tag=T`, `crypto_suite=S`, `crypto_key=K` and `crypto_params=P`, the
last one only in the first case. -/
theorem sdes_round_trip (E : Env) (s : SDPSession) (reply : List NamedString)
    (media peer : SDPMedia) (p : List NamedString) (T : Int) (S K : String)
    (hs : s.secure = true)
    (hT : getIntValue E reply "ocrypto_tag" (getIntValue E reply "crypto_tag" 1) = T)
    (hpos : 0 < T)
    (hS : getParam reply "ocrypto_suite" = some S)
    (hK : getParam reply "ocrypto_key" = some K)
    (hSn : S.data ≠ []) (hSs : ' ' ∉ S.data) (hKn : K.data ≠ []) (hKs : ' ' ∉ K.data) :
    (∀ P : String, getParam reply "ocrypto_params" = some P → P ≠ "" →
      P.data.head? ≠ some ' ' →
      (replyCrypto E s reply media).localCrypto =
        toString T ++ " " ++ S ++ " " ++ K ++ " " ++ P ∧
      parseSdes (replyCrypto E s reply media).localCrypto = some (toString T, S, K, P) ∧
      (peer.remoteCrypto = (replyCrypto E s reply media).localCrypto →
        chanRtpCrypto s peer p =
          (p ++ [{ name := "secure", value := "true" },
                 { name := "crypto_tag", value := toString T },
                 { name := "crypto_suite", value := S },
                 { name := "crypto_key", value := K },
                 { name := "crypto_params", value := P }], peer))) ∧
    (getParam reply "ocrypto_params" = none →
      (replyCrypto E s reply media).localCrypto = toString T ++ " " ++ S ++ " " ++ K ∧
      parseSdes (replyCrypto E s reply media).localCrypto = some (toString T, S, K, "") ∧
      (peer.remoteCrypto = (replyCrypto E s reply media).localCrypto →
        chanRtpCrypto s peer p =
          (p ++ [{ name := "secure", value := "true" },
                 { name := "crypto_tag", value := toString T },
                 { name := "crypto_suite", value := S },
                 { name := "crypto_key", value := K }], peer))) := by
  have hline := replyCrypto_line E s reply media S K hs (by rw [hT]; exact hpos) hS hK
  rw [hT] at hline
  have hdig := toString_int_digits T hpos
  have hafter : mediaAfterBuild s peer = peer := by
    unfold mediaAfterBuild
    rw [if_pos hs]
  refine ⟨?_, ?_⟩
  · intro P hP hPn hPs
    rw [hP] at hline
    simp only [] at hline
    have hsd : toString T ++ " " ++ S ++ " " ++ K ++ " " ++ P = sdesLine (toString T) S K P := by
      unfold sdesLine
      rw [if_neg hPn, ← String.append_assoc]
    have hparse : parseSdes (replyCrypto E s reply media).localCrypto =
        some (toString T, S, K, P) := by
      rw [hline, hsd]
      exact parseSdes_line _ _ _ _ hdig.1 hdig.2 hSn hSs hKn hKs hPs
    refine ⟨hline, hparse, ?_⟩
    intro hpeer
    rw [chanRtpCrypto_eq, hafter,
      specCryptoParams_of_parse s peer _ _ _ _ hs (by rw [hpeer]; exact hparse), if_pos hPn]
    rfl
  · intro hP
    rw [hP] at hline
    simp only [] at hline
    have hsd : toString T ++ " " ++ S ++ " " ++ K = sdesLine (toString T) S K "" := by
      unfold sdesLine
      simp
    have hparse : parseSdes (replyCrypto E s reply media).localCrypto =
        some (toString T, S, K, "") := by
      rw [hline, hsd]
      exact parseSdes_line _ _ _ _ hdig.1 hdig.2 hSn hSs hKn hKs (by simp)
    refine ⟨hline, hparse, ?_⟩
    intro hpeer
    rw [chanRtpCrypto_eq, hafter,
      specCryptoParams_of_parse s peer _ _ _ _ hs (by rw [hpeer]; exact hparse)]
    simp

theorem sdes_round_trip_witness :
    getIntValue sampleEnv
        [⟨"ocrypto_tag", "2"⟩, ⟨"ocrypto_suite", "AES_CM_128_HMAC_SHA1_80"⟩,
         ⟨"ocrypto_key", "inline:LOCAL"⟩, ⟨"ocrypto_params", "2^20 1:4"⟩]
        "ocrypto_tag" (getIntValue sampleEnv
          [⟨"ocrypto_tag", "2"⟩, ⟨"ocrypto_suite", "AES_CM_128_HMAC_SHA1_80"⟩,
           ⟨"ocrypto_key", "inline:LOCAL"⟩, ⟨"ocrypto_params", "2^20 1:4"⟩]
          "crypto_tag" 1) = 2 ∧
    (replyCrypto sampleEnv (sampleSession true false)
        [⟨"ocrypto_tag", "2"⟩, ⟨"ocrypto_suite", "AES_CM_128_HMAC_SHA1_80"⟩,
         ⟨"ocrypto_key", "inline:LOCAL"⟩, ⟨"ocrypto_params", "2^20 1:4"⟩]
        (startedMedia "alaw=8" "")).localCrypto =
      "2 AES_CM_128_HMAC_SHA1_80 inline:LOCAL 2^20 1:4" ∧
    parseSdes (replyCrypto sampleEnv (sampleSession true false)
        [⟨"ocrypto_tag", "2"⟩, ⟨"ocrypto_suite", "AES_CM_128_HMAC_SHA1_80"⟩,
         ⟨"ocrypto_key", "inline:LOCAL"⟩, ⟨"ocrypto_params", "2^20 1:4"⟩]
        (startedMedia "alaw=8" "")).localCrypto =
      some ("2", "AES_CM_128_HMAC_SHA1_80", "inline:LOCAL", "2^20 1:4") :=
  ⟨by decide,
    ((sdes_round_trip sampleEnv (sampleSession true false)
      [⟨"ocrypto_tag", "2"⟩, ⟨"ocrypto_suite", "AES_CM_128_HMAC_SHA1_80"⟩,
       ⟨"ocrypto_key", "inline:LOCAL"⟩, ⟨"ocrypto_params", "2^20 1:4"⟩]
      (startedMedia "alaw=8" "") (startedMedia "alaw=8" "") [] 2
      "AES_CM_128_HMAC_SHA1_80" "inline:LOCAL" rfl (by decide) (by decide) (by decide)
      (by decide) (by decide) (by decide) (by decide) (by decide)).1
      "2^20 1:4" (by decide) (by decide) (by decide)).1.trans (by decide),
    ((sdes_round_trip sampleEnv (sampleSession true false)
      [⟨"ocrypto_tag", "2"⟩, ⟨"ocrypto_suite", "AES_CM_128_HMAC_SHA1_80"⟩,
       ⟨"ocrypto_key", "inline:LOCAL"⟩, ⟨"ocrypto_params", "2^20 1:4"⟩]
      (startedMedia "alaw=8" "") (startedMedia "alaw=8" "") [] 2
      "AES_CM_128_HMAC_SHA1_80" "inline:LOCAL" rfl (by decide) (by decide) (by decide)
      (by decide) (by decide) (by decide) (by decide) (by decide)).1
      "2^20 1:4" (by decide) (by decide) (by decide)).2.1.trans (by decide)⟩

/-! ## Forwarding of the mangled message -/

theorem dispatched_eq (T : IsupTx) (u : IsupIntercept) (type cic : Nat) (msg : Message)
    (label : SS7Label) (sls : Int) (accepted : Bool) :
    u.dispatched T type cic msg label sls accepted =
      { msu := T.createMSU type u.ssf label cic msg
        sent := (T.createMSU type u.ssf label cic msg).map (fun msu => (msu, label, sls))
        warned :=
          match T.createMSU type u.ssf label cic msg with
          | none => true
          | some msu => decide (T.transmitMSU msu label sls < 0) } := by
  unfold IsupIntercept.dispatched
  cases T.createMSU type u.ssf label cic msg <;> rfl

/-- C21 (counterexample): an IAM arrives in an MSU whose subservice field is 128 at an
interceptor whose own subservice field is 0; the `isup.mangle` message is enqueued, and
when it completes the MSU built and transmitted has the subservice field 0, that of the
interceptor, not that of the intercepted MSU. -/
theorem dispatched_ssf_counterexample :
    ({ sif := 5, data := [133, 0, 0, 0, 0, 44, 1, 1, 7, 9] } : SS7MSU).getSSF = 128 ∧
    (sampleIntercept false).ssf = 0 ∧
    (receivedMSU sampleIsupEnv (sampleIntercept false)
        { sif := 5, data := [133, 0, 0, 0, 0, 44, 1, 1, 7, 9] } (sampleLabel 10 20) 3).1 =
      HandledMSU.Accepted ∧
    ((receivedMSU sampleIsupEnv (sampleIntercept false)
        { sif := 5, data := [133, 0, 0, 0, 0, 44, 1, 1, 7, 9] } (sampleLabel 10 20) 3).2.map
      (fun m => ((IsupMessage.destruct sampleTx (m.dispatched true)).sent.map
        (fun x => (x.1.getSSF, x.1.data, x.2))))) =
      some (some (0, [5, 0, 0, 0, 0, 44, 1, 1, 4], sampleLabel 10 20, 3)) := by
  decide

theorem receivedMSU_message (X : IsupEnv) (u : IsupIntercept) (msu : SS7MSU)
    (label : SS7Label) (sls : Int) (m : IsupMessage)
    (h : (receivedMSU X u msu label sls).2 = some m) :
    ∃ (s0 s1 s2 : Fin 256) (rest : List (Fin 256)) (decoded : List NamedString),
      msu.getData (label.length + 1) 3 = some (s0 :: s1 :: s2 :: rest) ∧
      m = { name := "isup.mangle"
            params := [{ name := "address",
                         value := u.name ++ "/" ++ toString (s0.val ||| (s1.val <<< 8)) },
                       { name := "sls", value := toString sls }] ++ decoded
            isup := u, type := s2.val, cic := s0.val ||| (s1.val <<< 8), label := label
            sls := sls, accepted := false } := by
  have hi : (interceptMSU X u msu label sls).2 = some m := by
    unfold receivedMSU at h
    split at h
    · exact absurd h (by simp)
    · split at h
      · exact absurd h (by simp)
      · exact h
  cases hg : msu.getData (label.length + 1) 3 with
  | none =>
    rw [interceptMSU_short X u msu label sls hg] at hi
    exact absurd hi (by simp)
  | some l =>
    obtain ⟨s0, s1, s2, rest, rfl⟩ := getData_some_shape msu (label.length + 1) l hg
    rw [interceptMSU_of_bytes X u msu label sls s0 s1 s2 rest hg] at hi
    split at hi
    · cases hdec : X.decodeMessage s2.val label.type rest
          (usub32 (usub32 (usub32 msu.data.length label.length) 1) 3) with
      | none =>
        rw [processMSU_failed X u _ _ _ _ _ _ hdec] at hi
        exact absurd hi (by simp)
      | some decoded =>
        rw [processMSU_decoded X u _ _ _ _ _ _ decoded hdec] at hi
        simp only [Option.some.injEq] at hi
        exact ⟨s0, s1, s2, rest, decoded, rfl, hi.symm⟩
    · exact absurd hi (by simp)

/-- C21 (amended): when an `isup.mangle` message completes, `dispatched` has its name and
parameters, as the handlers left them, encoded into an MSU with the message type and the
CIC of the intercepted message, the routing label it was received with and the subservice
field of the interceptor (whatever the subservice field of the intercepted MSU was), and
has that MSU transmitted with the same label and the SLS of the intercepted MSU; a failure
to encode or to transmit is logged. The MSU built, the transmission and the logging are
the same whether the dispatcher accepted the message or not. -/
theorem dispatched_forward (T : IsupTx) (X : IsupEnv) (u : IsupIntercept) (msu : SS7MSU)
    (label : SS7Label) (sls : Int) (m : IsupMessage)
    (h : (receivedMSU X u msu label sls).2 = some m) :
    (∃ (b0 b1 b2 : Fin 256) (rest : List (Fin 256)),
      msu.getData (label.length + 1) 3 = some (b0 :: b1 :: b2 :: rest) ∧
      m.type = b2.val ∧ m.cic = b0.val ||| (b1.val <<< 8)) ∧
    (∀ (params : List NamedString) (accepted : Bool),
      IsupMessage.destruct T ({ m with params := params }.dispatched accepted) =
        { msu := T.createMSU m.type u.ssf label m.cic { name := "isup.mangle", params := params }
          sent := (T.createMSU m.type u.ssf label m.cic
            { name := "isup.mangle", params := params }).map (fun x => (x, label, sls))
          warned :=
            match T.createMSU m.type u.ssf label m.cic
                { name := "isup.mangle", params := params } with
            | none => true
            | some x => decide (T.transmitMSU x label sls < 0) }) ∧
    (∀ params : List NamedString,
      IsupMessage.destruct T ({ m with params := params }.dispatched true) =
        IsupMessage.destruct T ({ m with params := params }.dispatched false)) := by
  obtain ⟨s0, s1, s2, rest, decoded, hg, rfl⟩ := receivedMSU_message X u msu label sls m h
  refine ⟨⟨s0, s1, s2, rest, hg, rfl, rfl⟩, ?_, ?_⟩
  · intro params accepted
    unfold IsupMessage.destruct IsupMessage.dispatched
    exact dispatched_eq T u _ _ _ label sls accepted
  · intro params
    unfold IsupMessage.destruct IsupMessage.dispatched
    rw [dispatched_eq, dispatched_eq]

theorem dispatched_forward_witness :
    (receivedMSU sampleIsupEnv (sampleIntercept false)
        { sif := 5, data := [5, 0, 0, 0, 0, 44, 1, 1, 7, 9] } (sampleLabel 10 20) 3).2.map
      (fun m => (m.type, m.cic)) = some (1, 300) ∧
    ∃ m : IsupMessage,
      (receivedMSU sampleIsupEnv (sampleIntercept false)
        { sif := 5, data := [5, 0, 0, 0, 0, 44, 1, 1, 7, 9] } (sampleLabel 10 20) 3).2
        = some m ∧
      IsupMessage.destruct sampleTx
          ({ m with params := [⟨"CalledPartyNumber", "123"⟩] }.dispatched true) =
        IsupMessage.destruct sampleTx
          ({ m with params := [⟨"CalledPartyNumber", "123"⟩] }.dispatched false) ∧
      (IsupMessage.destruct sampleTx
          ({ m with params := [⟨"CalledPartyNumber", "123"⟩] }.dispatched false)).sent =
        some ({ sif := 5, data := [5, 0, 0, 0, 0, 44, 1, 1, 1] }, sampleLabel 10 20, 3) :=
  ⟨by decide,
    { name := "isup.mangle"
      params := [⟨"address", "mangler/300"⟩, ⟨"sls", "3"⟩, ⟨"Param_7", "7"⟩, ⟨"Param_9", "9"⟩]
      isup := sampleIntercept false, type := 1, cic := 300, label := sampleLabel 10 20
      sls := 3, accepted := false },
    by decide,
    (dispatched_forward sampleTx sampleIsupEnv (sampleIntercept false)
      { sif := 5, data := [5, 0, 0, 0, 0, 44, 1, 1, 7, 9] } (sampleLabel 10 20) 3
      { name := "isup.mangle"
        params := [⟨"address", "mangler/300"⟩, ⟨"sls", "3"⟩, ⟨"Param_7", "7"⟩,
          ⟨"Param_9", "9"⟩]
        isup := sampleIntercept false, type := 1, cic := 300, label := sampleLabel 10 20
        sls := 3, accepted := false }
      (by decide)).2.2 [⟨"CalledPartyNumber", "123"⟩],
    by decide⟩

/-! ## The result of `setMedia` -/

/-- C23: the session holds the audio media `alaw`; `setMedia` with a new list that holds
the same audio media and a video media besides makes this list the session's list and
returns false, although a media was added and the function is to "return true if
changed" (line 54). -/
theorem setMedia_added_counterexample :
    (setMedia (sampleOps true)
        { sampleSession false false with rtpMedia := some [sampleMedia "audio" "alaw" ""] }
        (some [sampleMedia "audio" "alaw" "", sampleMedia "video" "h261" ""])).2 = false ∧
    (setMedia (sampleOps true)
        { sampleSession false false with rtpMedia := some [sampleMedia "audio" "alaw" ""] }
        (some [sampleMedia "audio" "alaw" "", sampleMedia "video" "h261" ""])).1.rtpMedia =
      some [sampleMedia "audio" "alaw" "", sampleMedia "video" "h261" ""] ∧
    (some [sampleMedia "audio" "alaw" "", sampleMedia "video" "h261" ""] :
        Option (List SDPMedia)) ≠ some [sampleMedia "audio" "alaw" ""] ∧
    (sampleOps true).sameAs (sampleMedia "audio" "alaw" "")
      (findMedia (some [sampleMedia "audio" "alaw" "", sampleMedia "video" "h261" ""]) "audio")
      (sampleOps true).ignorePort = true := by
  decide

/-- What `setMedia` computes: in every case the media list of the session afterwards is
the new list, no other member of the session changing. The result is true exactly when the
session had no media list and is given one, or when some media of the previous list is
not the same (`sameAs`) as the first media of its name in the new list, which includes a
media that has no namesake there and every media of the previous list when the new list
is null; a media that only the new list holds does not make the result true. -/
theorem setMedia_changed (O : SdpOps) (s : SDPSession) (media : Option (List SDPMedia)) :
    (setMedia O s media).1 = { s with rtpMedia := media } ∧
    ((setMedia O s media).2 = true ↔
      ((s.rtpMedia = none ∧ media ≠ none) ∨
        ∃ tmp : List SDPMedia, s.rtpMedia = some tmp ∧
          ∃ m ∈ tmp, media = none ∨
            O.sameAs m (findMedia media m.name) O.ignorePort = false)) ∧
    (∀ tmp : List SDPMedia, s.rtpMedia = some tmp →
      (∀ m ∈ tmp, O.sameAs m (findMedia media m.name) O.ignorePort = true) →
      media ≠ none → (setMedia O s media).2 = false) := by
  have hiff : ∀ tmp : List SDPMedia,
      (tmp.any (fun m => !(media.isSome && O.sameAs m (findMedia media m.name) O.ignorePort))
        = true) ↔
      ∃ m ∈ tmp, media = none ∨ O.sameAs m (findMedia media m.name) O.ignorePort = false := by
    intro tmp
    rw [List.any_eq_true]
    constructor
    · rintro ⟨m, hm, hc⟩
      refine ⟨m, hm, ?_⟩
      cases media with
      | none => exact Or.inl rfl
      | some l =>
        right
        simpa using hc
    · rintro ⟨m, hm, hc⟩
      refine ⟨m, hm, ?_⟩
      rcases hc with rfl | hc
      · simp
      · simp [hc]
  unfold setMedia
  by_cases h0 : media = none ∧ s.rtpMedia = none
  · rw [if_pos h0]
    obtain ⟨hm, hs⟩ := h0
    refine ⟨?_, ?_, ?_⟩
    · rw [hm, ← hs]
    · simp [hm, hs]
    · intro tmp ht
      rw [hs] at ht
      exact absurd ht (by simp)
  · rw [if_neg h0]
    cases hs : s.rtpMedia with
    | none =>
      have hm : media ≠ none := fun e => h0 ⟨e, hs⟩
      refine ⟨rfl, ?_, ?_⟩
      · simp only []
        constructor
        · intro _
          exact Or.inl ⟨trivial, hm⟩
        · intro _
          cases media with
          | none => exact absurd rfl hm
          | some l => rfl
      · intro tmp ht
        exact absurd ht (by simp)
    | some old =>
      refine ⟨rfl, ?_, ?_⟩
      · simp only []
        rw [hiff old]
        constructor
        · intro h
          exact Or.inr ⟨old, rfl, h⟩
        · rintro (⟨h1, _⟩ | ⟨tmp, ht, h⟩)
          · exact absurd h1 (by simp)
          · simp only [Option.some.injEq] at ht
            subst ht
            exact h
      · intro tmp ht hall hm
        simp only [Option.some.injEq] at ht
        subst ht
        simp only []
        cases hr : old.any
            (fun m => !(media.isSome && O.sameAs m (findMedia media m.name) O.ignorePort)) with
        | false => rfl
        | true =>
          obtain ⟨m, hmem, hc⟩ := (hiff old).1 hr
          rcases hc with hc | hc
          · exact absurd hc hm
          · rw [hall m hmem] at hc
            exact absurd hc (by simp)

theorem setMedia_changed_witness :
    (setMedia (sampleOps true)
        { sampleSession false false with rtpMedia := some [sampleMedia "audio" "alaw" ""] }
        (some [sampleMedia "audio" "mulaw" ""])).2 = true ∧
    (setMedia (sampleOps true)
        { sampleSession false false with rtpMedia := some [sampleMedia "audio" "alaw" ""] }
        (some [sampleMedia "audio" "alaw" "", sampleMedia "video" "h261" ""])).2 = false :=
  ⟨(setMedia_changed (sampleOps true)
      { sampleSession false false with rtpMedia := some [sampleMedia "audio" "alaw" ""] }
      (some [sampleMedia "audio" "mulaw" ""])).2.1.2
      (Or.inr ⟨[sampleMedia "audio" "alaw" ""], rfl, sampleMedia "audio" "alaw" "",
        by simp, Or.inr (by decide)⟩),
    (setMedia_changed (sampleOps true)
      { sampleSession false false with rtpMedia := some [sampleMedia "audio" "alaw" ""] }
      (some [sampleMedia "audio" "alaw" "", sampleMedia "video" "h261" ""])).2.2
      [sampleMedia "audio" "alaw" ""] rfl (by decide) (by decide)⟩

/-! ## Dispatch for every media of the session -/

theorem dispatchOutcomes_media (E : Env) (O : SdpOps) (addr : Option String) (start : Bool) :
    ∀ (l : List SDPMedia) (s : SDPSession),
      (dispatchOutcomes E O addr start s l).1.map (fun o => o.media) = l := by
  intro l
  induction l with
  | nil => intro s; rfl
  | cons m rest ih =>
    intro s
    unfold dispatchOutcomes
    simp only [List.map_cons]
    rw [ih]

theorem dispatchRtpLoop_spec (E : Env) (O : SdpOps) (addr : Option String) (start : Bool) :
    ∀ (l : List SDPMedia) (s : SDPSession) (kept : List SDPMedia) (ok : Bool),
      dispatchRtpLoop E O addr start l s kept ok =
        (ok || (dispatchOutcomes E O addr start s l).1.any (fun o => o.ok),
          (dispatchOutcomes E O addr start s l).2,
          kept ++ ((dispatchOutcomes E O addr start s l).1.filter (fun o => o.ok)).map
            (fun o => o.after)) := by
  intro l
  induction l with
  | nil =>
    intro s kept ok
    simp [dispatchRtpLoop, dispatchOutcomes]
  | cons m rest ih =>
    intro s kept ok
    unfold dispatchRtpLoop dispatchOutcomes
    simp only []
    by_cases h : (dispatchRtp E O s (some m) addr start true).1 = true
    · rw [if_pos h, ih]
      simp [h]
    · rw [if_neg h, ih]
      have hf : (dispatchRtp E O s (some m) addr start true).1 = false := by
        simpa using h
      simp [hf]

/-- C24: the list dispatch is a total function: for every media list it ends, having
dispatched every media of the list once, in the order of the list, with `pick` set. A
session without media list gives false and stays as it is. Otherwise the media list of the
session afterwards holds the media whose dispatch succeeded, as their dispatch left them,
in their original order, and no other; the result is true if and only if a dispatch
succeeded. -/
theorem dispatchRtpAll_spec (E : Env) (O : SdpOps) (s : SDPSession) (addr : Option String)
    (start : Bool) :
    (s.rtpMedia = none → dispatchRtpAll E O s addr start = (false, s)) ∧
    (∀ l : List SDPMedia, s.rtpMedia = some l →
      (dispatchOutcomes E O addr start s l).1.map (fun o => o.media) = l ∧
      (dispatchRtpAll E O s addr start).2 =
        { (dispatchOutcomes E O addr start s l).2 with
          rtpMedia := some (((dispatchOutcomes E O addr start s l).1.filter
            (fun o => o.ok)).map (fun o => o.after)) } ∧
      ((dispatchRtpAll E O s addr start).1 = true ↔
        ∃ o ∈ (dispatchOutcomes E O addr start s l).1, o.ok = true) ∧
      ((dispatchRtpAll E O s addr start).1 = false ↔
        (dispatchRtpAll E O s addr start).2.rtpMedia = some [])) := by
  refine ⟨?_, ?_⟩
  · intro h
    unfold dispatchRtpAll
    rw [h]
  · intro l h
    have hall : dispatchRtpAll E O s addr start =
        ((dispatchOutcomes E O addr start s l).1.any (fun o => o.ok),
          { (dispatchOutcomes E O addr start s l).2 with
            rtpMedia := some (((dispatchOutcomes E O addr start s l).1.filter
              (fun o => o.ok)).map (fun o => o.after)) }) := by
      unfold dispatchRtpAll
      rw [h]
      simp only []
      rw [dispatchRtpLoop_spec]
      simp
    refine ⟨dispatchOutcomes_media E O addr start l s, ?_, ?_, ?_⟩
    · rw [hall]
    · rw [hall]
      simp only [List.any_eq_true]
    · rw [hall]
      simp only [Option.some.injEq, List.map_eq_nil_iff, List.filter_eq_nil_iff]
      constructor
      · intro hf o ho
        intro hok
        have : (dispatchOutcomes E O addr start s l).1.any (fun o => o.ok) = true :=
          List.any_eq_true.2 ⟨o, ho, hok⟩
        rw [hf] at this
        exact absurd this (by simp)
      · intro hn
        cases hr : (dispatchOutcomes E O addr start s l).1.any (fun o => o.ok) with
        | false => rfl
        | true =>
          obtain ⟨o, ho, hok⟩ := List.any_eq_true.1 hr
          exact absurd hok (hn o ho)

theorem dispatchRtpAll_spec_witness :
    (dispatchRtpAll sampleEnv audioOnlyOps
        { sampleSession false false with
          rtpMedia := some [sampleMedia "video" "h261" "", startedMedia "alaw=8" ""] }
        (some "10.0.0.1") true).1 = true ∧
    (dispatchRtpAll sampleEnv audioOnlyOps
        { sampleSession false false with
          rtpMedia := some [sampleMedia "video" "h261" "", startedMedia "alaw=8" ""] }
        (some "10.0.0.1") true).2.rtpMedia = some [startedMedia "alaw=8" ""] ∧
    (dispatchOutcomes sampleEnv audioOnlyOps (some "10.0.0.1") true
        { sampleSession false false with
          rtpMedia := some [sampleMedia "video" "h261" "", startedMedia "alaw=8" ""] }
        [sampleMedia "video" "h261" "", startedMedia "alaw=8" ""]).1.map (fun o => o.ok) =
      [false, true] :=
  ⟨((dispatchRtpAll_spec sampleEnv audioOnlyOps
      { sampleSession false false with
        rtpMedia := some [sampleMedia "video" "h261" "", startedMedia "alaw=8" ""] }
      (some "10.0.0.1") true).2
      [sampleMedia "video" "h261" "", startedMedia "alaw=8" ""] rfl).2.2.1.2
      ⟨{ media := startedMedia "alaw=8" "", ok := true, after := startedMedia "alaw=8" "" },
        by decide, rfl⟩,
    by decide, by decide⟩

/-! ## Remapped payload numbers -/

theorem concatAll_append (a b : List String) :
    concatAll (a ++ b) = concatAll a ++ concatAll b := by
  induction a with
  | nil => simp [concatAll]
  | cons x xs ih => simp [concatAll, ih, String.append_assoc]

theorem split_empty : split "" ',' false = [] := by decide

theorem retained_remapped (E : Env) (pre post : List String) (s e : String) (P0 N : Int)
    (enc : String)
    (hpre : ∀ x ∈ pre, startsWith x (s ++ "=") = false)
    (he : startsWith e (s ++ "=") = true)
    (hP0 : E.payloads s = P0) (h0 : 0 ≤ P0)
    (hN : E.readInt (skipPast e '=') = some N) (hN0 : 0 ≤ N)
    (henc : E.rtpmap P0 = some enc) (hen : codecEnabled E s = true) (hs : s ≠ "g729b") :
    mappedPayload E (pre ++ e :: post) s = N ∧ defcode E (pre ++ e :: post) s = P0 ∧
      Retained E (pre ++ e :: post) s := by
  have hm : mappedPayload E (pre ++ e :: post) s = N := by
    rw [mappedPayload_mapped E pre post s e hpre he, hN]
    rfl
  have hd : defcode E (pre ++ e :: post) s = P0 := by
    unfold defcode
    rw [if_neg (by rw [hP0]; omega), hP0]
  refine ⟨hm, hd, hs, ?_, ?_, hen⟩
  · rw [hm]
    exact hN0
  · rw [hd, henc]
    rfl

theorem not_retained_unparsed (E : Env) (pre post : List String) (s e : String)
    (hpre : ∀ x ∈ pre, startsWith x (s ++ "=") = false)
    (he : startsWith e (s ++ "=") = true)
    (hneg : (E.readInt (skipPast e '=')).getD (-1) < 0) :
    ¬ Retained E (pre ++ e :: post) s := by
  intro hR
  have h := hR.2.1
  rw [mappedPayload_mapped E pre post s e hpre he] at h
  omega

/-- C30 (counterexample): `h261` has the static payload type 31; a video media whose only
format is `h261`, with the mapping entry `h261=x` that gives no number, has no payload
number for it, but the token is not omitted from the body: the `m=` line lists it as raw
format. -/
theorem createSDP_remapped_counterexample :
    videoEnv.payloads "h261" = 31 ∧ videoEnv.readInt (skipPast "h261=x" '=') = none ∧
    (createSDP videoEnv 1000 (sampleSession false false) (some "10.0.0.1")
        (some [sampleMedia "video" "h261" "h261=x"])).2 =
      some [⟨"v", "0"⟩, ⟨"o", "yate 1000 1000 IN IP4 10.0.0.1"⟩, ⟨"s", "SIP Call"⟩,
        ⟨"c", "IN IP4 10.0.0.1"⟩, ⟨"t", "0 0"⟩, ⟨"m", "video 0 RTP/AVP h261"⟩] := by
  decide

/-- C30 (amended): take a token of a media's format list that has the static payload type
`P0` and for which the mapping table has an entry `token=...`. When the first such entry
gives the number `N`, not negative, an encoding is registered for `P0`, the codec is
enabled and the token is not `g729b`, the loop adds `N` to the payload list of the `m=`
line and the line `rtpmap:N <encoding registered for P0>`, followed by the format
parameters for `N`: the mapping changes the number, not the encoding. When the entry gives
no number or a negative one, the loop adds no payload number and no `rtpmap` or `fmtp`
line for the token, static payload type or not; if then no other token of the media is
retained, an audio media is left out of the body and a media that is not audio has its
raw format list, this token included, on the `m=` line. -/
theorem createSDP_remapped (E : Env) (m : SDPMedia) (lpre lpost pre post : List String)
    (s e : String) (P0 : Int)
    (hl : split m.fmtList ',' false = lpre ++ s :: lpost)
    (hmap : split m.mappings ',' false = pre ++ e :: post)
    (hpre : ∀ x ∈ pre, startsWith x (s ++ "=") = false)
    (he : startsWith e (s ++ "=") = true)
    (hP0 : E.payloads s = P0) (h0 : 0 ≤ P0) :
    (∀ (N : Int) (enc : String), E.readInt (skipPast e '=') = some N → 0 ≤ N →
      E.rtpmap P0 = some enc → codecEnabled E s = true → s ≠ "g729b" →
      (∀ acc : FmtAcc,
        codecStep E (lpre ++ s :: lpost) (pre ++ e :: post) acc s =
          { frm := acc.frm ++ (" " ++ toString N)
            rtpmap := acc.rtpmap ++
              (("rtpmap:" ++ toString N ++ " " ++ enc) :: specFmtp (lpre ++ s :: lpost) s N)
            ptime := ptimeStep acc.ptime s }) ∧
      (codecLoop E m).frm =
        concatAll (lpre.map (specTokenPayload E (pre ++ e :: post))) ++
          ((" " ++ toString N) ++
            concatAll (lpost.map (specTokenPayload E (pre ++ e :: post)))) ∧
      (codecLoop E m).rtpmap =
        lpre.flatMap (specTokenLines E (lpre ++ s :: lpost) (pre ++ e :: post)) ++
          ((("rtpmap:" ++ toString N ++ " " ++ enc) :: specFmtp (lpre ++ s :: lpost) s N) ++
            lpost.flatMap (specTokenLines E (lpre ++ s :: lpost) (pre ++ e :: post))) ∧
      (∀ (sess : SDPSession) (addr : Option String),
        ∃ attrs : List NamedString,
          mediaBlock E sess addr m =
            { name := "m"
              value := mlineHead m ++
                ((codecLoop E m).frm ++ telePayload E sess m (codecLoop E m)) } :: attrs ∧
          attrLine ("rtpmap:" ++ toString N ++ " " ++ enc) ∈ attrs)) ∧
    ((E.readInt (skipPast e '=')).getD (-1) < 0 →
      (∀ acc : FmtAcc,
        (codecStep E (lpre ++ s :: lpost) (pre ++ e :: post) acc s).frm = acc.frm ∧
        (codecStep E (lpre ++ s :: lpost) (pre ++ e :: post) acc s).rtpmap = acc.rtpmap) ∧
      (codecLoop E m).frm =
        concatAll (lpre.map (specTokenPayload E (pre ++ e :: post))) ++
          concatAll (lpost.map (specTokenPayload E (pre ++ e :: post))) ∧
      (codecLoop E m).rtpmap =
        lpre.flatMap (specTokenLines E (lpre ++ s :: lpost) (pre ++ e :: post)) ++
          lpost.flatMap (specTokenLines E (lpre ++ s :: lpost) (pre ++ e :: post)) ∧
      (∀ (sess : SDPSession) (addr : Option String),
        (∀ t ∈ lpre ++ lpost, ¬ Retained E (pre ++ e :: post) t) →
        (m.audio = true → mediaBlock E sess addr m = []) ∧
        (m.audio = false →
          mediaBlock E sess addr m =
            { name := "m", value := mlineHead m ++ (" " ++ commasToSpaces m.fmtList) }
            :: (bagLines m ++ (ptimeLines (codecLoop E m).ptime).map attrLine
                ++ cryptoLines addr m)))) := by
  have hloop := codecLoop_spec E m
  rw [hl, hmap] at hloop
  refine ⟨?_, ?_⟩
  · intro N enc hN hN0 henc hen hs
    obtain ⟨hm, hd, hR⟩ :=
      retained_remapped E pre post s e P0 N enc hpre he hP0 h0 hN hN0 henc hen hs
    have hpay : specTokenPayload E (pre ++ e :: post) s = " " ++ toString N := by
      unfold specTokenPayload
      rw [if_pos hR, hm]
    have hlines : specTokenLines E (lpre ++ s :: lpost) (pre ++ e :: post) s =
        ("rtpmap:" ++ toString N ++ " " ++ enc) :: specFmtp (lpre ++ s :: lpost) s N := by
      unfold specTokenLines
      rw [if_pos hR, hm, hd, henc]
      rfl
    have hfrm : (codecLoop E m).frm =
        concatAll (lpre.map (specTokenPayload E (pre ++ e :: post))) ++
          ((" " ++ toString N) ++
            concatAll (lpost.map (specTokenPayload E (pre ++ e :: post)))) := by
      rw [hloop]
      simp only [List.map_append, List.map_cons, concatAll_append, concatAll, hpay]
    have hrt : (codecLoop E m).rtpmap =
        lpre.flatMap (specTokenLines E (lpre ++ s :: lpost) (pre ++ e :: post)) ++
          ((("rtpmap:" ++ toString N ++ " " ++ enc) :: specFmtp (lpre ++ s :: lpost) s N) ++
            lpost.flatMap (specTokenLines E (lpre ++ s :: lpost) (pre ++ e :: post))) := by
      rw [hloop]
      simp only [List.flatMap_append, List.flatMap_cons, hlines]
    refine ⟨?_, hfrm, hrt, ?_⟩
    · intro acc
      rw [codecStep_spec, hpay, hlines]
    · intro sess addr
      have hne : (codecLoop E m).frm ≠ "" := by
        intro h
        have := (codecLoop_frm_empty E m).1 h s (by rw [hl]; simp)
        rw [hmap] at this
        exact this hR
      refine ⟨_, mediaBlock_listed E sess addr m hne, ?_⟩
      rw [hrt]
      simp [attrLine]
  · intro hneg
    have hR := not_retained_unparsed E pre post s e hpre he hneg
    have hpay : specTokenPayload E (pre ++ e :: post) s = "" := by
      unfold specTokenPayload
      rw [if_neg hR]
    have hlines : specTokenLines E (lpre ++ s :: lpost) (pre ++ e :: post) s = [] := by
      unfold specTokenLines
      rw [if_neg hR]
    have hfrm : (codecLoop E m).frm =
        concatAll (lpre.map (specTokenPayload E (pre ++ e :: post))) ++
          concatAll (lpost.map (specTokenPayload E (pre ++ e :: post))) := by
      rw [hloop]
      simp only [List.map_append, List.map_cons, concatAll_append, concatAll, hpay]
      simp
    have hrt : (codecLoop E m).rtpmap =
        lpre.flatMap (specTokenLines E (lpre ++ s :: lpost) (pre ++ e :: post)) ++
          lpost.flatMap (specTokenLines E (lpre ++ s :: lpost) (pre ++ e :: post)) := by
      rw [hloop]
      simp only [List.flatMap_append, List.flatMap_cons, hlines, List.nil_append]
    refine ⟨?_, hfrm, hrt, ?_⟩
    · intro acc
      rw [codecStep_spec, hpay, hlines]
      simp
    · intro sess addr hnone
      have hempty : (codecLoop E m).frm = "" := by
        apply (codecLoop_frm_empty E m).2
        rw [hl, hmap]
        intro t ht
        rcases List.mem_append.1 ht with h1 | h1
        · exact hnone t (List.mem_append_left _ h1)
        · rcases List.mem_cons.1 h1 with rfl | h2
          · exact hR
          · exact hnone t (List.mem_append_right _ h2)
      have hfl : m.fmtList ≠ "" := by
        intro h
        rw [h, split_empty] at hl
        exact absurd hl (by simp)
      exact ⟨fun ha => mediaBlock_excluded E sess addr m ⟨hempty, Or.inl ha⟩,
        fun ha => mediaBlock_raw E sess addr m hempty ha hfl⟩

theorem createSDP_remapped_witness :
    split (sampleMedia "audio" "mulaw,alaw" "alaw=97").fmtList ',' false =
      ["mulaw"] ++ "alaw" :: [] ∧
    sampleEnv.payloads "alaw" = 8 ∧ sampleEnv.rtpmap 8 = some "PCMA/8000" ∧
    sampleEnv.readInt (skipPast "alaw=97" '=') = some 97 ∧
    (codecLoop sampleEnv (sampleMedia "audio" "mulaw,alaw" "alaw=97")).frm = " 0 97" ∧
    (codecLoop sampleEnv (sampleMedia "audio" "mulaw,alaw" "alaw=97")).rtpmap =
      ["rtpmap:0 PCMU/8000", "rtpmap:97 PCMA/8000"] ∧
    (∀ acc : FmtAcc,
      (codecStep videoEnv (([] : List String) ++ "h261" :: [])
        (([] : List String) ++ "h261=x" :: []) acc "h261").frm = acc.frm ∧
      (codecStep videoEnv (([] : List String) ++ "h261" :: [])
        (([] : List String) ++ "h261=x" :: []) acc "h261").rtpmap = acc.rtpmap) :=
  ⟨by decide, by decide, by decide, by decide,
    (((createSDP_remapped sampleEnv (sampleMedia "audio" "mulaw,alaw" "alaw=97")
      ["mulaw"] [] [] [] "alaw" "alaw=97" 8 (by decide) (by decide) (by decide) (by decide)
      (by decide) (by decide)).1 97 "PCMA/8000" (by decide) (by decide) (by decide)
      (by decide) (by decide)).2.1).trans (by decide),
    (((createSDP_remapped sampleEnv (sampleMedia "audio" "mulaw,alaw" "alaw=97")
      ["mulaw"] [] [] [] "alaw" "alaw=97" 8 (by decide) (by decide) (by decide) (by decide)
      (by decide) (by decide)).1 97 "PCMA/8000" (by decide) (by decide) (by decide)
      (by decide) (by decide)).2.2.1).trans (by decide),
    ((createSDP_remapped videoEnv (sampleMedia "video" "h261" "h261=x")
      [] [] [] [] "h261" "h261=x" 31 (by decide) (by decide) (by decide) (by decide)
      (by decide) (by decide)).2 (by decide)).1⟩

/-! ## The result of `updateRtpSDP` -/

/-- C29: the session holds the audio media `alaw` and has the RTP local address
192.0.2.7; `updateRtpSDP` with `rtp_addr=192.0.2.7`, `rtp_port=4000` and `formats=mulaw`
yields one media, the audio descriptor with the formats `mulaw` and the local port 4000,
so the media changed, and returns false, although the function is to "return true if
media changed" (line 255). -/
theorem updateRtpSDP_result_counterexample :
    audioSession.rtpMedia.map (fun l => l.map (fun m => (m.name, m.fmtList, m.localPort))) =
      some [("audio", "alaw", "")] ∧
    (updateRtpSDP sampleEnv (sampleOps true) audioSession
        [⟨"rtp_addr", "192.0.2.7"⟩, ⟨"rtp_port", "4000"⟩, ⟨"formats", "mulaw"⟩]).1.rtpMedia.map
        (fun l => l.map (fun m => (m.name, m.fmtList, m.localPort))) =
      some [("audio", "mulaw", "4000")] ∧
    (updateRtpSDP sampleEnv (sampleOps true) audioSession
        [⟨"rtp_addr", "192.0.2.7"⟩, ⟨"rtp_port", "4000"⟩, ⟨"formats", "mulaw"⟩]).2 = false := by
  decide

theorem setMedia_eq (O : SdpOps) (s : SDPSession) (media : Option (List SDPMedia)) :
    setMedia O s media =
      ({ s with rtpMedia := media },
        match s.rtpMedia with
        | none => media.isSome
        | some tmp =>
          tmp.any (fun m =>
            !(media.isSome && O.sameAs m (findMedia media m.name) O.ignorePort))) := by
  unfold setMedia
  by_cases h0 : media = none ∧ s.rtpMedia = none
  · rw [if_pos h0]
    obtain ⟨hm, hs⟩ := h0
    rw [hs, hm]
    simp only [Option.isSome_none]
    rw [← hs]
  · rw [if_neg h0]
    cases hs : s.rtpMedia <;> rfl

theorem appendMedia_eq (lst : Option (List SDPMedia)) (rtp : SDPMedia) :
    appendMedia lst rtp = some (lst.getD [] ++ [rtp]) := by
  cases lst <;> rfl

theorem updateRtpSDPStep_skip (E : Env) (O : SdpOps) (params : List NamedString)
    (sdpPrefix : String) (st : MediaLists) (p : NamedString)
    (h : yieldsMedia E O params p = false) :
    updateRtpSDPStep E O params sdpPrefix st p = st := by
  unfold yieldsMedia at h
  unfold updateRtpSDPStep
  cases hs : startSkip p.name "rtp_port" with
  | none => rfl
  | some tmp =>
    rw [hs] at h
    simp only [] at h ⊢
    by_cases h1 : tmp ≠ "" ∧ tmp.data.head? ≠ some '_'
    · rw [if_pos h1]
    · rw [if_neg h1]
      have h1' : tmp = "" ∨ tmp.data.head? = some '_' := by
        by_cases ht : tmp = ""
        · exact Or.inl ht
        · right
          by_contra hh
          exact h1 ⟨ht, hh⟩
      by_cases h2 : getBoolValue O params ("media" ++ tmp) (decide (tmp = "")) = false
      · rw [if_pos h2]
      · rw [if_neg h2]
        by_cases h3 : E.toInteger p.value 0 = 0
        · rw [if_pos h3]
        · rw [if_neg h3]
          by_cases h4 : getValue params ("formats" ++ tmp) "" = ""
          · rw [if_pos h4]
          · exfalso
            have h2' : getBoolValue O params ("media" ++ tmp) (decide (tmp = "")) = true := by
              simpa using h2
            simp [h1', h2', h3, h4] at h

theorem takeOrNew_isSome (O : SdpOps) (old : Option (List SDPMedia))
    (name trans fmts : String) (rport lport : Int) :
    (takeOrNew O old name trans fmts rport lport).2.1.isSome = old.isSome := by
  cases old with
  | none => rfl
  | some l =>
    cases hr : removeFirst name l with
    | none =>
      have hall := (removeFirst_none name l).1 hr
      rw [takeOrNew_new O (some l) name trans fmts rport lport (fun l' h' => by
        simp only [Option.some.injEq] at h'
        subst h'
        exact hall)]
    | some q =>
      obtain ⟨d, rest⟩ := q
      rw [takeOrNew_reused O l name trans fmts rport lport d rest hr]
      rfl

theorem updateRtpSDPStep_place (E : Env) (O : SdpOps) (params : List NamedString)
    (sdpPrefix : String) (st : MediaLists) (p : NamedString)
    (h : yieldsMedia E O params p = true) :
    ∃ rtp : SDPMedia,
      (updateRtpSDPStep E O params sdpPrefix st p).lst = appendMedia st.lst rtp ∧
      ((updateRtpSDPStep E O params sdpPrefix st p).old.isSome = st.old.isSome) ∧
      (∀ l0 l : List SDPMedia, st.old = some l0 →
        (updateRtpSDPStep E O params sdpPrefix st p).old = some l → l.Sublist l0) := by
  rcases updateRtpSDPStep_lists E O params sdpPrefix st p with hl | ⟨tmp, hl⟩
  · exfalso
    -- a yielding entry is placed: the step is not the identity on the list being built
    unfold yieldsMedia at h
    unfold updateRtpSDPStep at hl
    cases hs : startSkip p.name "rtp_port" with
    | none =>
      rw [hs] at h
      exact absurd h (by simp)
    | some t =>
      rw [hs] at h hl
      simp only [Bool.and_eq_true, decide_eq_true_eq] at h
      obtain ⟨⟨⟨h1, h2⟩, h3⟩, h4⟩ := h
      have h1' : ¬ (t ≠ "" ∧ t.data.head? ≠ some '_') := by
        rintro ⟨ha, hb⟩
        rcases h1 with h1 | h1
        · exact ha h1
        · exact hb h1
      simp only [] at hl
      rw [if_neg h1', if_neg (by rw [h2]; simp), if_neg h3, if_neg h4] at hl
      obtain ⟨mid, _, heq⟩ := placeRtpSDP_built E O params sdpPrefix st (decide (t = ""))
        (if t = "" then "audio" else skipPast t '_')
        (getValue params ("transport" ++ t) "RTP/AVP")
        (getValue params ("formats" ++ t) "") (E.toInteger p.value 0)
      rw [heq] at hl
      have hlst := congrArg MediaLists.lst hl
      simp only [appendMedia_eq] at hlst
      cases hst : st.lst with
      | none => rw [hst] at hlst; simp at hlst
      | some l =>
        rw [hst] at hlst
        simp only [Option.getD_some, Option.some.injEq] at hlst
        have := congrArg List.length hlst
        simp at this
  · obtain ⟨mid, _, heq⟩ := placeRtpSDP_built E O params sdpPrefix st (decide (tmp = ""))
      (if tmp = "" then "audio" else skipPast tmp '_')
      (getValue params ("transport" ++ tmp) "RTP/AVP")
      (getValue params ("formats" ++ tmp) "") (E.toInteger p.value 0)
    rw [hl, heq]
    refine ⟨_, rfl, ?_, ?_⟩
    · exact takeOrNew_isSome O st.old _ _ _ _ _
    · intro l0 l hold hnew
      simp only [] at hnew
      rw [hold] at hnew
      cases hr : removeFirst (if tmp = "" then "audio" else skipPast tmp '_') l0 with
      | none =>
        have hall := (removeFirst_none _ l0).1 hr
        rw [takeOrNew_new O (some l0) _ _ _ _ _ (fun l' h' => by
          simp only [Option.some.injEq] at h'
          subst h'
          exact hall)] at hnew
        simp only [Option.some.injEq] at hnew
        rw [← hnew]
      | some q =>
        obtain ⟨d, rest⟩ := q
        rw [takeOrNew_reused O l0 _ _ _ _ _ d rest hr] at hnew
        simp only [Option.some.injEq] at hnew
        obtain ⟨_, pre, post, hl0, hrest, _⟩ := removeFirst_some _ l0 d rest hr
        rw [← hnew, hrest, hl0]
        exact List.Sublist.append_left (List.sublist_cons_self d post) pre

theorem updateRtpSDP_fold (E : Env) (O : SdpOps) (params : List NamedString)
    (sdpPrefix : String) :
    ∀ (ps : List NamedString) (st : MediaLists),
      ∃ added : List SDPMedia,
        List.Forall₂
          (fun p rtp => ∃ st' : MediaLists,
            (updateRtpSDPStep E O params sdpPrefix st' p).lst = appendMedia st'.lst rtp)
          (ps.filter (yieldsMedia E O params)) added ∧
        (ps.foldl (updateRtpSDPStep E O params sdpPrefix) st).lst =
          (if added = [] then st.lst else some (st.lst.getD [] ++ added)) ∧
        (added = [] → ps.foldl (updateRtpSDPStep E O params sdpPrefix) st = st) ∧
        (ps.foldl (updateRtpSDPStep E O params sdpPrefix) st).old.isSome = st.old.isSome ∧
        (∀ l0 l : List SDPMedia, st.old = some l0 →
          (ps.foldl (updateRtpSDPStep E O params sdpPrefix) st).old = some l →
          l.Sublist l0) := by
  intro ps
  induction ps with
  | nil =>
    intro st
    refine ⟨[], List.Forall₂.nil, by simp, fun _ => rfl, rfl, ?_⟩
    intro l0 l h0 h1
    simp only [List.foldl_nil] at h1
    rw [h0] at h1
    simp only [Option.some.injEq] at h1
    rw [h1]
  | cons p ps ih =>
    intro st
    rw [List.foldl_cons]
    cases hy : yieldsMedia E O params p with
    | false =>
      rw [updateRtpSDPStep_skip E O params sdpPrefix st p hy]
      obtain ⟨added, hf, hlst, hnil, hsome, hsub⟩ := ih st
      refine ⟨added, ?_, hlst, hnil, hsome, hsub⟩
      rw [List.filter_cons_of_neg (by simp [hy])]
      exact hf
    | true =>
      obtain ⟨rtp, hstep, hsome1, hsub1⟩ :=
        updateRtpSDPStep_place E O params sdpPrefix st p hy
      obtain ⟨added, hf, hlst, _, hsome, hsub⟩ :=
        ih (updateRtpSDPStep E O params sdpPrefix st p)
      refine ⟨rtp :: added, ?_, ?_, ?_, ?_, ?_⟩
      · rw [List.filter_cons_of_pos (by simp [hy])]
        exact List.Forall₂.cons ⟨st, hstep⟩ hf
      · rw [hlst, hstep, appendMedia_eq]
        by_cases ha : added = []
        · simp [ha]
        · simp [ha]
      · intro h
        exact absurd h (by simp)
      · rw [hsome, hsome1]
      · intro l0 l h0 h1
        cases hmid : (updateRtpSDPStep E O params sdpPrefix st p).old with
        | none =>
          have := hsome1
          rw [hmid, h0] at this
          exact absurd this (by simp)
        | some lmid =>
          exact (hsub lmid l hmid h1).trans (hsub1 l0 lmid h0 hmid)

theorem updateRtpSDPList_none (E : Env) (O : SdpOps) (params : List NamedString)
    (oldList : Option (List SDPMedia))
    (h : getValue params "rtp_addr" "" = "" ∨ ∀ p ∈ params, yieldsMedia E O params p = false) :
    (updateRtpSDPList E O params oldList).1 = none ∧
      (updateRtpSDPList E O params oldList).2.2 = oldList := by
  unfold updateRtpSDPList
  by_cases ha : getValue params "rtp_addr" "" = ""
  · rw [if_pos ha]
    exact ⟨rfl, rfl⟩
  · rw [if_neg ha]
    rcases h with h | h
    · exact absurd h ha
    · obtain ⟨added, hf, _, hnil, _, _⟩ :=
        updateRtpSDP_fold E O params (getValue params "osdp-prefix" "osdp") params
          { old := oldList, lst := none }
      have hfil : params.filter (yieldsMedia E O params) = [] := by
        rw [List.filter_eq_nil_iff]
        intro p hp
        rw [h p hp]
        simp
      rw [hfil] at hf
      have hadd : added = [] := by
        cases hf
        rfl
      simp only []
      rw [hnil hadd]
      exact ⟨rfl, rfl⟩

theorem updateRtpSDPList_some (E : Env) (O : SdpOps) (params : List NamedString)
    (oldList : Option (List SDPMedia))
    (ha : getValue params "rtp_addr" "" ≠ "")
    (h : ∃ p ∈ params, yieldsMedia E O params p = true) :
    ∃ (lst : List SDPMedia) (left : Option (List SDPMedia)),
      List.Forall₂ (PlacedFor E O params) (params.filter (yieldsMedia E O params)) lst ∧
      updateRtpSDPList E O params oldList =
        (some lst, getValue params "rtp_addr" "", left) ∧
      left.isSome = oldList.isSome ∧
      (∀ l0 l : List SDPMedia, oldList = some l0 → left = some l → l.Sublist l0) := by
  obtain ⟨added, hf, hlst, _, hsome, hsub⟩ :=
    updateRtpSDP_fold E O params (getValue params "osdp-prefix" "osdp") params
      { old := oldList, lst := none }
  have hne : added ≠ [] := by
    intro hadd
    rw [hadd] at hf
    obtain ⟨p, hp, hy⟩ := h
    have hmem : p ∈ params.filter (yieldsMedia E O params) := List.mem_filter.2 ⟨hp, hy⟩
    have hlen := hf.length_eq
    cases hfil : params.filter (yieldsMedia E O params) with
    | nil => rw [hfil] at hmem; exact absurd hmem (by simp)
    | cons x xs => rw [hfil] at hlen; simp at hlen
  refine ⟨added, _, hf, ?_, hsome, hsub⟩
  unfold updateRtpSDPList
  rw [if_neg ha]
  simp only []
  rw [hlst, if_neg hne]
  simp

/-- What `updateRtpSDP(params)` computes: it returns false and leaves the session, with its
media list, the descriptors in it and the RTP local address, as it was whenever `params`
has no non-empty `rtp_addr` or none of its entries yields a media. Otherwise the media
list of the session becomes the list of the media placed for the entries that yield one,
in the order of the parameters, and the RTP local address becomes `rtp_addr`; the result
is true exactly when `rtp_addr` differs from the previous RTP local address, or the
session had no media list, or a descriptor that stays in the previous list, not having
been reused, is not the same (`sameAs`) as the first media of its name in the new list. A
reused descriptor, whatever the update made of it, does not make the result true. -/
theorem updateRtpSDP_result (E : Env) (O : SdpOps) (s : SDPSession)
    (params : List NamedString) :
    ((getValue params "rtp_addr" "" = "" ∨
        ∀ p ∈ params, yieldsMedia E O params p = false) →
      updateRtpSDP E O s params = (s, false)) ∧
    (getValue params "rtp_addr" "" ≠ "" →
      (∃ p ∈ params, yieldsMedia E O params p = true) →
      ∃ (lst : List SDPMedia) (left : Option (List SDPMedia)),
        List.Forall₂ (PlacedFor E O params) (params.filter (yieldsMedia E O params)) lst ∧
        updateRtpSDPList E O params s.rtpMedia =
          (some lst, getValue params "rtp_addr" "", left) ∧
        left.isSome = s.rtpMedia.isSome ∧
        (∀ l0 l : List SDPMedia, s.rtpMedia = some l0 → left = some l → l.Sublist l0) ∧
        (updateRtpSDP E O s params).1 =
          { s with rtpMedia := some lst, rtpLocalAddr := getValue params "rtp_addr" "" } ∧
        ((updateRtpSDP E O s params).2 = true ↔
          (s.rtpLocalAddr ≠ getValue params "rtp_addr" "" ∨ s.rtpMedia = none ∨
            ∃ l : List SDPMedia, left = some l ∧
              ∃ m ∈ l, O.sameAs m (findMedia (some lst) m.name) O.ignorePort = false))) := by
  refine ⟨?_, ?_⟩
  · intro h
    obtain ⟨h1, h2⟩ := updateRtpSDPList_none E O params s.rtpMedia h
    unfold updateRtpSDP
    simp only []
    rw [h1, h2]
  · intro ha h
    obtain ⟨lst, left, hf, heq, hsome, hsub⟩ :=
      updateRtpSDPList_some E O params s.rtpMedia ha h
    refine ⟨lst, left, hf, heq, hsome, hsub, ?_, ?_⟩
    · unfold updateRtpSDP
      simp only []
      rw [heq]
      simp only []
      rw [setMedia_eq]
    · unfold updateRtpSDP
      simp only []
      rw [heq]
      simp only []
      rw [setMedia_eq]
      simp only [Bool.or_eq_true, decide_eq_true_eq, Option.isSome_some, Bool.true_and]
      cases hl : left with
      | none =>
        have hn : s.rtpMedia = none := by
          rw [hl] at hsome
          cases hs : s.rtpMedia with
          | none => rfl
          | some l => rw [hs] at hsome; simp at hsome
        simp [hn]
      | some l =>
        have hn : s.rtpMedia ≠ none := by
          intro e
          rw [hl, e] at hsome
          simp at hsome
        simp only [List.any_eq_true, Bool.not_eq_true', Option.some.injEq, exists_eq_left']
        constructor
        · rintro (h1 | h1)
          · exact Or.inr (Or.inr h1)
          · exact Or.inl h1
        · rintro (h1 | h1 | h1)
          · exact Or.inr h1
          · exact absurd h1 hn
          · exact Or.inl h1

theorem updateRtpSDP_result_witness :
    updateRtpSDP sampleEnv (sampleOps true) audioSession
        [⟨"rtp_addr", "192.0.2.7"⟩, ⟨"rtp_port", "0"⟩, ⟨"formats", "mulaw"⟩] =
      (audioSession, false) ∧
    (updateRtpSDP sampleEnv (sampleOps true) audioSession
        [⟨"rtp_addr", "192.0.2.9"⟩, ⟨"rtp_port", "4000"⟩, ⟨"formats", "mulaw"⟩]).2 = true :=
  ⟨(updateRtpSDP_result sampleEnv (sampleOps true) audioSession
      [⟨"rtp_addr", "192.0.2.7"⟩, ⟨"rtp_port", "0"⟩, ⟨"formats", "mulaw"⟩]).1
      (Or.inr (by decide)),
    by
      obtain ⟨lst, left, _, _, _, _, _, hres⟩ :=
        (updateRtpSDP_result sampleEnv (sampleOps true) audioSession
          [⟨"rtp_addr", "192.0.2.9"⟩, ⟨"rtp_port", "4000"⟩, ⟨"formats", "mulaw"⟩]).2
          (by decide) ⟨⟨"rtp_port", "4000"⟩, by decide, by decide⟩
      exact hres.2 (Or.inl (by decide))⟩

/-! ## Reconfiguration of the interceptors -/

theorem declaredSDP_some (O : SdpOps) (params : List NamedString) (p : NamedString)
    (d : MediaDecl) (h : declaredSDP O params p = some d) :
    ∃ tmp : String, startSkip p.name "media" = some tmp ∧
      (tmp = "" ∨ tmp.data.head? = some '_') ∧
      O.toBoolean p.value (decide (tmp = "")) = true ∧
      (if tmp = "" ∧ getValue params ("formats" ++ tmp) "" = "" then O.defFormats
        else getValue params ("formats" ++ tmp) "") ≠ "" ∧
      d = { suffix := tmp
            name := if tmp = "" then "audio" else skipPast tmp '_'
            trans := getValue params ("transport" ++ tmp) "RTP/AVP"
            fmts := if tmp = "" ∧ getValue params ("formats" ++ tmp) "" = "" then O.defFormats
                    else getValue params ("formats" ++ tmp) ""
            lport := -1 } := by
  unfold declaredSDP at h
  cases hs : startSkip p.name "media" with
  | none =>
    rw [hs] at h
    exact absurd h (by simp)
  | some tmp =>
    rw [hs] at h
    simp only [] at h
    by_cases hc : (tmp = "" ∨ tmp.data.head? = some '_') ∧
        O.toBoolean p.value (decide (tmp = "")) = true ∧
        (if tmp = "" ∧ getValue params ("formats" ++ tmp) "" = "" then O.defFormats
          else getValue params ("formats" ++ tmp) "") ≠ ""
    · rw [if_pos hc] at h
      simp only [Option.some.injEq] at h
      exact ⟨tmp, rfl, hc.1, hc.2.1, hc.2.2, h.symm⟩
    · rw [if_neg hc] at h
      exact absurd h (by simp)

theorem updateSDPStep_declared (O : SdpOps) (s : SDPSession) (params : List NamedString)
    (sdpPrefix : String) (st : UpdateState) (p : NamedString) (d : MediaDecl)
    (h : declaredSDP O params p = some d) :
    updateSDPStep O s params sdpPrefix st p =
      { defaults := false
        lists := placeSDP O params sdpPrefix st.lists d.name d.trans d.fmts
          (if s.secure = true then getValue params ("crypto" ++ d.suffix) "" else "") } ∧
    isMediaEntry p = true ∧ d.lport = -1 := by
  obtain ⟨tmp, hs, h1, h2, h3, rfl⟩ := declaredSDP_some O params p d h
  have h1' : ¬ (tmp ≠ "" ∧ tmp.data.head? ≠ some '_') := by
    rintro ⟨ha, hb⟩
    rcases h1 with h1 | h1
    · exact ha h1
    · exact hb h1
  refine ⟨?_, ?_, rfl⟩
  · unfold updateSDPStep
    rw [hs]
    simp only []
    rw [if_neg h1', if_neg (by rw [h2]; simp), if_neg h3]
  · unfold isMediaEntry
    rw [hs]
    simpa using h1

theorem updateSDPStep_undeclared (O : SdpOps) (s : SDPSession) (params : List NamedString)
    (sdpPrefix : String) (st : UpdateState) (p : NamedString)
    (h : declaredSDP O params p = none) :
    (updateSDPStep O s params sdpPrefix st p).lists = st.lists ∧
    (updateSDPStep O s params sdpPrefix st p).defaults =
      (st.defaults && !isMediaEntry p) := by
  unfold declaredSDP at h
  unfold updateSDPStep isMediaEntry
  cases hs : startSkip p.name "media" with
  | none => simp
  | some tmp =>
    rw [hs] at h
    simp only [] at h ⊢
    by_cases h1 : tmp ≠ "" ∧ tmp.data.head? ≠ some '_'
    · rw [if_pos h1]
      have hn : ¬ (tmp = "" ∨ tmp.data.head? = some '_') := by
        rintro (ha | hb)
        · exact h1.1 ha
        · exact h1.2 hb
      simp [hn]
    · rw [if_neg h1]
      have h1' : tmp = "" ∨ tmp.data.head? = some '_' := by
        by_cases ht : tmp = ""
        · exact Or.inl ht
        · right
          by_contra hh
          exact h1 ⟨ht, hh⟩
      by_cases h2 : O.toBoolean p.value (decide (tmp = "")) = false
      · rw [if_pos h2]
        simp [h1']
      · rw [if_neg h2]
        have h2' : O.toBoolean p.value (decide (tmp = "")) = true := by simpa using h2
        by_cases h3 : (if tmp = "" ∧ getValue params ("formats" ++ tmp) "" = "" then
            O.defFormats else getValue params ("formats" ++ tmp) "") = ""
        · rw [if_pos h3]
          simp [h1']
        · exfalso
          rw [if_pos ⟨h1', h2', h3⟩] at h
          exact absurd h (by simp)

theorem updateSDP_fold (O : SdpOps) (s : SDPSession) (params : List NamedString)
    (sdpPrefix : String) :
    ∀ (ps : List NamedString) (st : UpdateState),
      ∃ added : List SDPMedia,
        ReusedFrom O (FinishedSDP s params) st.lists.old
          (ps.filterMap (declaredSDP O params)) added
          (ps.foldl (updateSDPStep O s params sdpPrefix) st).lists.old ∧
        (ps.foldl (updateSDPStep O s params sdpPrefix) st).lists.lst =
          (if added = [] then st.lists.lst else some (st.lists.lst.getD [] ++ added)) ∧
        (ps.foldl (updateSDPStep O s params sdpPrefix) st).defaults =
          (st.defaults && ps.all (fun p => !isMediaEntry p)) := by
  intro ps
  induction ps with
  | nil =>
    intro st
    refine ⟨[], ?_, by simp, by simp⟩
    simp [ReusedFrom]
  | cons p ps ih =>
    intro st
    rw [List.foldl_cons]
    obtain ⟨added, hr, hlst, hdef⟩ := ih (updateSDPStep O s params sdpPrefix st p)
    cases hd : declaredSDP O params p with
    | none =>
      obtain ⟨hl, hdf⟩ := updateSDPStep_undeclared O s params sdpPrefix st p hd
      refine ⟨added, ?_, ?_, ?_⟩
      · rw [List.filterMap_cons_none hd, ← hl]
        exact hr
      · rw [hlst, hl]
      · rw [hdef, hdf]
        simp [Bool.and_assoc]
    | some d =>
      obtain ⟨hstep, hme, hlp⟩ := updateSDPStep_declared O s params sdpPrefix st p d hd
      obtain ⟨rtp, heq, hk, hc⟩ := placeSDP_keeps O params sdpPrefix st.lists d.name d.trans
        d.fmts (if s.secure = true then getValue params ("crypto" ++ d.suffix) "" else "")
      have hold : (updateSDPStep O s params sdpPrefix st p).lists.old =
          (takeOrNew O st.lists.old d.name d.trans d.fmts (-1) (-1)).2.1 := by
        rw [hstep, heq]
      have hl1 : (updateSDPStep O s params sdpPrefix st p).lists.lst =
          some (st.lists.lst.getD [] ++ [rtp]) := by
        rw [hstep, heq, ← appendMedia_eq]
      refine ⟨rtp :: added, ?_, ?_, ?_⟩
      · rw [List.filterMap_cons_some hd]
        refine ⟨(takeOrNew O st.lists.old d.name d.trans d.fmts (-1) (-1)).1,
          (takeOrNew O st.lists.old d.name d.trans d.fmts (-1) (-1)).2.1, ?_, ⟨hk, hc⟩, ?_⟩
        · rw [hlp]
          exact takeOrNew_builtFrom O st.lists.old d.name d.trans d.fmts (-1) (-1)
        · rw [← hold]
          exact hr
      · rw [hlst, hl1]
        by_cases ha : added = []
        · simp [ha]
        · simp [ha]
      · rw [hdef, hstep]
        simp [hme]

theorem declaredRtp_some (E : Env) (O : SdpOps) (params : List NamedString)
    (p : NamedString) (d : MediaDecl) (h : declaredRtp E O params p = some d) :
    ∃ tmp : String, startSkip p.name "rtp_port" = some tmp ∧
      (tmp = "" ∨ tmp.data.head? = some '_') ∧
      getBoolValue O params ("media" ++ tmp) (decide (tmp = "")) = true ∧
      E.toInteger p.value 0 ≠ 0 ∧ getValue params ("formats" ++ tmp) "" ≠ "" ∧
      d = { suffix := tmp
            name := if tmp = "" then "audio" else skipPast tmp '_'
            trans := getValue params ("transport" ++ tmp) "RTP/AVP"
            fmts := getValue params ("formats" ++ tmp) ""
            lport := E.toInteger p.value 0 } := by
  unfold declaredRtp at h
  cases hs : startSkip p.name "rtp_port" with
  | none =>
    rw [hs] at h
    exact absurd h (by simp)
  | some tmp =>
    rw [hs] at h
    simp only [] at h
    by_cases hc : (tmp = "" ∨ tmp.data.head? = some '_') ∧
        getBoolValue O params ("media" ++ tmp) (decide (tmp = "")) = true ∧
        E.toInteger p.value 0 ≠ 0 ∧ getValue params ("formats" ++ tmp) "" ≠ ""
    · rw [if_pos hc] at h
      simp only [Option.some.injEq] at h
      exact ⟨tmp, rfl, hc.1, hc.2.1, hc.2.2.1, hc.2.2.2, h.symm⟩
    · rw [if_neg hc] at h
      exact absurd h (by simp)

theorem updateRtpSDPStep_declared (E : Env) (O : SdpOps) (params : List NamedString)
    (sdpPrefix : String) (st : MediaLists) (p : NamedString) (d : MediaDecl)
    (h : declaredRtp E O params p = some d) :
    updateRtpSDPStep E O params sdpPrefix st p =
      placeRtpSDP E O params sdpPrefix st (decide (d.suffix = "")) d.name d.trans d.fmts
        d.lport := by
  obtain ⟨tmp, hs, h1, h2, h3, h4, rfl⟩ := declaredRtp_some E O params p d h
  have h1' : ¬ (tmp ≠ "" ∧ tmp.data.head? ≠ some '_') := by
    rintro ⟨ha, hb⟩
    rcases h1 with h1 | h1
    · exact ha h1
    · exact hb h1
  unfold updateRtpSDPStep
  rw [hs]
  simp only []
  rw [if_neg h1', if_neg (by rw [h2]; simp), if_neg h3, if_neg h4]

theorem updateRtpSDPStep_undeclared (E : Env) (O : SdpOps) (params : List NamedString)
    (sdpPrefix : String) (st : MediaLists) (p : NamedString)
    (h : declaredRtp E O params p = none) :
    updateRtpSDPStep E O params sdpPrefix st p = st := by
  apply updateRtpSDPStep_skip
  unfold declaredRtp at h
  unfold yieldsMedia
  cases hs : startSkip p.name "rtp_port" with
  | none => rfl
  | some tmp =>
    rw [hs] at h
    simp only [] at h ⊢
    by_cases hc : (tmp = "" ∨ tmp.data.head? = some '_') ∧
        getBoolValue O params ("media" ++ tmp) (decide (tmp = "")) = true ∧
        E.toInteger p.value 0 ≠ 0 ∧ getValue params ("formats" ++ tmp) "" ≠ ""
    · rw [if_pos hc] at h
      exact absurd h (by simp)
    · cases hr : (decide (tmp = "" ∨ tmp.data.head? = some '_') &&
          getBoolValue O params ("media" ++ tmp) (decide (tmp = "")) &&
          decide (E.toInteger p.value 0 ≠ 0) &&
          decide (getValue params ("formats" ++ tmp) "" ≠ "")) with
      | false => rfl
      | true =>
        exfalso
        simp only [Bool.and_eq_true, decide_eq_true_eq] at hr
        exact hc ⟨hr.1.1.1, hr.1.1.2, hr.1.2, hr.2⟩

theorem updateRtpSDP_reuse_fold (E : Env) (O : SdpOps) (params : List NamedString)
    (sdpPrefix : String) :
    ∀ (ps : List NamedString) (st : MediaLists),
      ∃ added : List SDPMedia,
        ReusedFrom O (FinishedRtp O params) st.old
          (ps.filterMap (declaredRtp E O params)) added
          (ps.foldl (updateRtpSDPStep E O params sdpPrefix) st).old ∧
        (ps.foldl (updateRtpSDPStep E O params sdpPrefix) st).lst =
          (if added = [] then st.lst else some (st.lst.getD [] ++ added)) := by
  intro ps
  induction ps with
  | nil =>
    intro st
    refine ⟨[], ?_, by simp⟩
    simp [ReusedFrom]
  | cons p ps ih =>
    intro st
    rw [List.foldl_cons]
    obtain ⟨added, hr, hlst⟩ := ih (updateRtpSDPStep E O params sdpPrefix st p)
    cases hd : declaredRtp E O params p with
    | none =>
      have hl := updateRtpSDPStep_undeclared E O params sdpPrefix st p hd
      rw [hl] at hr hlst ⊢
      refine ⟨added, ?_, hlst⟩
      rw [List.filterMap_cons_none hd]
      exact hr
    | some d =>
      have hstep := updateRtpSDPStep_declared E O params sdpPrefix st p d hd
      obtain ⟨mid, hk, heq⟩ := placeRtpSDP_built E O params sdpPrefix st
        (decide (d.suffix = "")) d.name d.trans d.fmts d.lport
      have hc := keepsFrom_crypto mid (getValue params ("crypto" ++ O.suffix mid) "")
      have hold : (updateRtpSDPStep E O params sdpPrefix st p).old =
          (takeOrNew O st.old d.name d.trans d.fmts (-1) d.lport).2.1 := by
        rw [hstep, heq]
      have hl1 : (updateRtpSDPStep E O params sdpPrefix st p).lst =
          some (st.lst.getD [] ++
            [mid.crypto (getValue params ("crypto" ++ O.suffix mid) "") false]) := by
        rw [hstep, heq, ← appendMedia_eq]
      refine ⟨mid.crypto (getValue params ("crypto" ++ O.suffix mid) "") false :: added,
        ?_, ?_⟩
      · rw [List.filterMap_cons_some hd]
        refine ⟨(takeOrNew O st.old d.name d.trans d.fmts (-1) d.lport).1,
          (takeOrNew O st.old d.name d.trans d.fmts (-1) d.lport).2.1,
          takeOrNew_builtFrom O st.old d.name d.trans d.fmts (-1) d.lport,
          ⟨keepsFrom_trans hk hc.1, mid, hk, hc.2⟩, ?_⟩
        rw [← hold]
        exact hr
      · rw [hlst, hl1]
        by_cases ha : added = []
        · simp [ha]
        · simp [ha]

theorem reusedFrom_nil (O : SdpOps) (fin : MediaDecl → SDPMedia → SDPMedia → Prop)
    (old left : Option (List SDPMedia)) (ds : List MediaDecl)
    (h : ReusedFrom O fin old ds [] left) : ds = [] ∧ left = old := by
  cases ds with
  | nil => exact ⟨rfl, by simpa [ReusedFrom] using h⟩
  | cons d ds => simp [ReusedFrom] at h

theorem reusedFrom_length (O : SdpOps) (fin : MediaDecl → SDPMedia → SDPMedia → Prop) :
    ∀ (ds : List MediaDecl) (rtps : List SDPMedia) (old left : Option (List SDPMedia)),
      ReusedFrom O fin old ds rtps left → rtps.length = ds.length := by
  intro ds
  induction ds with
  | nil =>
    intro rtps old left h
    cases rtps with
    | nil => rfl
    | cons r rs => simp [ReusedFrom] at h
  | cons d ds ih =>
    intro rtps old left h
    cases rtps with
    | nil => simp [ReusedFrom] at h
    | cons r rs =>
      obtain ⟨base, mid, _, _, hrest⟩ := h
      simp only [List.length_cons]
      rw [ih rs mid left hrest]

/-- C15 (amended): the media list `updateSDP` gives the session holds one media for each
media the parameters declare, in their order, and the one `updateRtpSDP` gives it, when
`rtp_addr` is given and a media is declared, likewise. Each of these media is made from
the first descriptor of the declared name that is still in the session's media list, as
`SDPMedia::update` leaves it, and that descriptor leaves the list; a new descriptor is
made for a declared media only when the list is null or holds no descriptor of that name
any more. The media keeps name, transport, formats, ports, remote crypto line and
securable flag of the descriptor it is made from, and a `local-changed` flag that is set
stays set; its local crypto line becomes the value of `crypto[_suffix]`, in `updateSDP`
the empty line when the session is not secure. When the parameters declare no media,
`updateSDP` gives the session one new audio descriptor if they hold no `media` entry at
all, whatever the session's list holds, and no media list otherwise; `updateRtpSDP`
without `rtp_addr` or without declared media leaves the session's list as it is. -/
theorem updateSDP_reuse (E : Env) (O : SdpOps) (s : SDPSession)
    (params : List NamedString) :
    (∃ (added : List SDPMedia) (left : Option (List SDPMedia)),
      ReusedFrom O (FinishedSDP s params) s.rtpMedia
        (params.filterMap (declaredSDP O params)) added left ∧
      added.length = (params.filterMap (declaredSDP O params)).length ∧
      (updateSDP O s params).1.rtpMedia =
        (if added = [] then
          (if params.all (fun p => !isMediaEntry p) = true then
            some [O.newMedia "audio" "RTP/AVP" (getValue params "formats" O.defFormats)
              (-1) (-1)]
           else none)
         else some added)) ∧
    (∃ (added : List SDPMedia) (left : Option (List SDPMedia)),
      ReusedFrom O (FinishedRtp O params) s.rtpMedia
        (params.filterMap (declaredRtp E O params)) added left ∧
      added.length = (params.filterMap (declaredRtp E O params)).length ∧
      (updateRtpSDP E O s params).1.rtpMedia =
        (if getValue params "rtp_addr" "" = "" ∨ added = [] then s.rtpMedia
         else some added)) := by
  refine ⟨?_, ?_⟩
  · obtain ⟨added, hr, hlst, hdef⟩ :=
      updateSDP_fold O s params (getValue params "osdp-prefix" "osdp") params
        { defaults := true, lists := { old := s.rtpMedia, lst := none } }
    refine ⟨added, _, hr, reusedFrom_length O _ _ _ _ _ hr, ?_⟩
    unfold updateSDP
    simp only []
    rw [setMedia_eq]
    simp only [] at hlst hdef ⊢
    rw [hlst, hdef]
    by_cases ha : added = []
    · simp [ha]
    · simp [ha]
  · obtain ⟨added, hr, hlst⟩ :=
      updateRtpSDP_reuse_fold E O params (getValue params "osdp-prefix" "osdp") params
        { old := s.rtpMedia, lst := none }
    refine ⟨added, _, hr, reusedFrom_length O _ _ _ _ _ hr, ?_⟩
    unfold updateRtpSDP updateRtpSDPList
    by_cases haddr : getValue params "rtp_addr" "" = ""
    · rw [if_pos haddr, if_pos (Or.inl haddr)]
    · rw [if_neg haddr]
      simp only [] at hlst ⊢
      by_cases ha : added = []
      · rw [if_pos (Or.inr ha)]
        rw [ha] at hr hlst
        obtain ⟨_, hleft⟩ := reusedFrom_nil O _ _ _ _ hr
        rw [if_pos rfl] at hlst
        rw [hlst]
        simp only []
        exact hleft
      · rw [if_neg (by
          rintro (h | h)
          · exact haddr h
          · exact ha h)]
        rw [hlst, if_neg ha]
        simp only [Option.getD_none, List.nil_append]
        rw [setMedia_eq]

end Yate
